import Mathlib

/-!
# TinyFrame: frame composer, streaming parser and listener registry

A shallow embedding of `TinyFrame.c`.  The build-time configuration of
`TinyFrame.h` (field widths, checksum variant, start-of-frame byte, buffer and
table sizes, timeout) is a `Config` value; the global `tf` structure is passed
explicitly.  Machine integers are natural numbers reduced modulo the width of
their C type wherever the source converts to that type.
-/

namespace TinyFrame

/-! ## Configuration -/

/-- Checksum variant selected by `TF_CKSUM_TYPE` (0, 8, 16 or 32). -/
inductive CksumType where
  | none
  | xor8
  | crc16
  | crc32
  deriving DecidableEq, Repr

/-- Build-time constants of `TinyFrame.h`.  The widths are `sizeof` of the
integer types `TF_ID`, `TF_LEN` and `TF_TYPE`, in bytes. -/
structure Config where
  TF_ID_BYTES : Nat
  TF_LEN_BYTES : Nat
  TF_TYPE_BYTES : Nat
  TF_CKSUM_TYPE : CksumType
  TF_USE_SOF_BYTE : Bool
  TF_SOF_BYTE : Nat
  TF_MAX_PAYLOAD : Nat
  TF_PARSER_TIMEOUT_TICKS : Int
  TF_MAX_ID_LST : Nat
  TF_MAX_TYPE_LST : Nat
  TF_MAX_GEN_LST : Nat
  deriving Repr

/-- Width in bytes of the checksum type `TF_CKSUM` of each variant (one byte
when no checksum is used; the type is then never read or written). -/
def CksumType.bytes : CksumType → Nat
  | .none => 1
  | .xor8 => 1
  | .crc16 => 2
  | .crc32 => 4

/-- Value of `sizeof(TF_CKSUM)`. -/
def Config.TF_CKSUM_BYTES (cfg : Config) : Nat := cfg.TF_CKSUM_TYPE.bytes

/-- Configurations a build can have: every field type is at least one byte
wide, the start-of-frame constant is a byte, and the timeout threshold is
positive. -/
structure Config.WF (cfg : Config) : Prop where
  id_pos : 0 < cfg.TF_ID_BYTES
  len_pos : 0 < cfg.TF_LEN_BYTES
  type_pos : 0 < cfg.TF_TYPE_BYTES
  sof_lt : cfg.TF_SOF_BYTE < 256
  timeout_pos : 0 < cfg.TF_PARSER_TIMEOUT_TICKS

/-! ## Checksums -/

/-- CRC table for the CRC-16 (`crc16_table`). -/
def crc16_table : List Nat := [
  0x0000, 0xC0C1, 0xC181, 0x0140, 0xC301, 0x03C0, 0x0280, 0xC241,
  0xC601, 0x06C0, 0x0780, 0xC741, 0x0500, 0xC5C1, 0xC481, 0x0440,
  0xCC01, 0x0CC0, 0x0D80, 0xCD41, 0x0F00, 0xCFC1, 0xCE81, 0x0E40,
  0x0A00, 0xCAC1, 0xCB81, 0x0B40, 0xC901, 0x09C0, 0x0880, 0xC841,
  0xD801, 0x18C0, 0x1980, 0xD941, 0x1B00, 0xDBC1, 0xDA81, 0x1A40,
  0x1E00, 0xDEC1, 0xDF81, 0x1F40, 0xDD01, 0x1DC0, 0x1C80, 0xDC41,
  0x1400, 0xD4C1, 0xD581, 0x1540, 0xD701, 0x17C0, 0x1680, 0xD641,
  0xD201, 0x12C0, 0x1380, 0xD341, 0x1100, 0xD1C1, 0xD081, 0x1040,
  0xF001, 0x30C0, 0x3180, 0xF141, 0x3300, 0xF3C1, 0xF281, 0x3240,
  0x3600, 0xF6C1, 0xF781, 0x3740, 0xF501, 0x35C0, 0x3480, 0xF441,
  0x3C00, 0xFCC1, 0xFD81, 0x3D40, 0xFF01, 0x3FC0, 0x3E80, 0xFE41,
  0xFA01, 0x3AC0, 0x3B80, 0xFB41, 0x3900, 0xF9C1, 0xF881, 0x3840,
  0x2800, 0xE8C1, 0xE981, 0x2940, 0xEB01, 0x2BC0, 0x2A80, 0xEA41,
  0xEE01, 0x2EC0, 0x2F80, 0xEF41, 0x2D00, 0xEDC1, 0xEC81, 0x2C40,
  0xE401, 0x24C0, 0x2580, 0xE541, 0x2700, 0xE7C1, 0xE681, 0x2640,
  0x2200, 0xE2C1, 0xE381, 0x2340, 0xE101, 0x21C0, 0x2080, 0xE041,
  0xA001, 0x60C0, 0x6180, 0xA141, 0x6300, 0xA3C1, 0xA281, 0x6240,
  0x6600, 0xA6C1, 0xA781, 0x6740, 0xA501, 0x65C0, 0x6480, 0xA441,
  0x6C00, 0xACC1, 0xAD81, 0x6D40, 0xAF01, 0x6FC0, 0x6E80, 0xAE41,
  0xAA01, 0x6AC0, 0x6B80, 0xAB41, 0x6900, 0xA9C1, 0xA881, 0x6840,
  0x7800, 0xB8C1, 0xB981, 0x7940, 0xBB01, 0x7BC0, 0x7A80, 0xBA41,
  0xBE01, 0x7EC0, 0x7F80, 0xBF41, 0x7D00, 0xBDC1, 0xBC81, 0x7C40,
  0xB401, 0x74C0, 0x7580, 0xB541, 0x7700, 0xB7C1, 0xB681, 0x7640,
  0x7200, 0xB2C1, 0xB381, 0x7340, 0xB101, 0x71C0, 0x7080, 0xB041,
  0x5000, 0x90C1, 0x9181, 0x5140, 0x9301, 0x53C0, 0x5280, 0x9241,
  0x9601, 0x56C0, 0x5780, 0x9741, 0x5500, 0x95C1, 0x9481, 0x5440,
  0x9C01, 0x5CC0, 0x5D80, 0x9D41, 0x5F00, 0x9FC1, 0x9E81, 0x5E40,
  0x5A00, 0x9AC1, 0x9B81, 0x5B40, 0x9901, 0x59C0, 0x5880, 0x9841,
  0x8801, 0x48C0, 0x4980, 0x8941, 0x4B00, 0x8BC1, 0x8A81, 0x4A40,
  0x4E00, 0x8EC1, 0x8F81, 0x4F40, 0x8D01, 0x4DC0, 0x4C80, 0x8C41,
  0x4400, 0x84C1, 0x8581, 0x4540, 0x8701, 0x47C0, 0x4680, 0x8641,
  0x8201, 0x42C0, 0x4380, 0x8341, 0x4100, 0x81C1, 0x8081, 0x4040
]

/-- One CRC-16 step: `(cksum >> 8) ^ crc16_table[(cksum ^ byte) & 0xff]`, as a
`uint16_t`. -/
def crc16_byte (cksum byte : Nat) : Nat :=
  ((cksum >>> 8) ^^^ crc16_table.getD ((cksum ^^^ byte) &&& 0xff) 0) % 2 ^ 16

/-- CRC table for the CRC-32 (`crc32_table`). -/
def crc32_table : List Nat := [
  0x00000000, 0x77073096, 0xee0e612c, 0x990951ba, 0x076dc419, 0x706af48f,
  0xe963a535, 0x9e6495a3, 0x0edb8832, 0x79dcb8a4, 0xe0d5e91e, 0x97d2d988,
  0x09b64c2b, 0x7eb17cbd, 0xe7b82d07, 0x90bf1d91, 0x1db71064, 0x6ab020f2,
  0xf3b97148, 0x84be41de, 0x1adad47d, 0x6ddde4eb, 0xf4d4b551, 0x83d385c7,
  0x136c9856, 0x646ba8c0, 0xfd62f97a, 0x8a65c9ec, 0x14015c4f, 0x63066cd9,
  0xfa0f3d63, 0x8d080df5, 0x3b6e20c8, 0x4c69105e, 0xd56041e4, 0xa2677172,
  0x3c03e4d1, 0x4b04d447, 0xd20d85fd, 0xa50ab56b, 0x35b5a8fa, 0x42b2986c,
  0xdbbbc9d6, 0xacbcf940, 0x32d86ce3, 0x45df5c75, 0xdcd60dcf, 0xabd13d59,
  0x26d930ac, 0x51de003a, 0xc8d75180, 0xbfd06116, 0x21b4f4b5, 0x56b3c423,
  0xcfba9599, 0xb8bda50f, 0x2802b89e, 0x5f058808, 0xc60cd9b2, 0xb10be924,
  0x2f6f7c87, 0x58684c11, 0xc1611dab, 0xb6662d3d, 0x76dc4190, 0x01db7106,
  0x98d220bc, 0xefd5102a, 0x71b18589, 0x06b6b51f, 0x9fbfe4a5, 0xe8b8d433,
  0x7807c9a2, 0x0f00f934, 0x9609a88e, 0xe10e9818, 0x7f6a0dbb, 0x086d3d2d,
  0x91646c97, 0xe6635c01, 0x6b6b51f4, 0x1c6c6162, 0x856530d8, 0xf262004e,
  0x6c0695ed, 0x1b01a57b, 0x8208f4c1, 0xf50fc457, 0x65b0d9c6, 0x12b7e950,
  0x8bbeb8ea, 0xfcb9887c, 0x62dd1ddf, 0x15da2d49, 0x8cd37cf3, 0xfbd44c65,
  0x4db26158, 0x3ab551ce, 0xa3bc0074, 0xd4bb30e2, 0x4adfa541, 0x3dd895d7,
  0xa4d1c46d, 0xd3d6f4fb, 0x4369e96a, 0x346ed9fc, 0xad678846, 0xda60b8d0,
  0x44042d73, 0x33031de5, 0xaa0a4c5f, 0xdd0d7cc9, 0x5005713c, 0x270241aa,
  0xbe0b1010, 0xc90c2086, 0x5768b525, 0x206f85b3, 0xb966d409, 0xce61e49f,
  0x5edef90e, 0x29d9c998, 0xb0d09822, 0xc7d7a8b4, 0x59b33d17, 0x2eb40d81,
  0xb7bd5c3b, 0xc0ba6cad, 0xedb88320, 0x9abfb3b6, 0x03b6e20c, 0x74b1d29a,
  0xead54739, 0x9dd277af, 0x04db2615, 0x73dc1683, 0xe3630b12, 0x94643b84,
  0x0d6d6a3e, 0x7a6a5aa8, 0xe40ecf0b, 0x9309ff9d, 0x0a00ae27, 0x7d079eb1,
  0xf00f9344, 0x8708a3d2, 0x1e01f268, 0x6906c2fe, 0xf762575d, 0x806567cb,
  0x196c3671, 0x6e6b06e7, 0xfed41b76, 0x89d32be0, 0x10da7a5a, 0x67dd4acc,
  0xf9b9df6f, 0x8ebeeff9, 0x17b7be43, 0x60b08ed5, 0xd6d6a3e8, 0xa1d1937e,
  0x38d8c2c4, 0x4fdff252, 0xd1bb67f1, 0xa6bc5767, 0x3fb506dd, 0x48b2364b,
  0xd80d2bda, 0xaf0a1b4c, 0x36034af6, 0x41047a60, 0xdf60efc3, 0xa867df55,
  0x316e8eef, 0x4669be79, 0xcb61b38c, 0xbc66831a, 0x256fd2a0, 0x5268e236,
  0xcc0c7795, 0xbb0b4703, 0x220216b9, 0x5505262f, 0xc5ba3bbe, 0xb2bd0b28,
  0x2bb45a92, 0x5cb36a04, 0xc2d7ffa7, 0xb5d0cf31, 0x2cd99e8b, 0x5bdeae1d,
  0x9b64c2b0, 0xec63f226, 0x756aa39c, 0x026d930a, 0x9c0906a9, 0xeb0e363f,
  0x72076785, 0x05005713, 0x95bf4a82, 0xe2b87a14, 0x7bb12bae, 0x0cb61b38,
  0x92d28e9b, 0xe5d5be0d, 0x7cdcefb7, 0x0bdbdf21, 0x86d3d2d4, 0xf1d4e242,
  0x68ddb3f8, 0x1fda836e, 0x81be16cd, 0xf6b9265b, 0x6fb077e1, 0x18b74777,
  0x88085ae6, 0xff0f6a70, 0x66063bca, 0x11010b5c, 0x8f659eff, 0xf862ae69,
  0x616bffd3, 0x166ccf45, 0xa00ae278, 0xd70dd2ee, 0x4e048354, 0x3903b3c2,
  0xa7672661, 0xd06016f7, 0x4969474d, 0x3e6e77db, 0xaed16a4a, 0xd9d65adc,
  0x40df0b66, 0x37d83bf0, 0xa9bcae53, 0xdebb9ec5, 0x47b2cf7f, 0x30b5ffe9,
  0xbdbdf21c, 0xcabac28a, 0x53b39330, 0x24b4a3a6, 0xbad03605, 0xcdd70693,
  0x54de5729, 0x23d967bf, 0xb3667a2e, 0xc4614ab8, 0x5d681b02, 0x2a6f2b94,
  0xb40bbe37, 0xc30c8ea1, 0x5a05df1b, 0x2d02ef8d
]

/-- One CRC-32 step: `crc32_table[(cksum ^ byte) & 0xff] ^ (cksum >> 8)`, as a
`uint32_t`. -/
def crc32_byte (cksum byte : Nat) : Nat :=
  (crc32_table.getD ((cksum ^^^ (byte % 256)) &&& 0xff) 0 ^^^ (cksum >>> 8)) % 2 ^ 32

/-- Macro `CKSUM_RESET(cksum)`: the new value of `cksum`. -/
def CKSUM_RESET (t : CksumType) (cksum : Nat) : Nat :=
  match t with
  | .none => cksum
  | .xor8 => 0
  | .crc16 => 0
  | .crc32 => 0xFFFFFFFF

/-- Macro `CKSUM_ADD(cksum, byte)`: the new value of `cksum`. -/
def CKSUM_ADD (t : CksumType) (cksum byte : Nat) : Nat :=
  match t with
  | .none => cksum
  | .xor8 => (cksum ^^^ byte) % 2 ^ 8
  | .crc16 => crc16_byte cksum byte
  | .crc32 => crc32_byte cksum byte

/-- Macro `CKSUM_FINALIZE(cksum)`: the new value of `cksum`; the complement
`~cksum` converted to `TF_CKSUM` flips the low bits. -/
def CKSUM_FINALIZE (t : CksumType) (cksum : Nat) : Nat :=
  match t with
  | .none => cksum
  | .xor8 => (cksum ^^^ 0xFF) % 2 ^ 8
  | .crc16 => cksum
  | .crc32 => (cksum ^^^ 0xFFFFFFFF) % 2 ^ 32

/-! ## Data model -/

/-- Parser states (`enum TFState`). -/
inductive TFState where
  | SOF
  | LEN
  | HEAD_CKSUM
  | ID
  | TYPE
  | DATA
  | DATA_CKSUM
  deriving DecidableEq, Repr

/-- Slot of the ID listener table; `fn = none` is the null pointer. -/
structure IdListener (H : Type) where
  id : Nat
  fn : Option H

/-- Slot of the type listener table. -/
structure TypeListener (H : Type) where
  type : Nat
  fn : Option H

/-- Slot of the generic listener table. -/
structure GenericListener (H : Type) where
  fn : Option H

/-- The global `tf` (`struct TinyFrameStruct`).  `H` is the type of listener
function pointers; arrays are maps from the index to the element. -/
structure TinyFrameStruct (H : Type) where
  peer_bit : Nat
  next_id : Nat
  state : TFState
  parser_timeout_ticks : Int
  id : Nat
  len : Nat
  data : Nat → Nat
  rxi : Nat
  cksum : Nat
  ref_cksum : Nat
  type : Nat
  discard_data : Bool
  id_listeners : Nat → IdListener H
  type_listeners : Nat → TypeListener H
  generic_listeners : Nat → GenericListener H
  count_id_lst : Nat
  count_type_lst : Nat
  count_generic_lst : Nat
  sendbuf : Nat → Nat

/-- Arguments of one call of a listener or of `TF_HandleReceivedMessage`:
`data` holds the `data_len` bytes behind the data pointer. -/
structure Frame where
  frame_id : Nat
  type : Nat
  data : List Nat
  data_len : Nat
  deriving DecidableEq, Repr

/-- What one `TF_AcceptChar` call does besides updating `tf`: a store
`tf.data[idx] = byte`, or a call of `TF_HandleReceivedMessage`. -/
inductive Event where
  | store (idx byte : Nat)
  | dispatch (f : Frame)
  deriving DecidableEq, Repr

/-- The dispatcher calls among the events, in order. -/
def frames : List Event → List Frame
  | [] => []
  | Event.dispatch f :: es => f :: frames es
  | Event.store _ _ :: es => frames es

/-- The indices of the payload-buffer stores among the events, in order. -/
def stores : List Event → List Nat
  | [] => []
  | Event.dispatch _ :: es => stores es
  | Event.store i _ :: es => i :: stores es

/-- `TF_Init`: zero the structure, then set the peer bit. -/
def TF_Init {H : Type} (peer_bit : Nat) : TinyFrameStruct H :=
  { peer_bit := peer_bit
    next_id := 0
    state := TFState.SOF
    parser_timeout_ticks := 0
    id := 0
    len := 0
    data := fun _ => 0
    rxi := 0
    cksum := 0
    ref_cksum := 0
    type := 0
    discard_data := false
    id_listeners := fun _ => ⟨0, Option.none⟩
    type_listeners := fun _ => ⟨0, Option.none⟩
    generic_listeners := fun _ => ⟨Option.none⟩
    count_id_lst := 0
    count_type_lst := 0
    count_generic_lst := 0
    sendbuf := fun _ => 0 }

/-! ## Listeners -/

section Listeners
variable {H : Type}

/-- Loop of `TF_AddIdListener` with `n` iterations left at index `i`. -/
def TF_AddIdListener.loop (tf : TinyFrameStruct H) (frame_id : Nat) (cb : Option H) :
    Nat → Nat → Bool × TinyFrameStruct H
  | 0, _ => (false, tf)
  | n + 1, i =>
    if (tf.id_listeners i).fn.isNone then
      (true, { tf with
        id_listeners := Function.update tf.id_listeners i ⟨frame_id, cb⟩
        count_id_lst := if i ≥ tf.count_id_lst then i + 1 else tf.count_id_lst })
    else TF_AddIdListener.loop tf frame_id cb n (i + 1)

/-- `TF_AddIdListener`: the return value and the new `tf`. -/
def TF_AddIdListener (cfg : Config) (tf : TinyFrameStruct H) (frame_id : Nat) (cb : Option H) :
    Bool × TinyFrameStruct H :=
  TF_AddIdListener.loop tf frame_id cb cfg.TF_MAX_ID_LST 0

/-- Loop of `TF_AddTypeListener` with `n` iterations left at index `i`. -/
def TF_AddTypeListener.loop (tf : TinyFrameStruct H) (frame_type : Nat) (cb : Option H) :
    Nat → Nat → Bool × TinyFrameStruct H
  | 0, _ => (false, tf)
  | n + 1, i =>
    if (tf.type_listeners i).fn.isNone then
      (true, { tf with
        type_listeners := Function.update tf.type_listeners i ⟨frame_type, cb⟩
        count_type_lst := if i ≥ tf.count_type_lst then i + 1 else tf.count_type_lst })
    else TF_AddTypeListener.loop tf frame_type cb n (i + 1)

/-- `TF_AddTypeListener`: the return value and the new `tf`. -/
def TF_AddTypeListener (cfg : Config) (tf : TinyFrameStruct H) (frame_type : Nat)
    (cb : Option H) : Bool × TinyFrameStruct H :=
  TF_AddTypeListener.loop tf frame_type cb cfg.TF_MAX_TYPE_LST 0

/-- Loop of `TF_AddGenericListener` with `n` iterations left at index `i`. -/
def TF_AddGenericListener.loop (tf : TinyFrameStruct H) (cb : Option H) :
    Nat → Nat → Bool × TinyFrameStruct H
  | 0, _ => (false, tf)
  | n + 1, i =>
    if (tf.generic_listeners i).fn.isNone then
      (true, { tf with
        generic_listeners := Function.update tf.generic_listeners i ⟨cb⟩
        count_generic_lst :=
          if i ≥ tf.count_generic_lst then i + 1 else tf.count_generic_lst })
    else TF_AddGenericListener.loop tf cb n (i + 1)

/-- `TF_AddGenericListener`: the return value and the new `tf`. -/
def TF_AddGenericListener (cfg : Config) (tf : TinyFrameStruct H) (cb : Option H) :
    Bool × TinyFrameStruct H :=
  TF_AddGenericListener.loop tf cb cfg.TF_MAX_GEN_LST 0

/-- Loop of `TF_RemoveIdListener` with `n` iterations left at index `i`. -/
def TF_RemoveIdListener.loop (tf : TinyFrameStruct H) (frame_id : Nat) :
    Nat → Nat → Bool × TinyFrameStruct H
  | 0, _ => (false, tf)
  | n + 1, i =>
    if (tf.id_listeners i).fn.isSome ∧ (tf.id_listeners i).id = frame_id then
      (true, { tf with
        id_listeners := Function.update tf.id_listeners i ⟨(tf.id_listeners i).id, Option.none⟩
        count_id_lst := if i = tf.count_id_lst - 1 then tf.count_id_lst - 1 else tf.count_id_lst })
    else TF_RemoveIdListener.loop tf frame_id n (i + 1)

/-- `TF_RemoveIdListener`: the return value and the new `tf`. -/
def TF_RemoveIdListener (tf : TinyFrameStruct H) (frame_id : Nat) : Bool × TinyFrameStruct H :=
  TF_RemoveIdListener.loop tf frame_id tf.count_id_lst 0

/-- Loop of `TF_RemoveTypeListener` with `n` iterations left at index `i`. -/
def TF_RemoveTypeListener.loop (tf : TinyFrameStruct H) (type : Nat) :
    Nat → Nat → Bool × TinyFrameStruct H
  | 0, _ => (false, tf)
  | n + 1, i =>
    if (tf.type_listeners i).fn.isSome ∧ (tf.type_listeners i).type = type then
      (true, { tf with
        type_listeners :=
          Function.update tf.type_listeners i ⟨(tf.type_listeners i).type, Option.none⟩
        count_type_lst :=
          if i = tf.count_type_lst - 1 then tf.count_type_lst - 1 else tf.count_type_lst })
    else TF_RemoveTypeListener.loop tf type n (i + 1)

/-- `TF_RemoveTypeListener`: the return value and the new `tf`. -/
def TF_RemoveTypeListener (tf : TinyFrameStruct H) (type : Nat) : Bool × TinyFrameStruct H :=
  TF_RemoveTypeListener.loop tf type tf.count_type_lst 0

/-- Loop of `TF_RemoveGenericListener` with `n` iterations left at index `i`;
the comparison `fn == cb` is pointer equality, null included. -/
def TF_RemoveGenericListener.loop [DecidableEq H] (tf : TinyFrameStruct H) (cb : Option H) :
    Nat → Nat → Bool × TinyFrameStruct H
  | 0, _ => (false, tf)
  | n + 1, i =>
    if (tf.generic_listeners i).fn = cb then
      (true, { tf with
        generic_listeners := Function.update tf.generic_listeners i ⟨Option.none⟩
        count_generic_lst :=
          if i = tf.count_generic_lst - 1 then tf.count_generic_lst - 1
          else tf.count_generic_lst })
    else TF_RemoveGenericListener.loop tf cb n (i + 1)

/-- `TF_RemoveGenericListener`: the return value and the new `tf`. -/
def TF_RemoveGenericListener [DecidableEq H] (tf : TinyFrameStruct H) (cb : Option H) :
    Bool × TinyFrameStruct H :=
  TF_RemoveGenericListener.loop tf cb tf.count_generic_lst 0

/-- First loop of `TF_HandleReceivedMessage` (ID listeners), `n` iterations left
at index `i`: whether a listener returned true (the function returns), and the
listeners called.  `run h f` is the value listener `h` returns on `f`. -/
def TF_HandleReceivedMessage.idLoop (run : H → Frame → Bool) (tf : TinyFrameStruct H)
    (f : Frame) : Nat → Nat → Bool × List H
  | 0, _ => (false, [])
  | n + 1, i =>
    match (tf.id_listeners i).fn with
    | some h =>
      if (tf.id_listeners i).id = f.frame_id then
        if run h f then (true, [h])
        else
          let r := TF_HandleReceivedMessage.idLoop run tf f n (i + 1)
          (r.1, h :: r.2)
      else TF_HandleReceivedMessage.idLoop run tf f n (i + 1)
    | Option.none => TF_HandleReceivedMessage.idLoop run tf f n (i + 1)

/-- Second loop of `TF_HandleReceivedMessage` (type listeners). -/
def TF_HandleReceivedMessage.typeLoop (run : H → Frame → Bool) (tf : TinyFrameStruct H)
    (f : Frame) : Nat → Nat → Bool × List H
  | 0, _ => (false, [])
  | n + 1, i =>
    match (tf.type_listeners i).fn with
    | some h =>
      if (tf.type_listeners i).type = f.type then
        if run h f then (true, [h])
        else
          let r := TF_HandleReceivedMessage.typeLoop run tf f n (i + 1)
          (r.1, h :: r.2)
      else TF_HandleReceivedMessage.typeLoop run tf f n (i + 1)
    | Option.none => TF_HandleReceivedMessage.typeLoop run tf f n (i + 1)

/-- Third loop of `TF_HandleReceivedMessage` (generic listeners). -/
def TF_HandleReceivedMessage.genLoop (run : H → Frame → Bool) (tf : TinyFrameStruct H)
    (f : Frame) : Nat → Nat → Bool × List H
  | 0, _ => (false, [])
  | n + 1, i =>
    match (tf.generic_listeners i).fn with
    | some h =>
      if run h f then (true, [h])
      else
        let r := TF_HandleReceivedMessage.genLoop run tf f n (i + 1)
        (r.1, h :: r.2)
    | Option.none => TF_HandleReceivedMessage.genLoop run tf f n (i + 1)

/-- `TF_HandleReceivedMessage`: the listeners called, in call order. -/
def TF_HandleReceivedMessage (run : H → Frame → Bool) (tf : TinyFrameStruct H) (f : Frame) :
    List H :=
  let r1 := TF_HandleReceivedMessage.idLoop run tf f tf.count_id_lst 0
  if r1.1 then r1.2
  else
    let r2 := TF_HandleReceivedMessage.typeLoop run tf f tf.count_type_lst 0
    if r2.1 then r1.2 ++ r2.2
    else
      let r3 := TF_HandleReceivedMessage.genLoop run tf f tf.count_generic_lst 0
      r1.2 ++ r2.2 ++ r3.2

end Listeners

/-! ## Parser -/

section Parser
variable {H : Type}

/-- `TF_ResetParser`. -/
def TF_ResetParser (tf : TinyFrameStruct H) : TinyFrameStruct H :=
  { tf with state := TFState.SOF }

/-- `TF_ParsBeginFrame`: SOF was received. -/
def TF_ParsBeginFrame (cfg : Config) (tf : TinyFrameStruct H) : TinyFrameStruct H :=
  let ck := CKSUM_RESET cfg.TF_CKSUM_TYPE tf.cksum
  let ck := if cfg.TF_USE_SOF_BYTE then CKSUM_ADD cfg.TF_CKSUM_TYPE ck cfg.TF_SOF_BYTE else ck
  { tf with cksum := ck, discard_data := false, state := TFState.ID, rxi := 0 }

/-- Assignment of the macro `COLLECT_NUMBER(dest, type)`:
`dest = (type)(((dest) << 8) | c)`, with `bytes = sizeof(type)`. -/
def COLLECT_NUMBER (bytes dest c : Nat) : Nat :=
  ((dest <<< 8) ||| c) % 2 ^ (8 * bytes)

/-- The `switch (tf.state)` of `TF_AcceptChar`. -/
def TF_AcceptChar.switch (cfg : Config) (tf : TinyFrameStruct H) (c : Nat) :
    TinyFrameStruct H × List Event :=
  match tf.state with
  | TFState.SOF =>
    if c = cfg.TF_SOF_BYTE then (TF_ParsBeginFrame cfg tf, []) else (tf, [])
  | TFState.ID =>
    let tf := { tf with
      cksum := CKSUM_ADD cfg.TF_CKSUM_TYPE tf.cksum c
      id := COLLECT_NUMBER cfg.TF_ID_BYTES tf.id c
      rxi := tf.rxi + 1 }
    if tf.rxi = cfg.TF_ID_BYTES then ({ tf with state := TFState.LEN, rxi := 0 }, [])
    else (tf, [])
  | TFState.LEN =>
    let tf := { tf with
      cksum := CKSUM_ADD cfg.TF_CKSUM_TYPE tf.cksum c
      len := COLLECT_NUMBER cfg.TF_LEN_BYTES tf.len c
      rxi := tf.rxi + 1 }
    if tf.rxi = cfg.TF_LEN_BYTES then ({ tf with state := TFState.TYPE, rxi := 0 }, [])
    else (tf, [])
  | TFState.TYPE =>
    let tf := { tf with
      cksum := CKSUM_ADD cfg.TF_CKSUM_TYPE tf.cksum c
      type := COLLECT_NUMBER cfg.TF_TYPE_BYTES tf.type c
      rxi := tf.rxi + 1 }
    if tf.rxi = cfg.TF_TYPE_BYTES then
      if cfg.TF_CKSUM_TYPE = CksumType.none then
        ({ tf with state := TFState.DATA, rxi := 0 }, [])
      else ({ tf with state := TFState.HEAD_CKSUM, rxi := 0, ref_cksum := 0 }, [])
    else (tf, [])
  | TFState.HEAD_CKSUM =>
    let tf := { tf with
      ref_cksum := COLLECT_NUMBER cfg.TF_CKSUM_BYTES tf.ref_cksum c
      rxi := tf.rxi + 1 }
    if tf.rxi = cfg.TF_CKSUM_BYTES then
      let tf := { tf with cksum := CKSUM_FINALIZE cfg.TF_CKSUM_TYPE tf.cksum }
      if tf.cksum ≠ tf.ref_cksum then (TF_ResetParser tf, [])
      else if tf.len = 0 then
        (TF_ResetParser tf, [Event.dispatch ⟨tf.id, tf.type, [], 0⟩])
      else
        let tf := { tf with
          state := TFState.DATA
          rxi := 0
          cksum := CKSUM_RESET cfg.TF_CKSUM_TYPE tf.cksum }
        if tf.len ≥ cfg.TF_MAX_PAYLOAD then ({ tf with discard_data := true }, [])
        else (tf, [])
    else (tf, [])
  | TFState.DATA =>
    let r : TinyFrameStruct H × List Event :=
      if tf.discard_data then ({ tf with rxi := tf.rxi + 1 }, [])
      else
        ({ tf with
            cksum := CKSUM_ADD cfg.TF_CKSUM_TYPE tf.cksum c
            data := Function.update tf.data tf.rxi c
            rxi := tf.rxi + 1 },
          [Event.store tf.rxi c])
    let tf := r.1
    if tf.rxi = tf.len then
      if cfg.TF_CKSUM_TYPE = CksumType.none then
        (TF_ResetParser tf,
          r.2 ++ [Event.dispatch ⟨tf.id, tf.type, (List.range tf.len).map tf.data, tf.len⟩])
      else ({ tf with state := TFState.DATA_CKSUM, rxi := 0, ref_cksum := 0 }, r.2)
    else (tf, r.2)
  | TFState.DATA_CKSUM =>
    let tf := { tf with
      ref_cksum := COLLECT_NUMBER cfg.TF_CKSUM_BYTES tf.ref_cksum c
      rxi := tf.rxi + 1 }
    if tf.rxi = cfg.TF_CKSUM_BYTES then
      let tf := { tf with cksum := CKSUM_FINALIZE cfg.TF_CKSUM_TYPE tf.cksum }
      if !tf.discard_data ∧ tf.cksum = tf.ref_cksum then
        (TF_ResetParser tf,
          [Event.dispatch ⟨tf.id, tf.type, (List.range tf.len).map tf.data, tf.len⟩])
      else (TF_ResetParser tf, [])
    else (tf, [])

/-- `TF_AcceptChar`: the new `tf` and what the call did.  The counter `rxi` is a
`size_t`, taken to be at least as wide as `TF_LEN`, and is modelled without
wrap-around.  A store past the end of `tf.data` is undefined in C; here it is
recorded as an event and the run goes on. -/
def TF_AcceptChar (cfg : Config) (tf : TinyFrameStruct H) (c : Nat) :
    TinyFrameStruct H × List Event :=
  let tf :=
    if tf.parser_timeout_ticks ≥ cfg.TF_PARSER_TIMEOUT_TICKS then TF_ResetParser tf else tf
  let tf := { tf with parser_timeout_ticks := 0 }
  let tf :=
    if !cfg.TF_USE_SOF_BYTE ∧ tf.state = TFState.SOF then TF_ParsBeginFrame cfg tf else tf
  TF_AcceptChar.switch cfg tf c

/-- `TF_Accept`: the `count` bytes of `buffer` are the list. -/
def TF_Accept (cfg : Config) (tf : TinyFrameStruct H) :
    List Nat → TinyFrameStruct H × List Event
  | [] => (tf, [])
  | c :: cs =>
    let r := TF_AcceptChar cfg tf c
    let r2 := TF_Accept cfg r.1 cs
    (r2.1, r.2 ++ r2.2)

/-- `TF_Tick`: timebase hook. -/
def TF_Tick (cfg : Config) (tf : TinyFrameStruct H) : TinyFrameStruct H :=
  if tf.parser_timeout_ticks < cfg.TF_PARSER_TIMEOUT_TICKS then
    { tf with parser_timeout_ticks := tf.parser_timeout_ticks + 1 }
  else tf

end Parser

/-! ## Composer -/

section Composer
variable {H : Type}

/-- Modelled from the spec: the macro `TF_ID_PEERBIT` of `TinyFrame.h`, the top
bit of the ID field, reserved as the peer-identity bit. -/
def TF_ID_PEERBIT (cfg : Config) : Nat := 2 ^ (8 * cfg.TF_ID_BYTES - 1)

/-- Modelled from the spec: the macro `TF_ID_MASK` of `TinyFrame.h`, the usable
width of the ID field, all bits below the peer-identity bit. -/
def TF_ID_MASK (cfg : Config) : Nat := 2 ^ (8 * cfg.TF_ID_BYTES - 1) - 1

/-- `TF_ERROR`. -/
def TF_ERROR : Int := -1

/-- Local variables of `TF_Compose` that the write loops change. -/
structure ComposeLocals where
  outbuff : Nat → Nat
  pos : Nat
  cksum : Nat

/-- Macro `WRITENUM_BASE(type, num, xtra)` run from `i = n - 1` down to `0`:
`b = (uint8_t)(num >> (i*8) & 0xFF); outbuff[pos++] = b; xtra;` where `xtra`
maps the checksum and `b` to the new checksum. -/
def WRITENUM_BASE (xtra : Nat → Nat → Nat) (num : Nat) : Nat → ComposeLocals → ComposeLocals
  | 0, l => l
  | i + 1, l =>
    let b := ((num >>> (i * 8)) &&& 0xFF) % 256
    WRITENUM_BASE xtra num i
      { outbuff := Function.update l.outbuff l.pos b
        pos := l.pos + 1
        cksum := xtra l.cksum b }

/-- Macro `WRITENUM(type, num)`, with `bytes = sizeof(type)`. -/
def WRITENUM (bytes num : Nat) (l : ComposeLocals) : ComposeLocals :=
  WRITENUM_BASE (fun ck _ => ck) num bytes l

/-- Macro `WRITENUM_CKSUM(type, num)`, with `bytes = sizeof(type)`. -/
def WRITENUM_CKSUM (t : CksumType) (bytes num : Nat) (l : ComposeLocals) : ComposeLocals :=
  WRITENUM_BASE (CKSUM_ADD t) num bytes l

/-- Payload loop of `TF_Compose`:
`b = data[i]; outbuff[pos++] = b; CKSUM_ADD(cksum, b);`. -/
def TF_Compose.dataLoop (t : CksumType) : List Nat → ComposeLocals → ComposeLocals
  | [], l => l
  | b :: bs, l =>
    TF_Compose.dataLoop t bs
      { outbuff := Function.update l.outbuff l.pos b
        pos := l.pos + 1
        cksum := CKSUM_ADD t l.cksum b }

/-- Result of `TF_Compose`: the return value, the output buffer, the value
stored through `id_ptr` (when the store is reached) and the new `tf`. -/
structure ComposeResult (H : Type) where
  ret : Int
  outbuff : Nat → Nat
  id_out : Option Nat
  tf : TinyFrameStruct H

/-- The block `Gen ID` of `TF_Compose`: the ID of the frame and the new `tf`
(`tf.next_id++` wraps in the type `TF_ID`). -/
def TF_Compose.genId (cfg : Config) (tf : TinyFrameStruct H) (explicit_id : Nat)
    (use_expl_id : Bool) : Nat × TinyFrameStruct H :=
  if use_expl_id then (explicit_id, tf)
  else
    let id := (tf.next_id &&& TF_ID_MASK cfg) % 2 ^ (8 * cfg.TF_ID_BYTES)
    let tf1 := { tf with next_id := (tf.next_id + 1) % 2 ^ (8 * cfg.TF_ID_BYTES) }
    if tf.peer_bit ≠ 0 then ((id ||| TF_ID_PEERBIT cfg) % 2 ^ (8 * cfg.TF_ID_BYTES), tf1)
    else (id, tf1)

/-- `TF_Compose`.  The pair `data`, `data_len` is the list `data` with
`data_len` its length; `cksum` starts from an arbitrary value `0`. -/
def TF_Compose (cfg : Config) (tf : TinyFrameStruct H) (outbuff : Nat → Nat) (type : Nat)
    (data : List Nat) (explicit_id : Nat) (use_expl_id : Bool) : ComposeResult H :=
  let t := cfg.TF_CKSUM_TYPE
  let cksum := CKSUM_RESET t 0
  if data.length > cfg.TF_MAX_PAYLOAD then
    { ret := TF_ERROR, outbuff := outbuff, id_out := Option.none, tf := tf }
  else
    let gen := TF_Compose.genId cfg tf explicit_id use_expl_id
    let id := gen.1
    let l : ComposeLocals := { outbuff := outbuff, pos := 0, cksum := CKSUM_RESET t cksum }
    let l : ComposeLocals :=
      if cfg.TF_USE_SOF_BYTE then
        { outbuff := Function.update l.outbuff l.pos (cfg.TF_SOF_BYTE % 256)
          pos := l.pos + 1
          cksum := CKSUM_ADD t l.cksum cfg.TF_SOF_BYTE }
      else l
    let l := WRITENUM_CKSUM t cfg.TF_ID_BYTES id l
    let l := WRITENUM_CKSUM t cfg.TF_LEN_BYTES data.length l
    let l := WRITENUM_CKSUM t cfg.TF_TYPE_BYTES type l
    let l :=
      if t ≠ CksumType.none then
        let l := { l with cksum := CKSUM_FINALIZE t l.cksum }
        WRITENUM cfg.TF_CKSUM_BYTES l.cksum l
      else l
    let l :=
      if data.length > 0 then
        let l := { l with cksum := CKSUM_RESET t l.cksum }
        let l := TF_Compose.dataLoop t data l
        if t ≠ CksumType.none then
          let l := { l with cksum := CKSUM_FINALIZE t l.cksum }
          WRITENUM cfg.TF_CKSUM_BYTES l.cksum l
        else l
      else l
    { ret := (l.pos : Int), outbuff := l.outbuff, id_out := some id, tf := gen.2 }

/-- The first `n` bytes of a buffer. -/
def bufferBytes (buf : Nat → Nat) (n : Nat) : List Nat :=
  (List.range n).map buf

end Composer

/-! ## Sending -/

section Sending
variable {H : Type}

/-- Result of `TF_Send`: the return value, the new `tf`, the value stored
through `id_ptr` (when the pointer is not null and the store is reached), and
the bytes handed to `TF_WriteImpl` (when the call is reached): the first `n`
bytes of `tf.sendbuf`, `n` being the second argument of the call. -/
structure SendResult (H : Type) where
  ret : Bool
  tf : TinyFrameStruct H
  id_out : Option Nat
  written : Option (List Nat)

/-- `TF_Send`.  `TF_Compose` writes to `tf.sendbuf` and stores the ID in the
local `msgid`; `listener = none` is the null pointer and `has_id_ptr` tells
whether `id_ptr` is not null.  The cast `(TF_LEN)len` keeps the low
`8 * sizeof(TF_LEN)` bits of `len`. -/
def TF_Send (cfg : Config) (tf : TinyFrameStruct H) (type : Nat) (payload : List Nat)
    (listener : Option H) (has_id_ptr : Bool) : SendResult H :=
  let msgid := 0
  let r := TF_Compose cfg tf tf.sendbuf type payload 0 false
  let msgid := r.id_out.getD msgid
  let tf := { r.tf with sendbuf := r.outbuff }
  let len := r.ret
  if len = TF_ERROR then
    { ret := false, tf := tf, id_out := Option.none, written := Option.none }
  else
    let tf := if listener.isSome then (TF_AddIdListener cfg tf msgid listener).2 else tf
    let id_out := if has_id_ptr then some msgid else Option.none
    { ret := true, tf := tf, id_out := id_out,
      written := some (bufferBytes tf.sendbuf (len % 2 ^ (8 * cfg.TF_LEN_BYTES)).toNat) }

end Sending

/-! ## Wire format, as the specification words it -/

/-- Big-endian bytes of `x` in a field `w` bytes wide, most significant byte
first. -/
def bigEndian (w x : Nat) : List Nat :=
  (List.range w).reverse.map (fun i => x / 256 ^ i % 256)

/-- Finalized checksum of a byte sequence, started from a fresh reset. -/
def checksumOf (t : CksumType) (bs : List Nat) : Nat :=
  CKSUM_FINALIZE t (bs.foldl (CKSUM_ADD t) (CKSUM_RESET t 0))

/-- Header of a frame up to the type field: optional start-of-frame byte, ID,
payload length, type. -/
def wireHead (cfg : Config) (id type n : Nat) : List Nat :=
  (if cfg.TF_USE_SOF_BYTE then [cfg.TF_SOF_BYTE] else []) ++
    bigEndian cfg.TF_ID_BYTES id ++ bigEndian cfg.TF_LEN_BYTES n ++
    bigEndian cfg.TF_TYPE_BYTES type

/-- Header checksum field: absent in checksum mode none. -/
def wireHeadCksum (cfg : Config) (id type n : Nat) : List Nat :=
  if cfg.TF_CKSUM_TYPE = CksumType.none then []
  else bigEndian cfg.TF_CKSUM_BYTES (checksumOf cfg.TF_CKSUM_TYPE (wireHead cfg id type n))

/-- Payload checksum field: absent in checksum mode none and for an empty
payload. -/
def wireDataCksum (cfg : Config) (payload : List Nat) : List Nat :=
  if cfg.TF_CKSUM_TYPE = CksumType.none ∨ payload.length = 0 then []
  else bigEndian cfg.TF_CKSUM_BYTES (checksumOf cfg.TF_CKSUM_TYPE payload)

/-- The frame on the wire, in the serialization order of the specification. -/
def wireFormat (cfg : Config) (id type : Nat) (payload : List Nat) : List Nat :=
  wireHead cfg id type payload.length ++ wireHeadCksum cfg id type payload.length ++
    payload ++ wireDataCksum cfg payload

/-! ## Small configurations for concrete runs -/

/-- A build with one-byte ID and type, two-byte length, start-of-frame byte
`0x01`, a payload buffer of four bytes and listener tables of two slots. -/
def demoConfig (t : CksumType) : Config :=
  { TF_ID_BYTES := 1, TF_LEN_BYTES := 2, TF_TYPE_BYTES := 1, TF_CKSUM_TYPE := t,
    TF_USE_SOF_BYTE := true, TF_SOF_BYTE := 1, TF_MAX_PAYLOAD := 4,
    TF_PARSER_TIMEOUT_TICKS := 10,
    TF_MAX_ID_LST := 2, TF_MAX_TYPE_LST := 2, TF_MAX_GEN_LST := 2 }

/-- A build with one-byte ID, length and type, XOR checksum, start-of-frame
byte `0x01`, a payload buffer of 255 bytes and an ID listener table of one
slot. -/
def byteLenConfig : Config :=
  { TF_ID_BYTES := 1, TF_LEN_BYTES := 1, TF_TYPE_BYTES := 1, TF_CKSUM_TYPE := CksumType.xor8,
    TF_USE_SOF_BYTE := true, TF_SOF_BYTE := 1, TF_MAX_PAYLOAD := 255,
    TF_PARSER_TIMEOUT_TICKS := 10,
    TF_MAX_ID_LST := 1, TF_MAX_TYPE_LST := 1, TF_MAX_GEN_LST := 1 }

/-- The state after `TF_Init(0)` and `TF_AddIdListener(5, h10)` in the build
`byteLenConfig`: the one slot of the ID listener table is occupied. -/
def fullIdTable : TinyFrameStruct Nat :=
  (TF_AddIdListener byteLenConfig (TF_Init 0) 5 (some 10)).2

/-- The bytes `TF_Compose` leaves in a zeroed buffer for an explicit ID, from a
freshly initialised `tf`. -/
def composed (cfg : Config) (type : Nat) (data : List Nat) (id : Nat) : List Nat :=
  let r := TF_Compose cfg (TF_Init 0 : TinyFrameStruct Unit) (fun _ => 0) type data id true
  bufferBytes r.outbuff r.ret.toNat

/-! ## Auxiliary definitions used in statements and proofs -/

/-- Buffer after the bytes `bs` are stored from index `p` on. -/
def writeAt (buf : Nat → Nat) (p : Nat) : List Nat → Nat → Nat
  | [] => buf
  | b :: bs => writeAt (Function.update buf p b) (p + 1) bs

/-- State of the ID generator after `n` frames were composed without an
explicit ID, starting from `TF_Init peer`. -/
def afterGenerated (cfg : Config) (peer : Nat) : Nat → TinyFrameStruct Unit
  | 0 => TF_Init peer
  | n + 1 => (TF_Compose.genId cfg (afterGenerated cfg peer n) 0 false).2

/-- The ID generated for frame number `n` (counted from 0) after
`TF_Init peer`. -/
def nthGeneratedId (cfg : Config) (peer n : Nat) : Nat :=
  (TF_Compose.genId cfg (afterGenerated cfg peer n) 0 false).1

/-- Least index in `[i, i + n)` at which `p` holds: the slot at which a table
scan of `n` iterations from index `i` stops. -/
def firstIndex (p : Nat → Bool) : Nat → Nat → Option Nat
  | 0, _ => Option.none
  | n + 1, i => if p i then some i else firstIndex p n (i + 1)

/-- The calls `TF_AddIdListener(id, h)` for the pairs of the list in turn, every
handler non-null: whether all calls returned true, and the final `tf`. -/
def addIdListeners {H : Type} (cfg : Config) (tf : TinyFrameStruct H) :
    List (Nat × H) → Bool × TinyFrameStruct H
  | [] => (true, tf)
  | a :: as =>
    let r := TF_AddIdListener cfg tf a.1 (some a.2)
    let r2 := addIdListeners cfg r.2 as
    (r.1 && r2.1, r2.2)

/-- The calls `TF_AddTypeListener(type, h)` for the pairs of the list in turn. -/
def addTypeListeners {H : Type} (cfg : Config) (tf : TinyFrameStruct H) :
    List (Nat × H) → Bool × TinyFrameStruct H
  | [] => (true, tf)
  | a :: as =>
    let r := TF_AddTypeListener cfg tf a.1 (some a.2)
    let r2 := addTypeListeners cfg r.2 as
    (r.1 && r2.1, r2.2)

/-- The calls `TF_AddGenericListener(h)` for the handlers of the list in turn. -/
def addGenericListeners {H : Type} (cfg : Config) (tf : TinyFrameStruct H) :
    List H → Bool × TinyFrameStruct H
  | [] => (true, tf)
  | a :: as =>
    let r := TF_AddGenericListener cfg tf (some a)
    let r2 := addGenericListeners cfg r.2 as
    (r.1 && r2.1, r2.2)

/-- Number of live (non-null) slots among the first `n` of a table, given the
liveness of each slot. -/
def liveCount (live : Nat → Bool) (n : Nat) : Nat :=
  ((List.range n).filter live).length

/-- States of `tf` reachable from `TF_Init` by add-listener and remove-listener
calls, with any calls in between that leave the three tables and their used
counts alone (the parser and the composer do). -/
inductive RegistryReachable {H : Type} [DecidableEq H] (cfg : Config) :
    TinyFrameStruct H → Prop
  | init (peer : Nat) : RegistryReachable cfg (TF_Init peer)
  | other {tf tf2 : TinyFrameStruct H} : RegistryReachable cfg tf →
      tf2.id_listeners = tf.id_listeners → tf2.type_listeners = tf.type_listeners →
      tf2.generic_listeners = tf.generic_listeners → tf2.count_id_lst = tf.count_id_lst →
      tf2.count_type_lst = tf.count_type_lst → tf2.count_generic_lst = tf.count_generic_lst →
      RegistryReachable cfg tf2
  | addId {tf : TinyFrameStruct H} (key : Nat) (cb : Option H) :
      RegistryReachable cfg tf → RegistryReachable cfg (TF_AddIdListener cfg tf key cb).2
  | addType {tf : TinyFrameStruct H} (key : Nat) (cb : Option H) :
      RegistryReachable cfg tf → RegistryReachable cfg (TF_AddTypeListener cfg tf key cb).2
  | addGeneric {tf : TinyFrameStruct H} (cb : Option H) :
      RegistryReachable cfg tf → RegistryReachable cfg (TF_AddGenericListener cfg tf cb).2
  | removeId {tf : TinyFrameStruct H} (key : Nat) :
      RegistryReachable cfg tf → RegistryReachable cfg (TF_RemoveIdListener tf key).2
  | removeType {tf : TinyFrameStruct H} (key : Nat) :
      RegistryReachable cfg tf → RegistryReachable cfg (TF_RemoveTypeListener tf key).2
  | removeGeneric {tf : TinyFrameStruct H} (cb : Option H) :
      RegistryReachable cfg tf → RegistryReachable cfg (TF_RemoveGenericListener tf cb).2

/-- Invariant of the three listener tables: the used count is within the
capacity and every live slot lies below the used count. -/
structure RegistryInv {H : Type} (cfg : Config) (tf : TinyFrameStruct H) : Prop where
  id_le : tf.count_id_lst ≤ cfg.TF_MAX_ID_LST
  id_live : ∀ j, (tf.id_listeners j).fn.isSome = true → j < tf.count_id_lst
  type_le : tf.count_type_lst ≤ cfg.TF_MAX_TYPE_LST
  type_live : ∀ j, (tf.type_listeners j).fn.isSome = true → j < tf.count_type_lst
  generic_le : tf.count_generic_lst ≤ cfg.TF_MAX_GEN_LST
  generic_live : ∀ j, (tf.generic_listeners j).fn.isSome = true → j < tf.count_generic_lst

/-- Handlers of the live ID-table entries whose key equals `frame_id`, in slot
order. -/
def liveIdMatches {H : Type} (cfg : Config) (tf : TinyFrameStruct H) (frame_id : Nat) :
    List H :=
  (List.range cfg.TF_MAX_ID_LST).filterMap
    (fun i => if (tf.id_listeners i).id = frame_id then (tf.id_listeners i).fn else Option.none)

/-- Handlers of the live type-table entries whose key equals `type`, in slot
order. -/
def liveTypeMatches {H : Type} (cfg : Config) (tf : TinyFrameStruct H) (type : Nat) : List H :=
  (List.range cfg.TF_MAX_TYPE_LST).filterMap
    (fun i => if (tf.type_listeners i).type = type then (tf.type_listeners i).fn
      else Option.none)

/-- Handlers of the live generic-table entries, in slot order. -/
def liveGeneric {H : Type} (cfg : Config) (tf : TinyFrameStruct H) : List H :=
  (List.range cfg.TF_MAX_GEN_LST).filterMap (fun i => (tf.generic_listeners i).fn)

/-- The list cut off right after its first element on which `p` holds (the
whole list when there is none). -/
def cutAfterFirst {α : Type} (p : α → Bool) : List α → List α
  | [] => []
  | a :: as => if p a then [a] else a :: cutAfterFirst p as

/-- A registry with one ID listener (ID 7, handler 10), one type listener
(type `0x22`, handler 20) and one generic listener (handler 30); handlers are
named by numbers. -/
def demoRegistry : TinyFrameStruct Nat :=
  (TF_AddGenericListener (demoConfig CksumType.xor8)
    (TF_AddTypeListener (demoConfig CksumType.xor8)
      (TF_AddIdListener (demoConfig CksumType.xor8) (TF_Init 0) 7 (some 10)).2
      0x22 (some 20)).2
    (some 30)).2

/-- A registry whose generic table was filled with handlers 10 and 20 and then
emptied again, slot 0 first: both slots are free, the used count is 1. -/
def emptiedRegistry : TinyFrameStruct Nat :=
  (TF_RemoveGenericListener
    (TF_RemoveGenericListener
      (TF_AddGenericListener (demoConfig CksumType.xor8)
        (TF_AddGenericListener (demoConfig CksumType.xor8) (TF_Init 0) (some 10)).2
        (some 20)).2
      (some 10)).2
    (some 20)).2

/-- The store events of the bytes `bs` written to the payload buffer from
index `k` on. -/
def storeEvents : Nat → List Nat → List Event
  | _, [] => []
  | k, b :: bs => Event.store k b :: storeEvents (k + 1) bs

/-- Index of the entry of `crc16_table` with a given high byte. -/
def crc16_index : List Nat := [
  0, 3, 6, 5, 15, 12, 9, 10, 30, 29, 24, 27, 17, 18, 23, 20,
  63, 60, 57, 58, 48, 51, 54, 53, 33, 34, 39, 36, 46, 45, 40, 43,
  126, 125, 120, 123, 113, 114, 119, 116, 96, 99, 102, 101, 111, 108, 105, 106,
  65, 66, 71, 68, 78, 77, 72, 75, 95, 92, 89, 90, 80, 83, 86, 85,
  255, 252, 249, 250, 240, 243, 246, 245, 225, 226, 231, 228, 238, 237, 232, 235,
  192, 195, 198, 197, 207, 204, 201, 202, 222, 221, 216, 219, 209, 210, 215, 212,
  129, 130, 135, 132, 142, 141, 136, 139, 159, 156, 153, 154, 144, 147, 150, 149,
  190, 189, 184, 187, 177, 178, 183, 180, 160, 163, 166, 165, 175, 172, 169, 170,
  254, 253, 248, 251, 241, 242, 247, 244, 224, 227, 230, 229, 239, 236, 233, 234,
  193, 194, 199, 196, 206, 205, 200, 203, 223, 220, 217, 218, 208, 211, 214, 213,
  128, 131, 134, 133, 143, 140, 137, 138, 158, 157, 152, 155, 145, 146, 151, 148,
  191, 188, 185, 186, 176, 179, 182, 181, 161, 162, 167, 164, 174, 173, 168, 171,
  1, 2, 7, 4, 14, 13, 8, 11, 31, 28, 25, 26, 16, 19, 22, 21,
  62, 61, 56, 59, 49, 50, 55, 52, 32, 35, 38, 37, 47, 44, 41, 42,
  127, 124, 121, 122, 112, 115, 118, 117, 97, 98, 103, 100, 110, 109, 104, 107,
  64, 67, 70, 69, 79, 76, 73, 74, 94, 93, 88, 91, 81, 82, 87, 84
]

/-- Index of the entry of `crc32_table` with a given high byte. -/
def crc32_index : List Nat := [
  0, 65, 195, 130, 134, 199, 69, 4, 77, 12, 142, 207, 203, 138, 8, 73,
  154, 219, 89, 24, 28, 93, 223, 158, 215, 150, 20, 85, 81, 16, 146, 211,
  117, 52, 182, 247, 243, 178, 48, 113, 56, 121, 251, 186, 190, 255, 125, 60,
  239, 174, 44, 109, 105, 40, 170, 235, 162, 227, 97, 32, 36, 101, 231, 166,
  234, 171, 41, 104, 108, 45, 175, 238, 167, 230, 100, 37, 33, 96, 226, 163,
  112, 49, 179, 242, 246, 183, 53, 116, 61, 124, 254, 191, 187, 250, 120, 57,
  159, 222, 92, 29, 25, 88, 218, 155, 210, 147, 17, 80, 84, 21, 151, 214,
  5, 68, 198, 135, 131, 194, 64, 1, 72, 9, 139, 202, 206, 143, 13, 76,
  149, 212, 86, 23, 19, 82, 208, 145, 216, 153, 27, 90, 94, 31, 157, 220,
  15, 78, 204, 141, 137, 200, 74, 11, 66, 3, 129, 192, 196, 133, 7, 70,
  224, 161, 35, 98, 102, 39, 165, 228, 173, 236, 110, 47, 43, 106, 232, 169,
  122, 59, 185, 248, 252, 189, 63, 126, 55, 118, 244, 181, 177, 240, 114, 51,
  127, 62, 188, 253, 249, 184, 58, 123, 50, 115, 241, 176, 180, 245, 119, 54,
  229, 164, 38, 103, 99, 34, 160, 225, 168, 233, 107, 42, 46, 111, 237, 172,
  10, 75, 201, 136, 140, 205, 79, 14, 71, 6, 132, 197, 193, 128, 2, 67,
  144, 209, 83, 18, 22, 87, 213, 148, 221, 156, 30, 95, 91, 26, 152, 217
]

/-- Parser state right after the type field of a header was collected, from the
idle state `tf`: the collected ID, length and type, the header checksum
accumulator `ck`, and the state that follows `TYPE` in the checksum mode. -/
def afterHeader {H : Type} (cfg : Config) (tf : TinyFrameStruct H) (id len type ck : Nat) :
    TinyFrameStruct H :=
  { tf with
    state := if cfg.TF_CKSUM_TYPE = CksumType.none then TFState.DATA else TFState.HEAD_CKSUM
    rxi := 0
    ref_cksum := if cfg.TF_CKSUM_TYPE = CksumType.none then tf.ref_cksum else 0
    id := id
    len := len
    type := type
    cksum := ck
    discard_data := false
    parser_timeout_ticks := 0 }

/-- The start-of-frame part of a frame: the marker byte when configured. -/
def sofPart (cfg : Config) : List Nat :=
  if cfg.TF_USE_SOF_BYTE then [cfg.TF_SOF_BYTE] else []

/-- The byte sequence `bs` with bit `k` of the byte at index `i` flipped. -/
def flipBit (bs : List Nat) (i k : Nat) : List Nat :=
  bs.set i (bs.getD i 0 ^^^ 2 ^ k)

/-- Repeated calls of `TF_Tick`. -/
def tickN {H : Type} (cfg : Config) (tf : TinyFrameStruct H) : Nat → TinyFrameStruct H
  | 0 => tf
  | n + 1 => tickN cfg (TF_Tick cfg tf) n

/-- One step of a reflected (least-significant-bit first) CRC with polynomial
`poly`: shift right by one, and XOR with `poly` if the bit shifted out was 1. -/
def crcShiftStep (poly x : Nat) : Nat :=
  if x % 2 = 1 then (x >>> 1) ^^^ poly else x >>> 1

/-- Bit-at-a-time reflected CRC of one byte: XOR `b` into the low byte of `c`,
then apply the shift step eight times. -/
def crcBitwise (poly c b : Nat) : Nat :=
  (crcShiftStep poly)^[8] (c ^^^ b)

/-- The `w`-bit number `x` with the order of its bits reversed. -/
def reverseBits (w x : Nat) : Nat :=
  (List.range w).foldl (fun acc i => if x.testBit i then acc ||| 2 ^ (w - 1 - i) else acc) 0

/-- The ASCII bytes of the string `123456789`. -/
def checkBytes : List Nat := [0x31, 0x32, 0x33, 0x34, 0x35, 0x36, 0x37, 0x38, 0x39]

/-- Parser states reachable from `TF_Init` by `TF_AcceptChar`, `TF_Tick` and
`TF_ResetParser` calls in any order, together with the bytes fed so far. -/
inductive ParserReach {H : Type} (cfg : Config) : TinyFrameStruct H → List Nat → Prop
  | init (peer : Nat) : ParserReach cfg (TF_Init peer) []
  | accept {tf : TinyFrameStruct H} {fed : List Nat} (c : Nat) :
      ParserReach cfg tf fed → ParserReach cfg (TF_AcceptChar cfg tf c).1 (fed ++ [c])
  | tick {tf : TinyFrameStruct H} {fed : List Nat} :
      ParserReach cfg tf fed → ParserReach cfg (TF_Tick cfg tf) fed
  | reset {tf : TinyFrameStruct H} {fed : List Nat} :
      ParserReach cfg tf fed → ParserReach cfg (TF_ResetParser tf) fed

/-- The parser state `tf` agrees with the bytes `cur` of the frame in progress:
in every state the bytes received since the start of the frame are the
big-endian bytes of what was collected from them, the checksum accumulator
covers the bytes it should, and a frame whose payload is stored has a length
below `TF_MAX_PAYLOAD`.  Nothing is required when the parser is idle or
discards the payload. -/
def Tracks {H : Type} (cfg : Config) (tf : TinyFrameStruct H) (cur : List Nat) : Prop :=
  match tf.state with
  | TFState.SOF => True
  | TFState.ID =>
    cur = sofPart cfg ++ bigEndian tf.rxi tf.id ∧ tf.rxi < cfg.TF_ID_BYTES ∧
      tf.cksum = cur.foldl (CKSUM_ADD cfg.TF_CKSUM_TYPE) (CKSUM_RESET cfg.TF_CKSUM_TYPE 0) ∧
      tf.discard_data = false
  | TFState.LEN =>
    cur = sofPart cfg ++ bigEndian cfg.TF_ID_BYTES tf.id ++ bigEndian tf.rxi tf.len ∧
      tf.rxi < cfg.TF_LEN_BYTES ∧
      tf.cksum = cur.foldl (CKSUM_ADD cfg.TF_CKSUM_TYPE) (CKSUM_RESET cfg.TF_CKSUM_TYPE 0) ∧
      tf.discard_data = false
  | TFState.TYPE =>
    cur = sofPart cfg ++ bigEndian cfg.TF_ID_BYTES tf.id ++ bigEndian cfg.TF_LEN_BYTES tf.len ++
        bigEndian tf.rxi tf.type ∧
      tf.rxi < cfg.TF_TYPE_BYTES ∧
      tf.cksum = cur.foldl (CKSUM_ADD cfg.TF_CKSUM_TYPE) (CKSUM_RESET cfg.TF_CKSUM_TYPE 0) ∧
      tf.discard_data = false
  | TFState.HEAD_CKSUM =>
    cur = wireHead cfg tf.id tf.type tf.len ++ bigEndian tf.rxi tf.ref_cksum ∧
      tf.rxi < cfg.TF_CKSUM_BYTES ∧
      tf.cksum = (wireHead cfg tf.id tf.type tf.len).foldl (CKSUM_ADD cfg.TF_CKSUM_TYPE)
        (CKSUM_RESET cfg.TF_CKSUM_TYPE 0) ∧
      tf.discard_data = false
  | TFState.DATA =>
    tf.discard_data = false →
      cur = wireHead cfg tf.id tf.type tf.len ++ wireHeadCksum cfg tf.id tf.type tf.len ++
          bufferBytes tf.data tf.rxi ∧
        tf.rxi < tf.len ∧ tf.len < cfg.TF_MAX_PAYLOAD ∧
        tf.cksum = (bufferBytes tf.data tf.rxi).foldl (CKSUM_ADD cfg.TF_CKSUM_TYPE)
          (CKSUM_RESET cfg.TF_CKSUM_TYPE 0)
  | TFState.DATA_CKSUM =>
    tf.discard_data = false →
      cur = wireHead cfg tf.id tf.type tf.len ++ wireHeadCksum cfg tf.id tf.type tf.len ++
          bufferBytes tf.data tf.len ++ bigEndian tf.rxi tf.ref_cksum ∧
        tf.rxi < cfg.TF_CKSUM_BYTES ∧ tf.len ≠ 0 ∧ tf.len < cfg.TF_MAX_PAYLOAD ∧
        tf.cksum = (bufferBytes tf.data tf.len).foldl (CKSUM_ADD cfg.TF_CKSUM_TYPE)
          (CKSUM_RESET cfg.TF_CKSUM_TYPE 0)

/-! ## Theorems -/

/-! ### Composer: closed form -/

theorem bigEndian_succ (w x : Nat) :
    bigEndian (w + 1) x = (x / 256 ^ w % 256) :: bigEndian w x := by
  simp [bigEndian, List.range_succ]

theorem bigEndian_length (w x : Nat) : (bigEndian w x).length = w := by
  simp [bigEndian]

theorem shift_mask_eq (num i : Nat) :
    ((num >>> (i * 8)) &&& 0xFF) % 256 = num / 256 ^ i % 256 := by
  have h : (0xFF : Nat) = 2 ^ 8 - 1 := by norm_num
  rw [h, Nat.and_pow_two_sub_one_eq_mod, Nat.shiftRight_eq_div_pow, Nat.mul_comm, pow_mul]
  norm_num

theorem writeAt_append (buf : Nat → Nat) (p : Nat) (as bs : List Nat) :
    writeAt buf p (as ++ bs) = writeAt (writeAt buf p as) (p + as.length) bs := by
  induction as generalizing buf p with
  | nil => simp [writeAt]
  | cons a as ih => simp [writeAt, ih, Nat.add_assoc, Nat.add_comm 1]

theorem writeAt_of_ge (buf : Nat → Nat) (p : Nat) (bs : List Nat) (j : Nat)
    (hj : p + bs.length ≤ j) : writeAt buf p bs j = buf j := by
  induction bs generalizing buf p with
  | nil => simp [writeAt]
  | cons b bs ih =>
    simp only [writeAt, List.length_cons] at hj ⊢
    rw [ih _ _ (by omega), Function.update_noteq (by omega)]

theorem writeAt_of_lt (buf : Nat → Nat) (p : Nat) (bs : List Nat) (j : Nat)
    (hj : j < p) : writeAt buf p bs j = buf j := by
  induction bs generalizing buf p with
  | nil => simp [writeAt]
  | cons b bs ih =>
    simp only [writeAt]
    rw [ih _ _ (by omega), Function.update_noteq (by omega)]

theorem bufferBytes_congr (f g : Nat → Nat) (n : Nat) (h : ∀ j < n, f j = g j) :
    bufferBytes f n = bufferBytes g n := by
  simp only [bufferBytes]
  apply List.map_congr_left
  intro j hj
  exact h j (List.mem_range.mp hj)

theorem bufferBytes_succ (f : Nat → Nat) (n : Nat) :
    bufferBytes f (n + 1) = bufferBytes f n ++ [f n] := by
  simp [bufferBytes, List.range_succ]

theorem bufferBytes_writeAt (buf : Nat → Nat) (p : Nat) (bs : List Nat) :
    bufferBytes (writeAt buf p bs) (p + bs.length) = bufferBytes buf p ++ bs := by
  induction bs generalizing buf p with
  | nil => simp [writeAt]
  | cons b bs ih =>
    simp only [writeAt, List.length_cons]
    have e : p + (bs.length + 1) = (p + 1) + bs.length := by omega
    rw [e, ih, bufferBytes_succ, Function.update_same,
      bufferBytes_congr (Function.update buf p b) buf p
        (fun j hj => Function.update_noteq (by omega) _ _)]
    simp

theorem WRITENUM_BASE_eq (xtra : Nat → Nat → Nat) (num w : Nat) (l : ComposeLocals) :
    WRITENUM_BASE xtra num w l =
      { outbuff := writeAt l.outbuff l.pos (bigEndian w num)
        pos := l.pos + w
        cksum := (bigEndian w num).foldl xtra l.cksum } := by
  induction w generalizing l with
  | zero => simp [WRITENUM_BASE, bigEndian, writeAt]
  | succ w ih =>
    simp only [WRITENUM_BASE, ih, bigEndian_succ, writeAt, List.foldl_cons, shift_mask_eq]
    simp [Nat.add_assoc, Nat.add_comm 1]

theorem dataLoop_eq (t : CksumType) (bs : List Nat) (l : ComposeLocals) :
    TF_Compose.dataLoop t bs l =
      { outbuff := writeAt l.outbuff l.pos bs
        pos := l.pos + bs.length
        cksum := bs.foldl (CKSUM_ADD t) l.cksum } := by
  induction bs generalizing l with
  | nil => simp [TF_Compose.dataLoop, writeAt]
  | cons b bs ih =>
    simp only [TF_Compose.dataLoop, ih, writeAt, List.foldl_cons, List.length_cons]
    simp [Nat.add_assoc, Nat.add_comm 1]


theorem CKSUM_RESET_const (t : CksumType) (h : t ≠ CksumType.none) (x y : Nat) :
    CKSUM_RESET t x = CKSUM_RESET t y := by
  cases t <;> simp_all [CKSUM_RESET]

theorem CKSUM_RESET_idem (t : CksumType) (x : Nat) :
    CKSUM_RESET t (CKSUM_RESET t x) = CKSUM_RESET t x := by
  cases t <;> simp [CKSUM_RESET]

theorem wireFormat_length (cfg : Config) (id type : Nat) (payload : List Nat) :
    (wireFormat cfg id type payload).length =
      (wireHead cfg id type payload.length).length +
        (wireHeadCksum cfg id type payload.length).length + payload.length +
        (wireDataCksum cfg payload).length := by
  simp [wireFormat, Nat.add_assoc]

variable {H : Type}

/-- Closed form of a successful `TF_Compose`. -/
theorem TF_Compose_eq (cfg : Config) (tf : TinyFrameStruct H) (outbuff : Nat → Nat)
    (type : Nat) (data : List Nat) (explicit_id : Nat) (use_expl_id : Bool)
    (hsof : cfg.TF_SOF_BYTE < 256) (hlen : data.length ≤ cfg.TF_MAX_PAYLOAD) :
    TF_Compose cfg tf outbuff type data explicit_id use_expl_id =
      { ret := ((wireFormat cfg (TF_Compose.genId cfg tf explicit_id use_expl_id).1 type
          data).length : Int)
        outbuff := writeAt outbuff 0
          (wireFormat cfg (TF_Compose.genId cfg tf explicit_id use_expl_id).1 type data)
        id_out := some (TF_Compose.genId cfg tf explicit_id use_expl_id).1
        tf := (TF_Compose.genId cfg tf explicit_id use_expl_id).2 } := by
  have hn : ¬ data.length > cfg.TF_MAX_PAYLOAD := by omega
  simp only [TF_Compose, hn, if_false, WRITENUM, WRITENUM_CKSUM, WRITENUM_BASE_eq, dataLoop_eq]
  generalize (TF_Compose.genId cfg tf explicit_id use_expl_id).1 = id
  have hs : cfg.TF_SOF_BYTE % 256 = cfg.TF_SOF_BYTE := Nat.mod_eq_of_lt hsof
  rcases Nat.eq_zero_or_pos data.length with hd | hd
  · have hd0 : data = [] := List.length_eq_zero.mp hd
    subst hd0
    cases ht : cfg.TF_CKSUM_TYPE <;> by_cases hu : cfg.TF_USE_SOF_BYTE = true
    all_goals
      simp [ht, hu, hs, wireFormat, wireHead, wireHeadCksum, wireDataCksum, checksumOf,
        writeAt_append, bigEndian_length, writeAt, CKSUM_RESET]
    all_goals omega
  · have hd1 : data.length ≠ 0 := by omega
    cases ht : cfg.TF_CKSUM_TYPE <;> by_cases hu : cfg.TF_USE_SOF_BYTE = true
    all_goals
      simp [ht, hu, hs, hd, hd1, wireFormat, wireHead, wireHeadCksum, wireDataCksum, checksumOf,
        writeAt_append, bigEndian_length, writeAt, CKSUM_RESET]
    all_goals omega


/-- C2: for a payload of at most `TF_MAX_PAYLOAD` bytes, `TF_Compose` returns the
length of the wire format (start-of-frame byte if configured, big-endian ID,
length and type, header checksum, payload, payload checksum; checksum fields
absent in mode none, payload checksum absent for an empty payload), has
written exactly those bytes from index 0 on, and has left the rest of the
buffer alone. -/
theorem C2_compose_wire_format (cfg : Config) (tf : TinyFrameStruct H) (outbuff : Nat → Nat)
    (type : Nat) (data : List Nat) (explicit_id : Nat) (use_expl_id : Bool)
    (hsof : cfg.TF_SOF_BYTE < 256) (hlen : data.length ≤ cfg.TF_MAX_PAYLOAD) :
    let r := TF_Compose cfg tf outbuff type data explicit_id use_expl_id
    let id := (TF_Compose.genId cfg tf explicit_id use_expl_id).1
    let w := wireFormat cfg id type data
    r.ret = (w.length : Int) ∧ bufferBytes r.outbuff w.length = w ∧
      (∀ j, w.length ≤ j → r.outbuff j = outbuff j) ∧ r.id_out = some id := by
  intro r id w
  have h := TF_Compose_eq cfg tf outbuff type data explicit_id use_expl_id hsof hlen
  refine ⟨?_, ?_, ?_, ?_⟩
  · simp only [r, h, w, id]
  · have h2 := bufferBytes_writeAt outbuff 0 w
    simp only [Nat.zero_add, bufferBytes, List.range_zero, List.map_nil, List.nil_append] at h2
    simp only [r, h, bufferBytes]
    exact h2
  · intro j hj
    simp only [r, h]
    exact writeAt_of_ge outbuff 0 _ j (by simpa using hj)
  · simp only [r, h, id]

/-- C2 at a concrete frame: XOR-8, type `0x22`, payload `[1, 2, 3]`, explicit ID 7. -/
theorem C2_compose_wire_format_witness :
    (demoConfig CksumType.xor8).TF_SOF_BYTE < 256 ∧
    [1, 2, 3].length ≤ (demoConfig CksumType.xor8).TF_MAX_PAYLOAD ∧
    (let r := TF_Compose (demoConfig CksumType.xor8) (TF_Init 0 : TinyFrameStruct Unit)
        (fun _ => 0) 0x22 [1, 2, 3] 7 true
     let id := (TF_Compose.genId (demoConfig CksumType.xor8) (TF_Init 0 : TinyFrameStruct Unit)
        7 true).1
     let w := wireFormat (demoConfig CksumType.xor8) id 0x22 [1, 2, 3]
     r.ret = (w.length : Int) ∧ bufferBytes r.outbuff w.length = w ∧
      (∀ j, w.length ≤ j → r.outbuff j = (fun _ => 0) j) ∧ r.id_out = some id) :=
  ⟨by decide, by decide,
    C2_compose_wire_format (demoConfig CksumType.xor8) (TF_Init 0) (fun _ => 0) 0x22 [1, 2, 3] 7
      true (by decide) (by decide)⟩

/-! ### Compose failure -/

/-- C7: `TF_Compose` returns `TF_ERROR` exactly when the payload is longer than
`TF_MAX_PAYLOAD`, and then the output buffer and `tf` (so also `next_id`) are
as before and nothing is stored through `id_ptr`, with or without an explicit
ID. -/
theorem C7_compose_failure (cfg : Config) (tf : TinyFrameStruct H) (outbuff : Nat → Nat)
    (type : Nat) (data : List Nat) (explicit_id : Nat) (use_expl_id : Bool) :
    let r := TF_Compose cfg tf outbuff type data explicit_id use_expl_id
    (r.ret = TF_ERROR ↔ cfg.TF_MAX_PAYLOAD < data.length) ∧
      (r.ret = TF_ERROR →
        r.outbuff = outbuff ∧ r.tf = tf ∧ r.tf.next_id = tf.next_id ∧ r.id_out = none) := by
  intro r
  by_cases h : data.length > cfg.TF_MAX_PAYLOAD
  · have hr : r = { ret := TF_ERROR, outbuff := outbuff, id_out := Option.none, tf := tf } := by
      simp only [r, TF_Compose, h, if_true]
    simp [hr]
    omega
  · have hr : 0 ≤ r.ret := by
      simp only [r, TF_Compose, h, if_false]
      exact Int.natCast_nonneg _
    have hne : r.ret ≠ TF_ERROR := by
      simp only [TF_ERROR]
      omega
    refine ⟨⟨fun e => absurd e hne, fun e => absurd e h⟩, fun e => absurd e hne⟩

/-! ### ID generator -/

theorem genId_peer_bit (cfg : Config) (tf : TinyFrameStruct H) (e : Nat) (u : Bool) :
    (TF_Compose.genId cfg tf e u).2.peer_bit = tf.peer_bit := by
  unfold TF_Compose.genId
  split
  · rfl
  · split <;> rfl

theorem afterGenerated_peer_bit (cfg : Config) (peer n : Nat) :
    (afterGenerated cfg peer n).peer_bit = peer := by
  induction n with
  | zero => rfl
  | succ n ih => simp only [afterGenerated, genId_peer_bit, ih]

theorem genId_testBit_clear (cfg : Config) (tf : TinyFrameStruct H) (e : Nat)
    (hp : tf.peer_bit = 0) :
    (TF_Compose.genId cfg tf e false).1.testBit (8 * cfg.TF_ID_BYTES - 1) = false := by
  simp only [TF_Compose.genId, hp, TF_ID_MASK, Nat.and_pow_two_sub_one_eq_mod]
  simp [Nat.testBit_mod_two_pow]

theorem genId_testBit_set (cfg : Config) (tf : TinyFrameStruct H) (e : Nat)
    (hw : 0 < cfg.TF_ID_BYTES) (hp : tf.peer_bit ≠ 0) :
    (TF_Compose.genId cfg tf e false).1.testBit (8 * cfg.TF_ID_BYTES - 1) = true := by
  simp only [TF_Compose.genId, TF_ID_MASK, TF_ID_PEERBIT, ne_eq, hp, not_false_eq_true, if_true]
  simp [Nat.testBit_mod_two_pow, Nat.testBit_or, Nat.testBit_two_pow_self]
  omega

/-- C8: with an ID field of at least one byte, every ID generated after
`TF_Init 0` has the top bit of the ID field clear, every ID generated after
`TF_Init 1` has it set, and so ID number `m` of the first generator differs
from ID number `n` of the second. -/
theorem C8_id_partition (cfg : Config) (hw : 0 < cfg.TF_ID_BYTES) (m n : Nat) :
    (nthGeneratedId cfg 0 m).testBit (8 * cfg.TF_ID_BYTES - 1) = false ∧
      (nthGeneratedId cfg 1 n).testBit (8 * cfg.TF_ID_BYTES - 1) = true ∧
      nthGeneratedId cfg 0 m ≠ nthGeneratedId cfg 1 n := by
  have h0 := genId_testBit_clear cfg (afterGenerated cfg 0 m) 0 (afterGenerated_peer_bit cfg 0 m)
  have h1 := genId_testBit_set cfg (afterGenerated cfg 1 n) 0 hw
    (by rw [afterGenerated_peer_bit]; decide)
  refine ⟨h0, h1, ?_⟩
  intro e
  simp only [nthGeneratedId] at e
  rw [e, h1] at h0
  exact Bool.noConfusion h0

/-- C8 at the one-byte ID field: ID number 200 of peer 0 against ID number 3 of
peer 1. -/
theorem C8_id_partition_witness :
    0 < (demoConfig CksumType.xor8).TF_ID_BYTES ∧
    ((nthGeneratedId (demoConfig CksumType.xor8) 0 200).testBit
        (8 * (demoConfig CksumType.xor8).TF_ID_BYTES - 1) = false ∧
      (nthGeneratedId (demoConfig CksumType.xor8) 1 3).testBit
        (8 * (demoConfig CksumType.xor8).TF_ID_BYTES - 1) = true ∧
      nthGeneratedId (demoConfig CksumType.xor8) 0 200 ≠
        nthGeneratedId (demoConfig CksumType.xor8) 1 3) :=
  ⟨by decide, C8_id_partition (demoConfig CksumType.xor8) (by decide) 200 3⟩

/-! ### Table scans -/

theorem firstIndex_eq_none (p : Nat → Bool) (n i : Nat) :
    firstIndex p n i = Option.none ↔ ∀ j, i ≤ j → j < i + n → p j = false := by
  induction n generalizing i with
  | zero =>
    simp only [firstIndex, true_iff]
    intro j h1 h2
    omega
  | succ n ih =>
    cases hp : p i with
    | true =>
      simp only [firstIndex, hp, if_true]
      constructor
      · intro h
        cases h
      · intro h
        have := h i (Nat.le_refl i) (by omega)
        rw [hp] at this
        cases this
    | false =>
      simp only [firstIndex, hp, Bool.false_eq_true, if_false, ih]
      constructor
      · intro h j h1 h2
        rcases Nat.eq_or_lt_of_le h1 with e | l
        · subst e
          exact hp
        · exact h j l (by omega)
      · intro h j h1 h2
        exact h j (by omega) (by omega)

theorem firstIndex_eq_some (p : Nat → Bool) (n i k : Nat) (h : firstIndex p n i = some k) :
    i ≤ k ∧ k < i + n ∧ p k = true ∧ ∀ j, i ≤ j → j < k → p j = false := by
  induction n generalizing i with
  | zero => simp [firstIndex] at h
  | succ n ih =>
    cases hp : p i with
    | true =>
      simp only [firstIndex, hp, if_true, Option.some.injEq] at h
      subst h
      exact ⟨Nat.le_refl _, by omega, hp, fun j h1 h2 => by omega⟩
    | false =>
      simp only [firstIndex, hp, Bool.false_eq_true, if_false] at h
      obtain ⟨h1, h2, h3, h4⟩ := ih (i + 1) h
      refine ⟨by omega, by omega, h3, fun j hj1 hj2 => ?_⟩
      rcases Nat.eq_or_lt_of_le hj1 with e | l
      · subst e
        exact hp
      · exact h4 j l hj2

theorem liveCount_succ (live : Nat → Bool) (n : Nat) :
    liveCount live (n + 1) = liveCount live n + (if live n then 1 else 0) := by
  cases h : live n <;> simp [liveCount, List.range_succ, List.filter_append, h]

theorem liveCount_le (live : Nat → Bool) (n : Nat) : liveCount live n ≤ n := by
  induction n with
  | zero => simp [liveCount]
  | succ n ih =>
    rw [liveCount_succ]
    split <;> omega

theorem liveCount_congr (f g : Nat → Bool) (n : Nat) (h : ∀ j < n, f j = g j) :
    liveCount f n = liveCount g n := by
  induction n with
  | zero => simp [liveCount]
  | succ n ih =>
    rw [liveCount_succ, liveCount_succ, ih (fun j hj => h j (by omega)), h n (by omega)]

theorem liveCount_eq_all (live : Nat → Bool) (n : Nat) (h : liveCount live n = n) :
    ∀ j < n, live j = true := by
  induction n with
  | zero =>
    intro j hj
    omega
  | succ n ih =>
    rw [liveCount_succ] at h
    have hle := liveCount_le live n
    cases hn : live n with
    | false =>
      rw [hn] at h
      simp at h
      omega
    | true =>
      rw [hn] at h
      simp at h
      intro j hj
      rcases Nat.eq_or_lt_of_le (Nat.le_of_lt_succ hj) with e | l
      · rw [e, hn]
      · exact ih h j l

theorem liveCount_fill (f g : Nat → Bool) (n k : Nat) (hk : k < n) (hf : f k = false)
    (hg : g k = true) (h : ∀ j, j ≠ k → g j = f j) :
    liveCount g n = liveCount f n + 1 := by
  induction n with
  | zero => omega
  | succ n ih =>
    rw [liveCount_succ, liveCount_succ]
    rcases Nat.eq_or_lt_of_le (Nat.le_of_lt_succ hk) with e | l
    · subst e
      rw [hf, hg, liveCount_congr g f k (fun j hj => h j (by omega))]
      simp
    · rw [ih l, h n (by omega)]
      omega
/-! ### Adding listeners -/

theorem addId_loop_eq (tf : TinyFrameStruct H) (key : Nat) (cb : Option H) (n i : Nat) :
    TF_AddIdListener.loop tf key cb n i =
      match firstIndex (fun j => (tf.id_listeners j).fn.isNone) n i with
      | Option.none => (false, tf)
      | some k => (true, { tf with
          id_listeners := Function.update tf.id_listeners k ⟨key, cb⟩
          count_id_lst := if k ≥ tf.count_id_lst then k + 1 else tf.count_id_lst }) := by
  induction n generalizing i with
  | zero => rfl
  | succ n ih =>
    cases hp : (tf.id_listeners i).fn.isNone with
    | true => simp only [TF_AddIdListener.loop, firstIndex, hp, if_true]
    | false => simp only [TF_AddIdListener.loop, firstIndex, hp, Bool.false_eq_true, if_false, ih]

theorem addId_false_iff (cfg : Config) (tf : TinyFrameStruct H) (key : Nat) (cb : Option H) :
    (TF_AddIdListener cfg tf key cb).1 = false ↔
      ∀ j, j < cfg.TF_MAX_ID_LST → (tf.id_listeners j).fn.isSome = true := by
  unfold TF_AddIdListener
  rw [addId_loop_eq]
  cases hfi : firstIndex (fun j => (tf.id_listeners j).fn.isNone) cfg.TF_MAX_ID_LST 0 with
  | none =>
    simp only [true_iff]
    intro j hj
    have := (firstIndex_eq_none _ _ _).mp hfi j (Nat.zero_le j) (by omega)
    cases hfn : (tf.id_listeners j).fn <;> simp_all
  | some k =>
    obtain ⟨_, h2, h3, _⟩ := firstIndex_eq_some _ _ _ _ hfi
    simp only [Bool.true_eq_false, false_iff]
    intro hall
    have := hall k (by omega)
    cases hfn : (tf.id_listeners k).fn <;> simp_all

theorem addId_false_same (cfg : Config) (tf : TinyFrameStruct H) (key : Nat) (cb : Option H)
    (h : (TF_AddIdListener cfg tf key cb).1 = false) : (TF_AddIdListener cfg tf key cb).2 = tf := by
  unfold TF_AddIdListener at h ⊢
  rw [addId_loop_eq] at h ⊢
  cases hfi : firstIndex (fun j => (tf.id_listeners j).fn.isNone) cfg.TF_MAX_ID_LST 0 with
  | none => rfl
  | some k =>
    rw [hfi] at h
    cases h

theorem addId_true_liveCount (cfg : Config) (tf : TinyFrameStruct H) (key : Nat) (hd : H)
    (h : (TF_AddIdListener cfg tf key (some hd)).1 = true) :
    liveCount (fun j => (((TF_AddIdListener cfg tf key (some hd)).2).id_listeners j).fn.isSome) cfg.TF_MAX_ID_LST =
      liveCount (fun j => (tf.id_listeners j).fn.isSome) cfg.TF_MAX_ID_LST + 1 := by
  unfold TF_AddIdListener at h ⊢
  rw [addId_loop_eq] at h ⊢
  cases hfi : firstIndex (fun j => (tf.id_listeners j).fn.isNone) cfg.TF_MAX_ID_LST 0 with
  | none =>
    rw [hfi] at h
    cases h
  | some k =>
    obtain ⟨_, h2, h3, _⟩ := firstIndex_eq_some _ _ _ _ hfi
    apply liveCount_fill _ _ _ k (by omega)
    · cases hfn : (tf.id_listeners k).fn <;> simp_all
    · simp
    · intro j hj
      simp [Function.update_noteq hj]

theorem addIdListeners_liveCount (cfg : Config) (tf : TinyFrameStruct H) (adds : List (Nat × H))
    (h : (addIdListeners cfg tf adds).1 = true) :
    liveCount (fun j => (((addIdListeners cfg tf adds).2).id_listeners j).fn.isSome) cfg.TF_MAX_ID_LST =
      liveCount (fun j => (tf.id_listeners j).fn.isSome) cfg.TF_MAX_ID_LST + adds.length := by
  induction adds generalizing tf with
  | nil => rfl
  | cons a as ih =>
    simp only [addIdListeners, Bool.and_eq_true] at h ⊢
    rw [ih _ h.2, addId_true_liveCount cfg tf a.1 a.2 h.1, List.length_cons]
    omega

theorem addIdListeners_full (cfg : Config) (tf : TinyFrameStruct H) (adds : List (Nat × H))
    (hlen : adds.length = cfg.TF_MAX_ID_LST) (h : (addIdListeners cfg tf adds).1 = true)
    (key : Nat) (cb : Option H) :
    (TF_AddIdListener cfg (addIdListeners cfg tf adds).2 key cb).1 = false := by
  rw [addId_false_iff]
  apply liveCount_eq_all
  have h1 := addIdListeners_liveCount cfg tf adds h
  have h2 := liveCount_le (fun j => (((addIdListeners cfg tf adds).2).id_listeners j).fn.isSome) cfg.TF_MAX_ID_LST
  omega

theorem addType_loop_eq (tf : TinyFrameStruct H) (key : Nat) (cb : Option H) (n i : Nat) :
    TF_AddTypeListener.loop tf key cb n i =
      match firstIndex (fun j => (tf.type_listeners j).fn.isNone) n i with
      | Option.none => (false, tf)
      | some k => (true, { tf with
          type_listeners := Function.update tf.type_listeners k ⟨key, cb⟩
          count_type_lst := if k ≥ tf.count_type_lst then k + 1 else tf.count_type_lst }) := by
  induction n generalizing i with
  | zero => rfl
  | succ n ih =>
    cases hp : (tf.type_listeners i).fn.isNone with
    | true => simp only [TF_AddTypeListener.loop, firstIndex, hp, if_true]
    | false => simp only [TF_AddTypeListener.loop, firstIndex, hp, Bool.false_eq_true, if_false, ih]

theorem addType_false_iff (cfg : Config) (tf : TinyFrameStruct H) (key : Nat) (cb : Option H) :
    (TF_AddTypeListener cfg tf key cb).1 = false ↔
      ∀ j, j < cfg.TF_MAX_TYPE_LST → (tf.type_listeners j).fn.isSome = true := by
  unfold TF_AddTypeListener
  rw [addType_loop_eq]
  cases hfi : firstIndex (fun j => (tf.type_listeners j).fn.isNone) cfg.TF_MAX_TYPE_LST 0 with
  | none =>
    simp only [true_iff]
    intro j hj
    have := (firstIndex_eq_none _ _ _).mp hfi j (Nat.zero_le j) (by omega)
    cases hfn : (tf.type_listeners j).fn <;> simp_all
  | some k =>
    obtain ⟨_, h2, h3, _⟩ := firstIndex_eq_some _ _ _ _ hfi
    simp only [Bool.true_eq_false, false_iff]
    intro hall
    have := hall k (by omega)
    cases hfn : (tf.type_listeners k).fn <;> simp_all

theorem addType_false_same (cfg : Config) (tf : TinyFrameStruct H) (key : Nat) (cb : Option H)
    (h : (TF_AddTypeListener cfg tf key cb).1 = false) : (TF_AddTypeListener cfg tf key cb).2 = tf := by
  unfold TF_AddTypeListener at h ⊢
  rw [addType_loop_eq] at h ⊢
  cases hfi : firstIndex (fun j => (tf.type_listeners j).fn.isNone) cfg.TF_MAX_TYPE_LST 0 with
  | none => rfl
  | some k =>
    rw [hfi] at h
    cases h

theorem addType_true_liveCount (cfg : Config) (tf : TinyFrameStruct H) (key : Nat) (hd : H)
    (h : (TF_AddTypeListener cfg tf key (some hd)).1 = true) :
    liveCount (fun j => (((TF_AddTypeListener cfg tf key (some hd)).2).type_listeners j).fn.isSome) cfg.TF_MAX_TYPE_LST =
      liveCount (fun j => (tf.type_listeners j).fn.isSome) cfg.TF_MAX_TYPE_LST + 1 := by
  unfold TF_AddTypeListener at h ⊢
  rw [addType_loop_eq] at h ⊢
  cases hfi : firstIndex (fun j => (tf.type_listeners j).fn.isNone) cfg.TF_MAX_TYPE_LST 0 with
  | none =>
    rw [hfi] at h
    cases h
  | some k =>
    obtain ⟨_, h2, h3, _⟩ := firstIndex_eq_some _ _ _ _ hfi
    apply liveCount_fill _ _ _ k (by omega)
    · cases hfn : (tf.type_listeners k).fn <;> simp_all
    · simp
    · intro j hj
      simp [Function.update_noteq hj]

theorem addTypeListeners_liveCount (cfg : Config) (tf : TinyFrameStruct H) (adds : List (Nat × H))
    (h : (addTypeListeners cfg tf adds).1 = true) :
    liveCount (fun j => (((addTypeListeners cfg tf adds).2).type_listeners j).fn.isSome) cfg.TF_MAX_TYPE_LST =
      liveCount (fun j => (tf.type_listeners j).fn.isSome) cfg.TF_MAX_TYPE_LST + adds.length := by
  induction adds generalizing tf with
  | nil => rfl
  | cons a as ih =>
    simp only [addTypeListeners, Bool.and_eq_true] at h ⊢
    rw [ih _ h.2, addType_true_liveCount cfg tf a.1 a.2 h.1, List.length_cons]
    omega

theorem addTypeListeners_full (cfg : Config) (tf : TinyFrameStruct H) (adds : List (Nat × H))
    (hlen : adds.length = cfg.TF_MAX_TYPE_LST) (h : (addTypeListeners cfg tf adds).1 = true)
    (key : Nat) (cb : Option H) :
    (TF_AddTypeListener cfg (addTypeListeners cfg tf adds).2 key cb).1 = false := by
  rw [addType_false_iff]
  apply liveCount_eq_all
  have h1 := addTypeListeners_liveCount cfg tf adds h
  have h2 := liveCount_le (fun j => (((addTypeListeners cfg tf adds).2).type_listeners j).fn.isSome) cfg.TF_MAX_TYPE_LST
  omega

theorem addGeneric_loop_eq (tf : TinyFrameStruct H) (cb : Option H) (n i : Nat) :
    TF_AddGenericListener.loop tf cb n i =
      match firstIndex (fun j => (tf.generic_listeners j).fn.isNone) n i with
      | Option.none => (false, tf)
      | some k => (true, { tf with
          generic_listeners := Function.update tf.generic_listeners k ⟨cb⟩
          count_generic_lst := if k ≥ tf.count_generic_lst then k + 1 else tf.count_generic_lst }) := by
  induction n generalizing i with
  | zero => rfl
  | succ n ih =>
    cases hp : (tf.generic_listeners i).fn.isNone with
    | true => simp only [TF_AddGenericListener.loop, firstIndex, hp, if_true]
    | false => simp only [TF_AddGenericListener.loop, firstIndex, hp, Bool.false_eq_true, if_false, ih]

theorem addGeneric_false_iff (cfg : Config) (tf : TinyFrameStruct H) (cb : Option H) :
    (TF_AddGenericListener cfg tf cb).1 = false ↔
      ∀ j, j < cfg.TF_MAX_GEN_LST → (tf.generic_listeners j).fn.isSome = true := by
  unfold TF_AddGenericListener
  rw [addGeneric_loop_eq]
  cases hfi : firstIndex (fun j => (tf.generic_listeners j).fn.isNone) cfg.TF_MAX_GEN_LST 0 with
  | none =>
    simp only [true_iff]
    intro j hj
    have := (firstIndex_eq_none _ _ _).mp hfi j (Nat.zero_le j) (by omega)
    cases hfn : (tf.generic_listeners j).fn <;> simp_all
  | some k =>
    obtain ⟨_, h2, h3, _⟩ := firstIndex_eq_some _ _ _ _ hfi
    simp only [Bool.true_eq_false, false_iff]
    intro hall
    have := hall k (by omega)
    cases hfn : (tf.generic_listeners k).fn <;> simp_all

theorem addGeneric_false_same (cfg : Config) (tf : TinyFrameStruct H) (cb : Option H)
    (h : (TF_AddGenericListener cfg tf cb).1 = false) : (TF_AddGenericListener cfg tf cb).2 = tf := by
  unfold TF_AddGenericListener at h ⊢
  rw [addGeneric_loop_eq] at h ⊢
  cases hfi : firstIndex (fun j => (tf.generic_listeners j).fn.isNone) cfg.TF_MAX_GEN_LST 0 with
  | none => rfl
  | some k =>
    rw [hfi] at h
    cases h

theorem addGeneric_true_liveCount (cfg : Config) (tf : TinyFrameStruct H) (hd : H)
    (h : (TF_AddGenericListener cfg tf (some hd)).1 = true) :
    liveCount (fun j => (((TF_AddGenericListener cfg tf (some hd)).2).generic_listeners j).fn.isSome) cfg.TF_MAX_GEN_LST =
      liveCount (fun j => (tf.generic_listeners j).fn.isSome) cfg.TF_MAX_GEN_LST + 1 := by
  unfold TF_AddGenericListener at h ⊢
  rw [addGeneric_loop_eq] at h ⊢
  cases hfi : firstIndex (fun j => (tf.generic_listeners j).fn.isNone) cfg.TF_MAX_GEN_LST 0 with
  | none =>
    rw [hfi] at h
    cases h
  | some k =>
    obtain ⟨_, h2, h3, _⟩ := firstIndex_eq_some _ _ _ _ hfi
    apply liveCount_fill _ _ _ k (by omega)
    · cases hfn : (tf.generic_listeners k).fn <;> simp_all
    · simp
    · intro j hj
      simp [Function.update_noteq hj]

theorem addGenericListeners_liveCount (cfg : Config) (tf : TinyFrameStruct H) (adds : List (H))
    (h : (addGenericListeners cfg tf adds).1 = true) :
    liveCount (fun j => (((addGenericListeners cfg tf adds).2).generic_listeners j).fn.isSome) cfg.TF_MAX_GEN_LST =
      liveCount (fun j => (tf.generic_listeners j).fn.isSome) cfg.TF_MAX_GEN_LST + adds.length := by
  induction adds generalizing tf with
  | nil => rfl
  | cons a as ih =>
    simp only [addGenericListeners, Bool.and_eq_true] at h ⊢
    rw [ih _ h.2, addGeneric_true_liveCount cfg tf a h.1, List.length_cons]
    omega

theorem addGenericListeners_full (cfg : Config) (tf : TinyFrameStruct H) (adds : List (H))
    (hlen : adds.length = cfg.TF_MAX_GEN_LST) (h : (addGenericListeners cfg tf adds).1 = true)
    (cb : Option H) :
    (TF_AddGenericListener cfg (addGenericListeners cfg tf adds).2 cb).1 = false := by
  rw [addGeneric_false_iff]
  apply liveCount_eq_all
  have h1 := addGenericListeners_liveCount cfg tf adds h
  have h2 := liveCount_le (fun j => (((addGenericListeners cfg tf adds).2).generic_listeners j).fn.isSome) cfg.TF_MAX_GEN_LST
  omega


/-- C9: each add call returns false exactly when every slot of its table holds
a non-null handler, a call that returns false leaves `tf` (all slots of all
tables and all used counts) as it was, and after as many successful adds of
non-null handlers as the table has slots the next add returns false. -/
theorem C9_add_saturation (cfg : Config) (tf : TinyFrameStruct H) (key : Nat) (cb : Option H) :
    (((TF_AddIdListener cfg tf key cb).1 = false ↔
        ∀ j, j < cfg.TF_MAX_ID_LST → (tf.id_listeners j).fn.isSome = true) ∧
      ((TF_AddIdListener cfg tf key cb).1 = false → (TF_AddIdListener cfg tf key cb).2 = tf) ∧
      (∀ adds : List (Nat × H), adds.length = cfg.TF_MAX_ID_LST →
        (addIdListeners cfg tf adds).1 = true →
        (TF_AddIdListener cfg (addIdListeners cfg tf adds).2 key cb).1 = false)) ∧
    (((TF_AddTypeListener cfg tf key cb).1 = false ↔
        ∀ j, j < cfg.TF_MAX_TYPE_LST → (tf.type_listeners j).fn.isSome = true) ∧
      ((TF_AddTypeListener cfg tf key cb).1 = false →
        (TF_AddTypeListener cfg tf key cb).2 = tf) ∧
      (∀ adds : List (Nat × H), adds.length = cfg.TF_MAX_TYPE_LST →
        (addTypeListeners cfg tf adds).1 = true →
        (TF_AddTypeListener cfg (addTypeListeners cfg tf adds).2 key cb).1 = false)) ∧
    (((TF_AddGenericListener cfg tf cb).1 = false ↔
        ∀ j, j < cfg.TF_MAX_GEN_LST → (tf.generic_listeners j).fn.isSome = true) ∧
      ((TF_AddGenericListener cfg tf cb).1 = false → (TF_AddGenericListener cfg tf cb).2 = tf) ∧
      (∀ adds : List H, adds.length = cfg.TF_MAX_GEN_LST →
        (addGenericListeners cfg tf adds).1 = true →
        (TF_AddGenericListener cfg (addGenericListeners cfg tf adds).2 cb).1 = false)) :=
  ⟨⟨addId_false_iff cfg tf key cb, addId_false_same cfg tf key cb,
      fun adds hl h => addIdListeners_full cfg tf adds hl h key cb⟩,
    ⟨addType_false_iff cfg tf key cb, addType_false_same cfg tf key cb,
      fun adds hl h => addTypeListeners_full cfg tf adds hl h key cb⟩,
    ⟨addGeneric_false_iff cfg tf cb, addGeneric_false_same cfg tf cb,
      fun adds hl h => addGenericListeners_full cfg tf adds hl h cb⟩⟩

/-- C9 on the two-slot ID table: two adds after `TF_Init` succeed, the third
returns false. -/
theorem C9_add_saturation_witness :
    (addIdListeners (demoConfig CksumType.xor8) (TF_Init 0 : TinyFrameStruct Nat)
        [(1, 10), (2, 20)]).1 = true ∧
    (TF_AddIdListener (demoConfig CksumType.xor8)
      (addIdListeners (demoConfig CksumType.xor8) (TF_Init 0 : TinyFrameStruct Nat)
        [(1, 10), (2, 20)]).2 3 (some 30)).1 = false :=
  ⟨by decide,
    (C9_add_saturation (demoConfig CksumType.xor8) (TF_Init 0 : TinyFrameStruct Nat) 3
      (some 30)).1.2.2 [(1, 10), (2, 20)] (by decide) (by decide)⟩

/-! ### Removing listeners and the table invariant -/

theorem removeId_loop_eq (tf : TinyFrameStruct H) (key : Nat) (n i : Nat) :
    TF_RemoveIdListener.loop tf key n i =
      match firstIndex (fun j => decide ((tf.id_listeners j).fn.isSome = true ∧ (tf.id_listeners j).id = key)) n i with
      | Option.none => (false, tf)
      | some k => (true, { tf with
          id_listeners := Function.update tf.id_listeners k ⟨(tf.id_listeners k).id, Option.none⟩
          count_id_lst := if k = tf.count_id_lst - 1 then tf.count_id_lst - 1 else tf.count_id_lst }) := by
  induction n generalizing i with
  | zero => rfl
  | succ n ih =>
    by_cases hp : (tf.id_listeners i).fn.isSome = true ∧ (tf.id_listeners i).id = key
    · simp only [TF_RemoveIdListener.loop, firstIndex, hp, and_self, decide_True, if_true]
    · simp only [TF_RemoveIdListener.loop, firstIndex, hp, decide_False, Bool.false_eq_true, if_false, ih]

theorem addId_inv (cfg : Config) (tf : TinyFrameStruct H) (akey : Nat) (cb : Option H)
    (h : RegistryInv cfg tf) : RegistryInv cfg (TF_AddIdListener cfg tf akey cb).2 := by
  unfold TF_AddIdListener
  rw [addId_loop_eq]
  cases hfi : firstIndex (fun j => (tf.id_listeners j).fn.isNone) cfg.TF_MAX_ID_LST 0 with
  | none => exact h
  | some k =>
    obtain ⟨_, h2, h3, _⟩ := firstIndex_eq_some _ _ _ _ hfi
    have hle := h.id_le
    have hlive := h.id_live
    refine { h with id_le := ?_, id_live := ?_ }
    · show (if k ≥ tf.count_id_lst then k + 1 else tf.count_id_lst) ≤ cfg.TF_MAX_ID_LST
      split <;> omega
    · intro j hj
      show j < (if k ≥ tf.count_id_lst then k + 1 else tf.count_id_lst)
      by_cases e : j = k
      · subst e
        split <;> omega
      · have hj2 : (tf.id_listeners j).fn.isSome = true := by
          simpa [Function.update_noteq e] using hj
        have := hlive j hj2
        split <;> omega

theorem removeId_inv (cfg : Config) (tf : TinyFrameStruct H) (key : Nat)
    (h : RegistryInv cfg tf) : RegistryInv cfg (TF_RemoveIdListener tf key).2 := by
  unfold TF_RemoveIdListener
  rw [removeId_loop_eq]
  cases hfi : firstIndex (fun j => decide ((tf.id_listeners j).fn.isSome = true ∧ (tf.id_listeners j).id = key)) tf.count_id_lst 0 with
  | none => exact h
  | some k =>
    obtain ⟨_, h2, h3, _⟩ := firstIndex_eq_some _ _ _ _ hfi
    have hle := h.id_le
    have hlive := h.id_live
    refine { h with id_le := ?_, id_live := ?_ }
    · show (if k = tf.count_id_lst - 1 then tf.count_id_lst - 1 else tf.count_id_lst) ≤ cfg.TF_MAX_ID_LST
      split <;> omega
    · intro j hj
      show j < (if k = tf.count_id_lst - 1 then tf.count_id_lst - 1 else tf.count_id_lst)
      by_cases e : j = k
      · subst e
        simp at hj
      · have hj2 : (tf.id_listeners j).fn.isSome = true := by
          simpa [Function.update_noteq e] using hj
        have := hlive j hj2
        split <;> omega

theorem removeType_loop_eq (tf : TinyFrameStruct H) (key : Nat) (n i : Nat) :
    TF_RemoveTypeListener.loop tf key n i =
      match firstIndex (fun j => decide ((tf.type_listeners j).fn.isSome = true ∧ (tf.type_listeners j).type = key)) n i with
      | Option.none => (false, tf)
      | some k => (true, { tf with
          type_listeners := Function.update tf.type_listeners k ⟨(tf.type_listeners k).type, Option.none⟩
          count_type_lst := if k = tf.count_type_lst - 1 then tf.count_type_lst - 1 else tf.count_type_lst }) := by
  induction n generalizing i with
  | zero => rfl
  | succ n ih =>
    by_cases hp : (tf.type_listeners i).fn.isSome = true ∧ (tf.type_listeners i).type = key
    · simp only [TF_RemoveTypeListener.loop, firstIndex, hp, and_self, decide_True, if_true]
    · simp only [TF_RemoveTypeListener.loop, firstIndex, hp, decide_False, Bool.false_eq_true, if_false, ih]

theorem addType_inv (cfg : Config) (tf : TinyFrameStruct H) (akey : Nat) (cb : Option H)
    (h : RegistryInv cfg tf) : RegistryInv cfg (TF_AddTypeListener cfg tf akey cb).2 := by
  unfold TF_AddTypeListener
  rw [addType_loop_eq]
  cases hfi : firstIndex (fun j => (tf.type_listeners j).fn.isNone) cfg.TF_MAX_TYPE_LST 0 with
  | none => exact h
  | some k =>
    obtain ⟨_, h2, h3, _⟩ := firstIndex_eq_some _ _ _ _ hfi
    have hle := h.type_le
    have hlive := h.type_live
    refine { h with type_le := ?_, type_live := ?_ }
    · show (if k ≥ tf.count_type_lst then k + 1 else tf.count_type_lst) ≤ cfg.TF_MAX_TYPE_LST
      split <;> omega
    · intro j hj
      show j < (if k ≥ tf.count_type_lst then k + 1 else tf.count_type_lst)
      by_cases e : j = k
      · subst e
        split <;> omega
      · have hj2 : (tf.type_listeners j).fn.isSome = true := by
          simpa [Function.update_noteq e] using hj
        have := hlive j hj2
        split <;> omega

theorem removeType_inv (cfg : Config) (tf : TinyFrameStruct H) (key : Nat)
    (h : RegistryInv cfg tf) : RegistryInv cfg (TF_RemoveTypeListener tf key).2 := by
  unfold TF_RemoveTypeListener
  rw [removeType_loop_eq]
  cases hfi : firstIndex (fun j => decide ((tf.type_listeners j).fn.isSome = true ∧ (tf.type_listeners j).type = key)) tf.count_type_lst 0 with
  | none => exact h
  | some k =>
    obtain ⟨_, h2, h3, _⟩ := firstIndex_eq_some _ _ _ _ hfi
    have hle := h.type_le
    have hlive := h.type_live
    refine { h with type_le := ?_, type_live := ?_ }
    · show (if k = tf.count_type_lst - 1 then tf.count_type_lst - 1 else tf.count_type_lst) ≤ cfg.TF_MAX_TYPE_LST
      split <;> omega
    · intro j hj
      show j < (if k = tf.count_type_lst - 1 then tf.count_type_lst - 1 else tf.count_type_lst)
      by_cases e : j = k
      · subst e
        simp at hj
      · have hj2 : (tf.type_listeners j).fn.isSome = true := by
          simpa [Function.update_noteq e] using hj
        have := hlive j hj2
        split <;> omega

theorem removeGeneric_loop_eq [DecidableEq H] (tf : TinyFrameStruct H) (key : Option H) (n i : Nat) :
    TF_RemoveGenericListener.loop tf key n i =
      match firstIndex (fun j => decide ((tf.generic_listeners j).fn = key)) n i with
      | Option.none => (false, tf)
      | some k => (true, { tf with
          generic_listeners := Function.update tf.generic_listeners k ⟨Option.none⟩
          count_generic_lst := if k = tf.count_generic_lst - 1 then tf.count_generic_lst - 1 else tf.count_generic_lst }) := by
  induction n generalizing i with
  | zero => rfl
  | succ n ih =>
    by_cases hp : (tf.generic_listeners i).fn = key
    · simp only [TF_RemoveGenericListener.loop, firstIndex, hp, and_self, decide_True, if_true]
    · simp only [TF_RemoveGenericListener.loop, firstIndex, hp, decide_False, Bool.false_eq_true, if_false, ih]

theorem addGeneric_inv (cfg : Config) (tf : TinyFrameStruct H) (cb : Option H)
    (h : RegistryInv cfg tf) : RegistryInv cfg (TF_AddGenericListener cfg tf cb).2 := by
  unfold TF_AddGenericListener
  rw [addGeneric_loop_eq]
  cases hfi : firstIndex (fun j => (tf.generic_listeners j).fn.isNone) cfg.TF_MAX_GEN_LST 0 with
  | none => exact h
  | some k =>
    obtain ⟨_, h2, h3, _⟩ := firstIndex_eq_some _ _ _ _ hfi
    have hle := h.generic_le
    have hlive := h.generic_live
    refine { h with generic_le := ?_, generic_live := ?_ }
    · show (if k ≥ tf.count_generic_lst then k + 1 else tf.count_generic_lst) ≤ cfg.TF_MAX_GEN_LST
      split <;> omega
    · intro j hj
      show j < (if k ≥ tf.count_generic_lst then k + 1 else tf.count_generic_lst)
      by_cases e : j = k
      · subst e
        split <;> omega
      · have hj2 : (tf.generic_listeners j).fn.isSome = true := by
          simpa [Function.update_noteq e] using hj
        have := hlive j hj2
        split <;> omega

theorem removeGeneric_inv [DecidableEq H] (cfg : Config) (tf : TinyFrameStruct H) (key : Option H)
    (h : RegistryInv cfg tf) : RegistryInv cfg (TF_RemoveGenericListener tf key).2 := by
  unfold TF_RemoveGenericListener
  rw [removeGeneric_loop_eq]
  cases hfi : firstIndex (fun j => decide ((tf.generic_listeners j).fn = key)) tf.count_generic_lst 0 with
  | none => exact h
  | some k =>
    obtain ⟨_, h2, h3, _⟩ := firstIndex_eq_some _ _ _ _ hfi
    have hle := h.generic_le
    have hlive := h.generic_live
    refine { h with generic_le := ?_, generic_live := ?_ }
    · show (if k = tf.count_generic_lst - 1 then tf.count_generic_lst - 1 else tf.count_generic_lst) ≤ cfg.TF_MAX_GEN_LST
      split <;> omega
    · intro j hj
      show j < (if k = tf.count_generic_lst - 1 then tf.count_generic_lst - 1 else tf.count_generic_lst)
      by_cases e : j = k
      · subst e
        simp at hj
      · have hj2 : (tf.generic_listeners j).fn.isSome = true := by
          simpa [Function.update_noteq e] using hj
        have := hlive j hj2
        split <;> omega

theorem init_inv (cfg : Config) (peer : Nat) :
    RegistryInv cfg (TF_Init peer : TinyFrameStruct H) := by
  constructor <;> simp [TF_Init]

theorem reachable_inv [DecidableEq H] (cfg : Config) (tf : TinyFrameStruct H)
    (h : RegistryReachable cfg tf) : RegistryInv cfg tf := by
  induction h with
  | init peer => exact init_inv cfg peer
  | other _ h1 h2 h3 h4 h5 h6 ih =>
    exact ⟨h4 ▸ ih.id_le, fun j hj => h4 ▸ ih.id_live j (h1 ▸ hj), h5 ▸ ih.type_le,
      fun j hj => h5 ▸ ih.type_live j (h2 ▸ hj), h6 ▸ ih.generic_le,
      fun j hj => h6 ▸ ih.generic_live j (h3 ▸ hj)⟩
  | addId key cb _ ih => exact addId_inv cfg _ key cb ih
  | addType key cb _ ih => exact addType_inv cfg _ key cb ih
  | addGeneric cb _ ih => exact addGeneric_inv cfg _ cb ih
  | removeId key _ ih => exact removeId_inv cfg _ key ih
  | removeType key _ ih => exact removeType_inv cfg _ key ih
  | removeGeneric cb _ ih => exact removeGeneric_inv cfg _ cb ih

/-! ### Dispatch order -/

theorem cutAfterFirst_append {α : Type} (p : α → Bool) (as bs : List α) :
    cutAfterFirst p (as ++ bs) =
      if as.any p then cutAfterFirst p as else as ++ cutAfterFirst p bs := by
  induction as with
  | nil => simp
  | cons a as ih =>
    cases h : p a <;> simp [cutAfterFirst, h, ih]
    split <;> rfl

theorem cutAfterFirst_of_none {α : Type} (p : α → Bool) (as : List α)
    (h : as.any p = false) : cutAfterFirst p as = as := by
  induction as with
  | nil => rfl
  | cons a as ih =>
    simp only [List.any_cons, Bool.or_eq_false_iff] at h
    simp [cutAfterFirst, h.1, ih h.2]

theorem cutAfterFirst_append_rest {α : Type} (p : α → Bool) (as : List α) :
    ∃ rest, as = cutAfterFirst p as ++ rest := by
  induction as with
  | nil => exact ⟨[], rfl⟩
  | cons a as ih =>
    obtain ⟨rest, hr⟩ := ih
    cases h : p a
    · exact ⟨rest, by simp [cutAfterFirst, h, ← hr]⟩
    · exact ⟨as, by simp [cutAfterFirst, h]⟩

theorem filterMap_range_of_none {α : Type} (sel : Nat → Option α) (c n : Nat) (hc : c ≤ n)
    (h : ∀ j, c ≤ j → sel j = Option.none) :
    (List.range n).filterMap sel = (List.range' 0 c).filterMap sel := by
  induction n with
  | zero =>
    have : c = 0 := by omega
    subst this
    rfl
  | succ n ih =>
    rcases Nat.eq_or_lt_of_le hc with e | l
    · subst e
      rw [List.range_eq_range']
    · rw [List.range_succ, List.filterMap_append, ih (by omega)]
      simp [h n (by omega)]

theorem idLoop_eq (run : H → Frame → Bool) (tf : TinyFrameStruct H) (f : Frame) (n i : Nat) :
    TF_HandleReceivedMessage.idLoop run tf f n i =
      (((List.range' i n).filterMap (fun i =>
          if (tf.id_listeners i).id = f.frame_id then (tf.id_listeners i).fn
          else Option.none)).any (fun h => run h f),
        cutAfterFirst (fun h => run h f) ((List.range' i n).filterMap (fun i =>
          if (tf.id_listeners i).id = f.frame_id then (tf.id_listeners i).fn
          else Option.none))) := by
  induction n generalizing i with
  | zero => rfl
  | succ n ih =>
    simp only [TF_HandleReceivedMessage.idLoop, List.range'_succ, List.filterMap_cons, ih]
    cases hfn : (tf.id_listeners i).fn with
    | none => simp
    | some h =>
      by_cases hk : (tf.id_listeners i).id = f.frame_id
      · cases hr : run h f <;> simp [hk, hr, cutAfterFirst]
      · simp [hk]

theorem typeLoop_eq (run : H → Frame → Bool) (tf : TinyFrameStruct H) (f : Frame) (n i : Nat) :
    TF_HandleReceivedMessage.typeLoop run tf f n i =
      (((List.range' i n).filterMap (fun i =>
          if (tf.type_listeners i).type = f.type then (tf.type_listeners i).fn
          else Option.none)).any (fun h => run h f),
        cutAfterFirst (fun h => run h f) ((List.range' i n).filterMap (fun i =>
          if (tf.type_listeners i).type = f.type then (tf.type_listeners i).fn
          else Option.none))) := by
  induction n generalizing i with
  | zero => rfl
  | succ n ih =>
    simp only [TF_HandleReceivedMessage.typeLoop, List.range'_succ, List.filterMap_cons, ih]
    cases hfn : (tf.type_listeners i).fn with
    | none => simp
    | some h =>
      by_cases hk : (tf.type_listeners i).type = f.type
      · cases hr : run h f <;> simp [hk, hr, cutAfterFirst]
      · simp [hk]

theorem genLoop_eq (run : H → Frame → Bool) (tf : TinyFrameStruct H) (f : Frame) (n i : Nat) :
    TF_HandleReceivedMessage.genLoop run tf f n i =
      (((List.range' i n).filterMap (fun i => (tf.generic_listeners i).fn)).any
          (fun h => run h f),
        cutAfterFirst (fun h => run h f)
          ((List.range' i n).filterMap (fun i => (tf.generic_listeners i).fn))) := by
  induction n generalizing i with
  | zero => rfl
  | succ n ih =>
    simp only [TF_HandleReceivedMessage.genLoop, List.range'_succ, List.filterMap_cons, ih]
    cases hfn : (tf.generic_listeners i).fn with
    | none => simp
    | some h => cases hr : run h f <;> simp [hr, cutAfterFirst]

theorem liveIdMatches_eq (cfg : Config) (tf : TinyFrameStruct H) (h : RegistryInv cfg tf)
    (frame_id : Nat) :
    liveIdMatches cfg tf frame_id = (List.range' 0 tf.count_id_lst).filterMap (fun i =>
      if (tf.id_listeners i).id = frame_id then (tf.id_listeners i).fn else Option.none) := by
  apply filterMap_range_of_none _ _ _ h.id_le
  intro j hj
  cases hfn : (tf.id_listeners j).fn with
  | none => simp
  | some x =>
    have := h.id_live j (by simp [hfn])
    omega

theorem liveTypeMatches_eq (cfg : Config) (tf : TinyFrameStruct H) (h : RegistryInv cfg tf)
    (type : Nat) :
    liveTypeMatches cfg tf type = (List.range' 0 tf.count_type_lst).filterMap (fun i =>
      if (tf.type_listeners i).type = type then (tf.type_listeners i).fn else Option.none) := by
  apply filterMap_range_of_none _ _ _ h.type_le
  intro j hj
  cases hfn : (tf.type_listeners j).fn with
  | none => simp
  | some x =>
    have := h.type_live j (by simp [hfn])
    omega

theorem liveGeneric_eq (cfg : Config) (tf : TinyFrameStruct H) (h : RegistryInv cfg tf) :
    liveGeneric cfg tf =
      (List.range' 0 tf.count_generic_lst).filterMap (fun i => (tf.generic_listeners i).fn) := by
  apply filterMap_range_of_none _ _ _ h.generic_le
  intro j hj
  cases hfn : (tf.generic_listeners j).fn with
  | none => rfl
  | some x =>
    have := h.generic_live j (by simp [hfn])
    omega

theorem handle_eq (cfg : Config) (run : H → Frame → Bool) (tf : TinyFrameStruct H) (f : Frame)
    (h : RegistryInv cfg tf) :
    TF_HandleReceivedMessage run tf f =
      cutAfterFirst (fun h => run h f)
        (liveIdMatches cfg tf f.frame_id ++ liveTypeMatches cfg tf f.type ++
          liveGeneric cfg tf) := by
  rw [liveIdMatches_eq cfg tf h, liveTypeMatches_eq cfg tf h, liveGeneric_eq cfg tf h]
  simp only [TF_HandleReceivedMessage, idLoop_eq, typeLoop_eq, genLoop_eq, List.append_assoc,
    cutAfterFirst_append]
  split
  · rfl
  · rename_i h1
    simp only [Bool.not_eq_true] at h1
    rw [cutAfterFirst_of_none _ _ h1]
    split
    · rfl
    · rename_i h2
      simp only [Bool.not_eq_true] at h2
      rw [cutAfterFirst_of_none _ _ h2]

/-- C6: in a registry state reachable by add and remove calls, the handlers
that `TF_HandleReceivedMessage` calls are the live ID listeners for the frame
ID in slot order, then the live type listeners for the frame type, then the
live generic listeners, cut off right after the first handler that returns
true; so once an ID listener claims the frame only ID listeners were called,
and when no handler claims it all of them are called. -/
theorem C6_dispatch_order [DecidableEq H] (cfg : Config) (run : H → Frame → Bool)
    (tf : TinyFrameStruct H) (f : Frame) (h : RegistryReachable cfg tf) :
    let L := liveIdMatches cfg tf f.frame_id ++ liveTypeMatches cfg tf f.type ++
      liveGeneric cfg tf
    TF_HandleReceivedMessage run tf f = cutAfterFirst (fun h => run h f) L ∧
      ((liveIdMatches cfg tf f.frame_id).any (fun h => run h f) = true →
        TF_HandleReceivedMessage run tf f =
          cutAfterFirst (fun h => run h f) (liveIdMatches cfg tf f.frame_id)) ∧
      (L.any (fun h => run h f) = false → TF_HandleReceivedMessage run tf f = L) := by
  intro L
  have he := handle_eq cfg run tf f (reachable_inv cfg tf h)
  refine ⟨he, ?_, ?_⟩
  · intro hid
    rw [he, List.append_assoc, cutAfterFirst_append, hid]
    rfl
  · intro hnone
    rw [he]
    exact cutAfterFirst_of_none _ _ hnone

/-- C6 on a registry with one listener of each kind, for a frame with ID 7 and
type `0x22`, when only the type listener (handler 20) claims the frame. -/
theorem C6_dispatch_order_witness :
    RegistryReachable (demoConfig CksumType.xor8) demoRegistry ∧
    (let run : Nat → Frame → Bool := fun h _ => decide (h = 20)
     let f : Frame := ⟨7, 0x22, [1, 2, 3], 3⟩
     let L := liveIdMatches (demoConfig CksumType.xor8) demoRegistry f.frame_id ++
        liveTypeMatches (demoConfig CksumType.xor8) demoRegistry f.type ++
        liveGeneric (demoConfig CksumType.xor8) demoRegistry
     TF_HandleReceivedMessage run demoRegistry f = cutAfterFirst (fun h => run h f) L ∧
      ((liveIdMatches (demoConfig CksumType.xor8) demoRegistry f.frame_id).any
          (fun h => run h f) = true →
        TF_HandleReceivedMessage run demoRegistry f =
          cutAfterFirst (fun h => run h f)
            (liveIdMatches (demoConfig CksumType.xor8) demoRegistry f.frame_id)) ∧
      (L.any (fun h => run h f) = false → TF_HandleReceivedMessage run demoRegistry f = L)) :=
  ⟨RegistryReachable.addGeneric (some 30)
      (RegistryReachable.addType 0x22 (some 20)
        (RegistryReachable.addId 7 (some 10) (RegistryReachable.init 0))),
    C6_dispatch_order (demoConfig CksumType.xor8) (fun h _ => decide (h = 20)) demoRegistry
      ⟨7, 0x22, [1, 2, 3], 3⟩
      (RegistryReachable.addGeneric (some 30)
        (RegistryReachable.addType 0x22 (some 20)
          (RegistryReachable.addId 7 (some 10) (RegistryReachable.init 0))))⟩

/-- The dispatch of the frame with ID 7 and type `0x22` on the registry with
one listener of each kind calls the ID listener and then the type listener,
which claims the frame. -/
theorem dispatch_demo :
    TF_HandleReceivedMessage (fun h _ => decide (h = 20)) demoRegistry ⟨7, 0x22, [1, 2, 3], 3⟩ =
      [10, 20] := by
  decide

/-! ### Removing a listener that is not there -/

/-- C10, failing input: on the reachable registry whose generic table holds no
live entry but has used count 1, `TF_RemoveGenericListener` with a null
handler returns true and lowers the used count to 0, although no live entry
matches. -/
theorem C10_remove_null_generic :
    RegistryReachable (demoConfig CksumType.xor8) emptiedRegistry ∧
      (∀ j, j < (demoConfig CksumType.xor8).TF_MAX_GEN_LST →
        (emptiedRegistry.generic_listeners j).fn = Option.none) ∧
      emptiedRegistry.count_generic_lst = 1 ∧
      (TF_RemoveGenericListener emptiedRegistry Option.none).1 = true ∧
      (TF_RemoveGenericListener emptiedRegistry Option.none).2.count_generic_lst = 0 := by
  refine ⟨?_, by decide, by decide, by decide, by decide⟩
  exact RegistryReachable.removeGeneric (some 20)
    (RegistryReachable.removeGeneric (some 10)
      (RegistryReachable.addGeneric (some 20)
        (RegistryReachable.addGeneric (some 10) (RegistryReachable.init 0))))

/-! ### Parser: single steps -/

theorem TF_Accept_append (cfg : Config) (tf : TinyFrameStruct H) (xs ys : List Nat) :
    TF_Accept cfg tf (xs ++ ys) =
      ((TF_Accept cfg (TF_Accept cfg tf xs).1 ys).1,
        (TF_Accept cfg tf xs).2 ++ (TF_Accept cfg (TF_Accept cfg tf xs).1 ys).2) := by
  induction xs generalizing tf with
  | nil => simp [TF_Accept]
  | cons x xs ih => simp [TF_Accept, ih, List.append_assoc]

theorem acceptChar_active (cfg : Config) (tf : TinyFrameStruct H) (c : Nat)
    (hto : tf.parser_timeout_ticks < cfg.TF_PARSER_TIMEOUT_TICKS)
    (hst : tf.state ≠ TFState.SOF) :
    TF_AcceptChar cfg tf c =
      TF_AcceptChar.switch cfg { tf with parser_timeout_ticks := 0 } c := by
  have h1 : ¬ tf.parser_timeout_ticks ≥ cfg.TF_PARSER_TIMEOUT_TICKS := by omega
  simp [TF_AcceptChar, h1, hst]

theorem acceptChar_idle_sof (cfg : Config) (tf : TinyFrameStruct H) (c : Nat)
    (hu : cfg.TF_USE_SOF_BYTE = true) (hst : tf.state = TFState.SOF) :
    TF_AcceptChar cfg tf c =
      if c = cfg.TF_SOF_BYTE then
        (TF_ParsBeginFrame cfg { tf with parser_timeout_ticks := 0 }, [])
      else ({ tf with parser_timeout_ticks := 0 }, []) := by
  cases tf
  simp only at hst
  subst hst
  simp [TF_AcceptChar, TF_AcceptChar.switch, hu, TF_ResetParser]

theorem acceptChar_idle_nosof (cfg : Config) (tf : TinyFrameStruct H) (c : Nat)
    (hu : cfg.TF_USE_SOF_BYTE = false) (hst : tf.state = TFState.SOF) :
    TF_AcceptChar cfg tf c =
      TF_AcceptChar.switch cfg (TF_ParsBeginFrame cfg { tf with parser_timeout_ticks := 0 }) c := by
  cases tf
  simp only at hst
  subst hst
  simp [TF_AcceptChar, hu, TF_ResetParser]


/-! ### Parser: header fields -/

theorem accept_ID (cfg : Config) (tf : TinyFrameStruct H) (bs : List Nat)
    (hpos : 0 < cfg.TF_PARSER_TIMEOUT_TICKS) (hst : tf.state = TFState.ID)
    (hto : tf.parser_timeout_ticks < cfg.TF_PARSER_TIMEOUT_TICKS)
    (hlen : tf.rxi + bs.length = cfg.TF_ID_BYTES) (hne : bs ≠ []) :
    TF_Accept cfg tf bs =
      ({ tf with
          state := TFState.LEN
          rxi := 0
          id := bs.foldl (COLLECT_NUMBER cfg.TF_ID_BYTES) tf.id
          cksum := bs.foldl (CKSUM_ADD cfg.TF_CKSUM_TYPE) tf.cksum
          parser_timeout_ticks := 0 }, []) := by
  induction bs generalizing tf with
  | nil => exact absurd rfl hne
  | cons c cs ih =>
    have hst' : tf.state ≠ TFState.SOF := by rw [hst]; decide
    simp only [TF_Accept]
    rw [acceptChar_active cfg tf c hto hst']
    simp only [TF_AcceptChar.switch, hst]
    by_cases hfin : tf.rxi + 1 = cfg.TF_ID_BYTES
    · have hcs : cs = [] := by
        apply List.eq_nil_of_length_eq_zero
        simp only [List.length_cons] at hlen
        omega
      subst hcs
      simp [hfin, TF_Accept]
    · have hcs : cs ≠ [] := by
        intro e
        subst e
        simp only [List.length_cons, List.length_nil] at hlen
        omega
      simp only [hfin, if_false]
      rw [ih _ rfl hpos (by simp only [List.length_cons] at hlen; simp only; omega) hcs]
      simp

theorem accept_LEN (cfg : Config) (tf : TinyFrameStruct H) (bs : List Nat)
    (hpos : 0 < cfg.TF_PARSER_TIMEOUT_TICKS) (hst : tf.state = TFState.LEN)
    (hto : tf.parser_timeout_ticks < cfg.TF_PARSER_TIMEOUT_TICKS)
    (hlen : tf.rxi + bs.length = cfg.TF_LEN_BYTES) (hne : bs ≠ []) :
    TF_Accept cfg tf bs =
      ({ tf with
          state := TFState.TYPE
          rxi := 0
          len := bs.foldl (COLLECT_NUMBER cfg.TF_LEN_BYTES) tf.len
          cksum := bs.foldl (CKSUM_ADD cfg.TF_CKSUM_TYPE) tf.cksum
          parser_timeout_ticks := 0 }, []) := by
  induction bs generalizing tf with
  | nil => exact absurd rfl hne
  | cons c cs ih =>
    have hst' : tf.state ≠ TFState.SOF := by rw [hst]; decide
    simp only [TF_Accept]
    rw [acceptChar_active cfg tf c hto hst']
    simp only [TF_AcceptChar.switch, hst]
    by_cases hfin : tf.rxi + 1 = cfg.TF_LEN_BYTES
    · have hcs : cs = [] := by
        apply List.eq_nil_of_length_eq_zero
        simp only [List.length_cons] at hlen
        omega
      subst hcs
      simp [hfin, TF_Accept]
    · have hcs : cs ≠ [] := by
        intro e
        subst e
        simp only [List.length_cons, List.length_nil] at hlen
        omega
      simp only [hfin, if_false]
      rw [ih _ rfl hpos (by simp only [List.length_cons] at hlen; simp only; omega) hcs]
      simp

theorem accept_TYPE (cfg : Config) (tf : TinyFrameStruct H) (bs : List Nat)
    (hpos : 0 < cfg.TF_PARSER_TIMEOUT_TICKS) (hst : tf.state = TFState.TYPE)
    (hto : tf.parser_timeout_ticks < cfg.TF_PARSER_TIMEOUT_TICKS)
    (hlen : tf.rxi + bs.length = cfg.TF_TYPE_BYTES) (hne : bs ≠ []) :
    TF_Accept cfg tf bs =
      (if cfg.TF_CKSUM_TYPE = CksumType.none then
        { tf with
          state := TFState.DATA
          rxi := 0
          type := bs.foldl (COLLECT_NUMBER cfg.TF_TYPE_BYTES) tf.type
          cksum := bs.foldl (CKSUM_ADD cfg.TF_CKSUM_TYPE) tf.cksum
          parser_timeout_ticks := 0 }
      else
        { tf with
          state := TFState.HEAD_CKSUM
          rxi := 0
          ref_cksum := 0
          type := bs.foldl (COLLECT_NUMBER cfg.TF_TYPE_BYTES) tf.type
          cksum := bs.foldl (CKSUM_ADD cfg.TF_CKSUM_TYPE) tf.cksum
          parser_timeout_ticks := 0 }, []) := by
  induction bs generalizing tf with
  | nil => exact absurd rfl hne
  | cons c cs ih =>
    have hst' : tf.state ≠ TFState.SOF := by rw [hst]; decide
    simp only [TF_Accept]
    rw [acceptChar_active cfg tf c hto hst']
    simp only [TF_AcceptChar.switch, hst]
    by_cases hfin : tf.rxi + 1 = cfg.TF_TYPE_BYTES
    · have hcs : cs = [] := by
        apply List.eq_nil_of_length_eq_zero
        simp only [List.length_cons] at hlen
        omega
      subst hcs
      by_cases ht : cfg.TF_CKSUM_TYPE = CksumType.none <;> simp [hfin, TF_Accept, ht]
    · have hcs : cs ≠ [] := by
        intro e
        subst e
        simp only [List.length_cons, List.length_nil] at hlen
        omega
      simp only [hfin, if_false]
      rw [ih _ rfl hpos (by simp only [List.length_cons] at hlen; simp only; omega) hcs]
      by_cases ht : cfg.TF_CKSUM_TYPE = CksumType.none <;> simp [ht]

/-! ### Parser: checksum fields and payload -/

theorem accept_HEAD_CKSUM (cfg : Config) (tf : TinyFrameStruct H) (bs : List Nat)
    (hpos : 0 < cfg.TF_PARSER_TIMEOUT_TICKS) (hst : tf.state = TFState.HEAD_CKSUM)
    (hto : tf.parser_timeout_ticks < cfg.TF_PARSER_TIMEOUT_TICKS)
    (hlen : tf.rxi + bs.length = cfg.TF_CKSUM_BYTES) (hne : bs ≠ []) :
    TF_Accept cfg tf bs =
      if CKSUM_FINALIZE cfg.TF_CKSUM_TYPE tf.cksum ≠
          bs.foldl (COLLECT_NUMBER cfg.TF_CKSUM_BYTES) tf.ref_cksum then
        ({ tf with
            state := TFState.SOF
            rxi := cfg.TF_CKSUM_BYTES
            ref_cksum := bs.foldl (COLLECT_NUMBER cfg.TF_CKSUM_BYTES) tf.ref_cksum
            cksum := CKSUM_FINALIZE cfg.TF_CKSUM_TYPE tf.cksum
            parser_timeout_ticks := 0 }, [])
      else if tf.len = 0 then
        ({ tf with
            state := TFState.SOF
            rxi := cfg.TF_CKSUM_BYTES
            ref_cksum := bs.foldl (COLLECT_NUMBER cfg.TF_CKSUM_BYTES) tf.ref_cksum
            cksum := CKSUM_FINALIZE cfg.TF_CKSUM_TYPE tf.cksum
            parser_timeout_ticks := 0 }, [Event.dispatch ⟨tf.id, tf.type, [], 0⟩])
      else
        ({ tf with
            state := TFState.DATA
            rxi := 0
            ref_cksum := bs.foldl (COLLECT_NUMBER cfg.TF_CKSUM_BYTES) tf.ref_cksum
            cksum := CKSUM_RESET cfg.TF_CKSUM_TYPE (CKSUM_FINALIZE cfg.TF_CKSUM_TYPE tf.cksum)
            discard_data := if tf.len ≥ cfg.TF_MAX_PAYLOAD then true else tf.discard_data
            parser_timeout_ticks := 0 }, []) := by
  induction bs generalizing tf with
  | nil => exact absurd rfl hne
  | cons c cs ih =>
    have hst' : tf.state ≠ TFState.SOF := by rw [hst]; decide
    simp only [TF_Accept]
    rw [acceptChar_active cfg tf c hto hst']
    simp only [TF_AcceptChar.switch, hst]
    by_cases hfin : tf.rxi + 1 = cfg.TF_CKSUM_BYTES
    · have hcs : cs = [] := by
        apply List.eq_nil_of_length_eq_zero
        simp only [List.length_cons] at hlen
        omega
      subst hcs
      simp only [hfin, if_true, List.foldl_cons, List.foldl_nil, TF_ResetParser]
      by_cases hck : CKSUM_FINALIZE cfg.TF_CKSUM_TYPE tf.cksum =
          COLLECT_NUMBER cfg.TF_CKSUM_BYTES tf.ref_cksum c
      · by_cases hl : tf.len = 0
        · simp [hck, hl, TF_Accept]
        · by_cases hm : tf.len ≥ cfg.TF_MAX_PAYLOAD <;> simp [hck, hl, hm, TF_Accept]
      · simp [hck, TF_Accept]
    · have hcs : cs ≠ [] := by
        intro e
        subst e
        simp only [List.length_cons, List.length_nil] at hlen
        omega
      simp only [hfin, if_false]
      rw [ih _ rfl hpos (by simp only [List.length_cons] at hlen; simp only; omega) hcs]
      simp only [List.foldl_cons]
      split
      · simp
      · split <;> simp

theorem accept_DATA_CKSUM (cfg : Config) (tf : TinyFrameStruct H) (bs : List Nat)
    (hpos : 0 < cfg.TF_PARSER_TIMEOUT_TICKS) (hst : tf.state = TFState.DATA_CKSUM)
    (hto : tf.parser_timeout_ticks < cfg.TF_PARSER_TIMEOUT_TICKS)
    (hlen : tf.rxi + bs.length = cfg.TF_CKSUM_BYTES) (hne : bs ≠ []) :
    TF_Accept cfg tf bs =
      ({ tf with
          state := TFState.SOF
          rxi := cfg.TF_CKSUM_BYTES
          ref_cksum := bs.foldl (COLLECT_NUMBER cfg.TF_CKSUM_BYTES) tf.ref_cksum
          cksum := CKSUM_FINALIZE cfg.TF_CKSUM_TYPE tf.cksum
          parser_timeout_ticks := 0 },
        if tf.discard_data = false ∧ CKSUM_FINALIZE cfg.TF_CKSUM_TYPE tf.cksum =
            bs.foldl (COLLECT_NUMBER cfg.TF_CKSUM_BYTES) tf.ref_cksum then
          [Event.dispatch ⟨tf.id, tf.type, (List.range tf.len).map tf.data, tf.len⟩]
        else []) := by
  induction bs generalizing tf with
  | nil => exact absurd rfl hne
  | cons c cs ih =>
    have hst' : tf.state ≠ TFState.SOF := by rw [hst]; decide
    simp only [TF_Accept]
    rw [acceptChar_active cfg tf c hto hst']
    simp only [TF_AcceptChar.switch, hst]
    by_cases hfin : tf.rxi + 1 = cfg.TF_CKSUM_BYTES
    · have hcs : cs = [] := by
        apply List.eq_nil_of_length_eq_zero
        simp only [List.length_cons] at hlen
        omega
      subst hcs
      simp only [hfin, if_true, List.foldl_cons, List.foldl_nil, TF_ResetParser]
      by_cases hck : CKSUM_FINALIZE cfg.TF_CKSUM_TYPE tf.cksum =
          COLLECT_NUMBER cfg.TF_CKSUM_BYTES tf.ref_cksum c
      · cases hd : tf.discard_data <;> simp [hck, hd, TF_Accept]
      · cases hd : tf.discard_data <;> simp [hck, hd, TF_Accept]
    · have hcs : cs ≠ [] := by
        intro e
        subst e
        simp only [List.length_cons, List.length_nil] at hlen
        omega
      simp only [hfin, if_false]
      rw [ih _ rfl hpos (by simp only [List.length_cons] at hlen; simp only; omega) hcs]
      simp

theorem accept_DATA (cfg : Config) (tf : TinyFrameStruct H) (bs : List Nat)
    (hpos : 0 < cfg.TF_PARSER_TIMEOUT_TICKS) (hst : tf.state = TFState.DATA)
    (hd : tf.discard_data = false)
    (hto : tf.parser_timeout_ticks < cfg.TF_PARSER_TIMEOUT_TICKS)
    (hlen : tf.rxi + bs.length = tf.len) (hne : bs ≠ []) :
    TF_Accept cfg tf bs =
      if cfg.TF_CKSUM_TYPE = CksumType.none then
        ({ tf with
            state := TFState.SOF
            rxi := tf.len
            data := writeAt tf.data tf.rxi bs
            cksum := bs.foldl (CKSUM_ADD cfg.TF_CKSUM_TYPE) tf.cksum
            parser_timeout_ticks := 0 },
          storeEvents tf.rxi bs ++
            [Event.dispatch ⟨tf.id, tf.type,
              (List.range tf.len).map (writeAt tf.data tf.rxi bs), tf.len⟩])
      else
        ({ tf with
            state := TFState.DATA_CKSUM
            rxi := 0
            ref_cksum := 0
            data := writeAt tf.data tf.rxi bs
            cksum := bs.foldl (CKSUM_ADD cfg.TF_CKSUM_TYPE) tf.cksum
            parser_timeout_ticks := 0 }, storeEvents tf.rxi bs) := by
  induction bs generalizing tf with
  | nil => exact absurd rfl hne
  | cons c cs ih =>
    have hst' : tf.state ≠ TFState.SOF := by rw [hst]; decide
    simp only [TF_Accept]
    rw [acceptChar_active cfg tf c hto hst']
    simp only [TF_AcceptChar.switch, hst, hd]
    by_cases hfin : tf.rxi + 1 = tf.len
    · have hcs : cs = [] := by
        apply List.eq_nil_of_length_eq_zero
        simp only [List.length_cons] at hlen
        omega
      subst hcs
      by_cases ht : cfg.TF_CKSUM_TYPE = CksumType.none <;>
        simp [hfin, ht, TF_Accept, TF_ResetParser, writeAt, storeEvents]
    · have hcs : cs ≠ [] := by
        intro e
        subst e
        simp only [List.length_cons, List.length_nil] at hlen
        omega
      simp only [Bool.false_eq_true, if_false, hfin]
      rw [ih _ rfl rfl hpos (by simp only [List.length_cons] at hlen; simp only; omega) hcs]
      by_cases ht : cfg.TF_CKSUM_TYPE = CksumType.none <;> simp [ht, writeAt, storeEvents]

/-! ### Collecting a big-endian number -/

theorem COLLECT_NUMBER_eq (w d c : Nat) (hc : c < 256) :
    COLLECT_NUMBER w d c = (d * 256 + c) % 2 ^ (8 * w) := by
  unfold COLLECT_NUMBER
  have h : d <<< 8 ||| c = d * 256 + c := by
    have h2 := Nat.mul_add_lt_is_or (i := 8) (b := c) (by simpa using hc) d
    rw [Nat.shiftLeft_eq, Nat.mul_comm d, ← h2]
  rw [h]

theorem bigEndian_lt (w x : Nat) : ∀ b ∈ bigEndian w x, b < 256 := by
  intro b hb
  simp only [bigEndian, List.mem_map] at hb
  obtain ⟨i, _, rfl⟩ := hb
  exact Nat.mod_lt _ (by norm_num)

theorem collect_bigEndian_mod (W k x d : Nat) :
    (bigEndian k x).foldl (COLLECT_NUMBER W) d % 2 ^ (8 * W) =
      (d * 256 ^ k + x % 256 ^ k) % 2 ^ (8 * W) := by
  induction k generalizing d with
  | zero => simp [bigEndian, Nat.mod_one]
  | succ k ih =>
    rw [bigEndian_succ, List.foldl_cons, ih,
      COLLECT_NUMBER_eq W d _ (Nat.mod_lt _ (by norm_num))]
    have e : x % 256 ^ (k + 1) = x % 256 ^ k + 256 ^ k * (x / 256 ^ k % 256) := by
      rw [pow_succ, Nat.mod_mul]
    rw [e, Nat.add_mod, Nat.mul_mod, Nat.mod_mod, ← Nat.mul_mod, ← Nat.add_mod]
    congr 1
    ring

theorem foldl_COLLECT_lt (W d : Nat) (bs : List Nat) (hne : bs ≠ []) :
    bs.foldl (COLLECT_NUMBER W) d < 2 ^ (8 * W) := by
  induction bs generalizing d with
  | nil => exact absurd rfl hne
  | cons b bs ih =>
    rw [List.foldl_cons]
    by_cases h : bs = []
    · subst h
      exact Nat.mod_lt _ (by positivity)
    · exact ih _ h

theorem collect_bigEndian (W x d : Nat) (hW : 0 < W) :
    (bigEndian W x).foldl (COLLECT_NUMBER W) d = x % 2 ^ (8 * W) := by
  have hne : bigEndian W x ≠ [] := by
    intro e
    have := bigEndian_length W x
    rw [e] at this
    simp at this
    omega
  have h1 := collect_bigEndian_mod W W x d
  rw [Nat.mod_eq_of_lt (foldl_COLLECT_lt W d _ hne)] at h1
  rw [h1]
  have e : (2 : Nat) ^ (8 * W) = 256 ^ W := by
    rw [pow_mul]
    norm_num
  rw [e, Nat.add_mod, Nat.mul_mod_left, Nat.zero_add, Nat.mod_mod, Nat.mod_mod]


/-! ### Table-driven CRC steps are injective -/

theorem shiftRight_xor (a b k : Nat) : (a ^^^ b) >>> k = (a >>> k) ^^^ (b >>> k) := by
  apply Nat.eq_of_testBit_eq
  intro i
  simp

theorem xor_cancel_left {a b c : Nat} (h : a ^^^ b = a ^^^ c) : b = c := by
  have h2 := congrArg (fun x => a ^^^ x) h
  simpa [← Nat.xor_assoc] using h2

theorem xor_cancel_right {a b c : Nat} (h : b ^^^ a = c ^^^ a) : b = c := by
  rw [Nat.xor_comm b, Nat.xor_comm c] at h
  exact xor_cancel_left h

theorem and_ff_lt (x : Nat) : x &&& 0xff < 256 := by
  have := @Nat.and_le_right x 0xff
  omega

theorem and_ff_eq_mod (x : Nat) : x &&& 0xff = x % 256 := by
  have h : (0xff : Nat) = 2 ^ 8 - 1 := by norm_num
  rw [h, Nat.and_pow_two_sub_one_eq_mod]

/-- The value of a table-driven CRC step before the conversion to the
accumulator type. -/
theorem crc_step_lt (T : List Nat) (W : Nat)
    (hT : ∀ i, i < 256 → T.getD i 0 < 2 ^ W) (c b : Nat) (hc : c < 2 ^ W) :
    (c >>> 8) ^^^ T.getD ((c ^^^ b) &&& 0xff) 0 < 2 ^ W := by
  apply Nat.xor_lt_two_pow
  · rw [Nat.shiftRight_eq_div_pow]
    exact lt_of_le_of_lt (Nat.div_le_self _ _) hc
  · exact hT _ (and_ff_lt _)

theorem crc_step_high (T : List Nat) (W : Nat) (hW : 8 ≤ W) (c b : Nat) (hc : c < 2 ^ W) :
    ((c >>> 8) ^^^ T.getD ((c ^^^ b) &&& 0xff) 0) >>> (W - 8) =
      T.getD ((c ^^^ b) &&& 0xff) 0 >>> (W - 8) := by
  rw [shiftRight_xor]
  have h0 : (c >>> 8) >>> (W - 8) = 0 := by
    rw [← Nat.shiftRight_add, Nat.shiftRight_eq_div_pow]
    have e : 8 + (W - 8) = W := by omega
    rw [e]
    exact Nat.div_eq_of_lt hc
  rw [h0, Nat.zero_xor]

theorem crc_step_index (T inv : List Nat) (W : Nat) (hW : 8 ≤ W)
    (hinv : ∀ i, i < 256 → inv.getD (T.getD i 0 >>> (W - 8)) 0 = i)
    (c1 c2 b1 b2 : Nat) (hc1 : c1 < 2 ^ W) (hc2 : c2 < 2 ^ W)
    (h : (c1 >>> 8) ^^^ T.getD ((c1 ^^^ b1) &&& 0xff) 0 =
      (c2 >>> 8) ^^^ T.getD ((c2 ^^^ b2) &&& 0xff) 0) :
    (c1 ^^^ b1) &&& 0xff = (c2 ^^^ b2) &&& 0xff := by
  have h1 := congrArg (fun x => x >>> (W - 8)) h
  simp only [crc_step_high T W hW c1 b1 hc1, crc_step_high T W hW c2 b2 hc2] at h1
  have h2 := congrArg (fun x => inv.getD x 0) h1
  simp only [hinv _ (and_ff_lt _)] at h2
  exact h2

theorem crc_step_inj_acc (T inv : List Nat) (W : Nat) (hW : 8 ≤ W)
    (hinv : ∀ i, i < 256 → inv.getD (T.getD i 0 >>> (W - 8)) 0 = i)
    (c1 c2 b : Nat) (hc1 : c1 < 2 ^ W) (hc2 : c2 < 2 ^ W)
    (h : (c1 >>> 8) ^^^ T.getD ((c1 ^^^ b) &&& 0xff) 0 =
      (c2 >>> 8) ^^^ T.getD ((c2 ^^^ b) &&& 0xff) 0) : c1 = c2 := by
  have hi := crc_step_index T inv W hW hinv c1 c2 b b hc1 hc2 h
  rw [hi] at h
  have hhi : c1 >>> 8 = c2 >>> 8 := xor_cancel_right h
  rw [Nat.and_xor_distrib_right, Nat.and_xor_distrib_right] at hi
  have hlo : c1 &&& 0xff = c2 &&& 0xff := xor_cancel_right hi
  rw [and_ff_eq_mod, and_ff_eq_mod] at hlo
  rw [Nat.shiftRight_eq_div_pow, Nat.shiftRight_eq_div_pow] at hhi
  have e1 := Nat.div_add_mod c1 (2 ^ 8)
  have e2 := Nat.div_add_mod c2 (2 ^ 8)
  norm_num at e1 e2 hhi
  omega

theorem crc_step_inj_byte (T inv : List Nat) (W : Nat) (hW : 8 ≤ W)
    (hinv : ∀ i, i < 256 → inv.getD (T.getD i 0 >>> (W - 8)) 0 = i)
    (c a b : Nat) (hc : c < 2 ^ W) (ha : a < 256) (hb : b < 256)
    (h : (c >>> 8) ^^^ T.getD ((c ^^^ a) &&& 0xff) 0 =
      (c >>> 8) ^^^ T.getD ((c ^^^ b) &&& 0xff) 0) : a = b := by
  have hi := crc_step_index T inv W hW hinv c c a b hc hc h
  rw [Nat.and_xor_distrib_right, Nat.and_xor_distrib_right] at hi
  have hab : a &&& 0xff = b &&& 0xff := xor_cancel_left hi
  rw [and_ff_eq_mod, and_ff_eq_mod, Nat.mod_eq_of_lt ha, Nat.mod_eq_of_lt hb] at hab
  exact hab

set_option maxRecDepth 100000 in
theorem crc16_index_spec : ∀ i, i < 256 → crc16_index.getD (crc16_table.getD i 0 >>> 8) 0 = i := by
  decide

set_option maxRecDepth 100000 in
theorem crc32_index_spec : ∀ i, i < 256 → crc32_index.getD (crc32_table.getD i 0 >>> 24) 0 = i := by
  decide

set_option maxRecDepth 100000 in
theorem crc16_table_lt : ∀ i, i < 256 → crc16_table.getD i 0 < 2 ^ 16 := by
  decide

set_option maxRecDepth 100000 in
theorem crc32_table_lt : ∀ i, i < 256 → crc32_table.getD i 0 < 2 ^ 32 := by
  decide


theorem crc16_byte_eq (c b : Nat) (hc : c < 2 ^ 16) :
    crc16_byte c b = (c >>> 8) ^^^ crc16_table.getD ((c ^^^ b) &&& 0xff) 0 := by
  unfold crc16_byte
  exact Nat.mod_eq_of_lt (crc_step_lt crc16_table 16 crc16_table_lt c b hc)

theorem crc32_byte_eq (c b : Nat) (hc : c < 2 ^ 32) (hb : b < 256) :
    crc32_byte c b = (c >>> 8) ^^^ crc32_table.getD ((c ^^^ b) &&& 0xff) 0 := by
  unfold crc32_byte
  rw [Nat.mod_eq_of_lt hb, Nat.xor_comm]
  exact Nat.mod_eq_of_lt (crc_step_lt crc32_table 32 crc32_table_lt c b hc)

/-! ### Checksum accumulators: range and injectivity -/

theorem CKSUM_RESET_lt (t : CksumType) (ht : t ≠ CksumType.none) (x : Nat) :
    CKSUM_RESET t x < 2 ^ (8 * t.bytes) := by
  cases t <;> simp [CKSUM_RESET, CksumType.bytes] at ht ⊢

theorem CKSUM_ADD_lt (t : CksumType) (ht : t ≠ CksumType.none) (c b : Nat) :
    CKSUM_ADD t c b < 2 ^ (8 * t.bytes) := by
  cases t
  · exact absurd rfl ht
  · exact Nat.mod_lt _ (by norm_num)
  · exact Nat.mod_lt _ (by norm_num)
  · exact Nat.mod_lt _ (by norm_num)

theorem CKSUM_FINALIZE_lt (t : CksumType) (ht : t ≠ CksumType.none) (c : Nat)
    (hc : c < 2 ^ (8 * t.bytes)) : CKSUM_FINALIZE t c < 2 ^ (8 * t.bytes) := by
  cases t
  · exact absurd rfl ht
  · exact Nat.mod_lt _ (by norm_num)
  · exact hc
  · exact Nat.mod_lt _ (by norm_num)

theorem foldl_CKSUM_ADD_lt (t : CksumType) (ht : t ≠ CksumType.none) (c : Nat)
    (hc : c < 2 ^ (8 * t.bytes)) (bs : List Nat) :
    bs.foldl (CKSUM_ADD t) c < 2 ^ (8 * t.bytes) := by
  induction bs generalizing c with
  | nil => exact hc
  | cons b bs ih => exact ih _ (CKSUM_ADD_lt t ht c b)

theorem checksumOf_lt (t : CksumType) (ht : t ≠ CksumType.none) (bs : List Nat) :
    checksumOf t bs < 2 ^ (8 * t.bytes) :=
  CKSUM_FINALIZE_lt t ht _ (foldl_CKSUM_ADD_lt t ht _ (CKSUM_RESET_lt t ht 0) bs)

theorem CKSUM_ADD_inj_acc (t : CksumType) (ht : t ≠ CksumType.none) (c1 c2 b : Nat)
    (hc1 : c1 < 2 ^ (8 * t.bytes)) (hc2 : c2 < 2 ^ (8 * t.bytes)) (hb : b < 256)
    (h : CKSUM_ADD t c1 b = CKSUM_ADD t c2 b) : c1 = c2 := by
  cases t
  · exact absurd rfl ht
  · simp only [CksumType.bytes, Nat.mul_one] at hc1 hc2
    simp only [CKSUM_ADD] at h
    rw [Nat.mod_eq_of_lt (Nat.xor_lt_two_pow hc1 (by simpa using hb)),
      Nat.mod_eq_of_lt (Nat.xor_lt_two_pow hc2 (by simpa using hb))] at h
    exact xor_cancel_right h
  · simp only [CksumType.bytes] at hc1 hc2
    simp only [CKSUM_ADD, crc16_byte_eq c1 b hc1, crc16_byte_eq c2 b hc2] at h
    exact crc_step_inj_acc crc16_table crc16_index 16 (by norm_num) crc16_index_spec c1 c2 b
      hc1 hc2 h
  · simp only [CksumType.bytes] at hc1 hc2
    simp only [CKSUM_ADD, crc32_byte_eq c1 b hc1 hb, crc32_byte_eq c2 b hc2 hb] at h
    exact crc_step_inj_acc crc32_table crc32_index 32 (by norm_num) crc32_index_spec c1 c2 b
      hc1 hc2 h

theorem CKSUM_ADD_inj_byte (t : CksumType) (ht : t ≠ CksumType.none) (c a b : Nat)
    (hc : c < 2 ^ (8 * t.bytes)) (ha : a < 256) (hb : b < 256)
    (h : CKSUM_ADD t c a = CKSUM_ADD t c b) : a = b := by
  cases t
  · exact absurd rfl ht
  · simp only [CksumType.bytes, Nat.mul_one] at hc
    simp only [CKSUM_ADD] at h
    rw [Nat.mod_eq_of_lt (Nat.xor_lt_two_pow hc (by simpa using ha)),
      Nat.mod_eq_of_lt (Nat.xor_lt_two_pow hc (by simpa using hb))] at h
    exact xor_cancel_left h
  · simp only [CksumType.bytes] at hc
    simp only [CKSUM_ADD, crc16_byte_eq c a hc, crc16_byte_eq c b hc] at h
    exact crc_step_inj_byte crc16_table crc16_index 16 (by norm_num) crc16_index_spec c a b
      hc ha hb h
  · simp only [CksumType.bytes] at hc
    simp only [CKSUM_ADD, crc32_byte_eq c a hc ha, crc32_byte_eq c b hc hb] at h
    exact crc_step_inj_byte crc32_table crc32_index 32 (by norm_num) crc32_index_spec c a b
      hc ha hb h

theorem CKSUM_FINALIZE_inj (t : CksumType) (c1 c2 : Nat)
    (hc1 : c1 < 2 ^ (8 * t.bytes)) (hc2 : c2 < 2 ^ (8 * t.bytes))
    (h : CKSUM_FINALIZE t c1 = CKSUM_FINALIZE t c2) : c1 = c2 := by
  cases t
  · exact h
  · simp only [CksumType.bytes, Nat.mul_one] at hc1 hc2
    simp only [CKSUM_FINALIZE] at h
    rw [Nat.mod_eq_of_lt (Nat.xor_lt_two_pow hc1 (by norm_num)),
      Nat.mod_eq_of_lt (Nat.xor_lt_two_pow hc2 (by norm_num))] at h
    exact xor_cancel_right h
  · exact h
  · simp only [CksumType.bytes] at hc1 hc2
    simp only [CKSUM_FINALIZE] at h
    rw [Nat.mod_eq_of_lt (Nat.xor_lt_two_pow hc1 (by norm_num)),
      Nat.mod_eq_of_lt (Nat.xor_lt_two_pow hc2 (by norm_num))] at h
    exact xor_cancel_right h

theorem foldl_CKSUM_ADD_inj (t : CksumType) (ht : t ≠ CksumType.none) (c1 c2 : Nat)
    (hc1 : c1 < 2 ^ (8 * t.bytes)) (hc2 : c2 < 2 ^ (8 * t.bytes)) (bs : List Nat)
    (hbs : ∀ b ∈ bs, b < 256) (h : bs.foldl (CKSUM_ADD t) c1 = bs.foldl (CKSUM_ADD t) c2) :
    c1 = c2 := by
  induction bs generalizing c1 c2 with
  | nil => exact h
  | cons b bs ih =>
    have hb := hbs b (List.mem_cons_self _ _)
    have h2 := ih _ _ (CKSUM_ADD_lt t ht c1 b) (CKSUM_ADD_lt t ht c2 b)
      (fun x hx => hbs x (List.mem_cons_of_mem _ hx)) h
    exact CKSUM_ADD_inj_acc t ht c1 c2 b hc1 hc2 hb h2

/-- A change of one byte changes the finalized checksum. -/
theorem checksum_detects (t : CksumType) (ht : t ≠ CksumType.none) (c0 : Nat)
    (hc0 : c0 < 2 ^ (8 * t.bytes)) (pre post : List Nat) (a b : Nat) (ha : a < 256)
    (hb : b < 256) (hab : a ≠ b) (hpost : ∀ p ∈ post, p < 256) :
    CKSUM_FINALIZE t ((pre ++ a :: post).foldl (CKSUM_ADD t) c0) ≠
      CKSUM_FINALIZE t ((pre ++ b :: post).foldl (CKSUM_ADD t) c0) := by
  intro h
  have hpre := foldl_CKSUM_ADD_lt t ht c0 hc0 pre
  simp only [List.foldl_append, List.foldl_cons] at h
  have h1 := CKSUM_FINALIZE_inj t _ _
    (foldl_CKSUM_ADD_lt t ht _ (CKSUM_ADD_lt t ht _ a) post)
    (foldl_CKSUM_ADD_lt t ht _ (CKSUM_ADD_lt t ht _ b) post) h
  have h2 := foldl_CKSUM_ADD_inj t ht _ _ (CKSUM_ADD_lt t ht _ a) (CKSUM_ADD_lt t ht _ b) post
    hpost h1
  exact hab (CKSUM_ADD_inj_byte t ht _ a b hpre ha hb h2)

/-! ### Parser: a whole header -/

theorem accept_start (cfg : Config) (tf : TinyFrameStruct H) (c : Nat) (cs : List Nat)
    (hpos : 0 < cfg.TF_PARSER_TIMEOUT_TICKS) (hst : tf.state = TFState.SOF) :
    TF_Accept cfg tf (sofPart cfg ++ c :: cs) =
      TF_Accept cfg (TF_ParsBeginFrame cfg { tf with parser_timeout_ticks := 0 }) (c :: cs) := by
  cases hu : cfg.TF_USE_SOF_BYTE with
  | true =>
    simp only [sofPart, hu, if_true, List.singleton_append]
    rw [TF_Accept, acceptChar_idle_sof cfg tf _ hu hst]
    simp
  | false =>
    simp only [sofPart, hu, Bool.false_eq_true, if_false, List.nil_append]
    rw [TF_Accept, TF_Accept, acceptChar_idle_nosof cfg tf _ hu hst,
      acceptChar_active cfg _ c (by simpa [TF_ParsBeginFrame] using hpos)
        (by simp [TF_ParsBeginFrame])]
    rfl

theorem accept_header_raw (cfg : Config) (hwf : cfg.WF) (tf : TinyFrameStruct H)
    (idB lenB typeB : List Nat) (hst : tf.state = TFState.SOF)
    (hid : idB.length = cfg.TF_ID_BYTES) (hlen : lenB.length = cfg.TF_LEN_BYTES)
    (htype : typeB.length = cfg.TF_TYPE_BYTES) :
    TF_Accept cfg tf (sofPart cfg ++ idB ++ lenB ++ typeB) =
      (afterHeader cfg tf (idB.foldl (COLLECT_NUMBER cfg.TF_ID_BYTES) tf.id)
        (lenB.foldl (COLLECT_NUMBER cfg.TF_LEN_BYTES) tf.len)
        (typeB.foldl (COLLECT_NUMBER cfg.TF_TYPE_BYTES) tf.type)
        ((idB ++ lenB ++ typeB).foldl (CKSUM_ADD cfg.TF_CKSUM_TYPE)
          (TF_ParsBeginFrame cfg tf).cksum), []) := by
  have hpos := hwf.timeout_pos
  have hidne : idB ≠ [] := by
    intro e
    have := hwf.id_pos
    rw [e] at hid
    simp at hid
    omega
  have hlenne : lenB ≠ [] := by
    intro e
    have := hwf.len_pos
    rw [e] at hlen
    simp at hlen
    omega
  have htypene : typeB ≠ [] := by
    intro e
    have := hwf.type_pos
    rw [e] at htype
    simp at htype
    omega
  obtain ⟨c, cs, hc⟩ := List.exists_cons_of_ne_nil hidne
  rw [List.append_assoc, List.append_assoc, hc, List.cons_append, accept_start cfg tf c _ hpos hst,
    ← List.cons_append, ← hc, TF_Accept_append,
    accept_ID cfg _ idB hpos (by simp [TF_ParsBeginFrame]) (by simpa [TF_ParsBeginFrame] using hpos)
      (by simpa [TF_ParsBeginFrame] using hid) hidne]
  simp only [List.nil_append]
  rw [TF_Accept_append, accept_LEN cfg _ lenB hpos rfl hpos (by simpa using hlen) hlenne]
  simp only [List.nil_append]
  rw [accept_TYPE cfg _ typeB hpos rfl hpos (by simpa using htype) htypene]
  by_cases ht : cfg.TF_CKSUM_TYPE = CksumType.none <;>
    simp [ht, afterHeader, TF_ParsBeginFrame, List.foldl_append]

theorem frames_append (xs ys : List Event) : frames (xs ++ ys) = frames xs ++ frames ys := by
  induction xs with
  | nil => rfl
  | cons x xs ih => cases x <;> simp [frames, ih]

theorem stores_append (xs ys : List Event) : stores (xs ++ ys) = stores xs ++ stores ys := by
  induction xs with
  | nil => rfl
  | cons x xs ih => cases x <;> simp [stores, ih]

theorem frames_storeEvents (k : Nat) (bs : List Nat) : frames (storeEvents k bs) = [] := by
  induction bs generalizing k with
  | nil => rfl
  | cons b bs ih => simp [storeEvents, frames, ih]

theorem stores_storeEvents (k : Nat) (bs : List Nat) :
    stores (storeEvents k bs) = List.range' k bs.length := by
  induction bs generalizing k with
  | nil => rfl
  | cons b bs ih => simp [storeEvents, stores, ih, List.range'_succ]

theorem wireHead_eq (cfg : Config) (id type n : Nat) :
    wireHead cfg id type n = sofPart cfg ++ bigEndian cfg.TF_ID_BYTES id ++
      bigEndian cfg.TF_LEN_BYTES n ++ bigEndian cfg.TF_TYPE_BYTES type := rfl

theorem beginFrame_cksum (cfg : Config) (tf : TinyFrameStruct H) (bs : List Nat) :
    bs.foldl (CKSUM_ADD cfg.TF_CKSUM_TYPE) (TF_ParsBeginFrame cfg tf).cksum =
      (sofPart cfg ++ bs).foldl (CKSUM_ADD cfg.TF_CKSUM_TYPE)
        (CKSUM_RESET cfg.TF_CKSUM_TYPE tf.cksum) := by
  cases hu : cfg.TF_USE_SOF_BYTE <;> simp [TF_ParsBeginFrame, sofPart, hu]

/-- The header of a composed frame, fed to an idle parser. -/
theorem accept_wireHead (cfg : Config) (hwf : cfg.WF) (tf : TinyFrameStruct H)
    (id type n : Nat) (hst : tf.state = TFState.SOF) :
    TF_Accept cfg tf (wireHead cfg id type n) =
      (afterHeader cfg tf (id % 2 ^ (8 * cfg.TF_ID_BYTES)) (n % 2 ^ (8 * cfg.TF_LEN_BYTES))
        (type % 2 ^ (8 * cfg.TF_TYPE_BYTES))
        ((wireHead cfg id type n).foldl (CKSUM_ADD cfg.TF_CKSUM_TYPE)
          (CKSUM_RESET cfg.TF_CKSUM_TYPE tf.cksum)), []) := by
  rw [wireHead_eq, accept_header_raw cfg hwf tf _ _ _ hst (bigEndian_length _ _)
    (bigEndian_length _ _) (bigEndian_length _ _), beginFrame_cksum,
    collect_bigEndian _ _ _ hwf.id_pos, collect_bigEndian _ _ _ hwf.len_pos,
    collect_bigEndian _ _ _ hwf.type_pos]
  simp only [List.append_assoc]

theorem cksum_bytes_pos (t : CksumType) : 0 < t.bytes := by
  cases t <;> simp [CksumType.bytes]

theorem collect_checksum (t : CksumType) (x d : Nat)
    (hx : x < 2 ^ (8 * t.bytes)) :
    (bigEndian t.bytes x).foldl (COLLECT_NUMBER t.bytes) d = x := by
  rw [collect_bigEndian _ _ _ (cksum_bytes_pos t), Nat.mod_eq_of_lt hx]

theorem bigEndian_ne_nil (w x : Nat) (hw : 0 < w) : bigEndian w x ≠ [] := by
  intro e
  have := bigEndian_length w x
  rw [e] at this
  simp at this
  omega

theorem bufferBytes_writeAt_zero (buf : Nat → Nat) (bs : List Nat) :
    (List.range bs.length).map (writeAt buf 0 bs) = bs := by
  have h := bufferBytes_writeAt buf 0 bs
  simpa [bufferBytes] using h

theorem accept_HEAD_CKSUM_bad (cfg : Config) (tf : TinyFrameStruct H) (x : Nat)
    (hpos : 0 < cfg.TF_PARSER_TIMEOUT_TICKS) (hst : tf.state = TFState.HEAD_CKSUM)
    (hto : tf.parser_timeout_ticks < cfg.TF_PARSER_TIMEOUT_TICKS) (hrxi : tf.rxi = 0)
    (hx : x < 2 ^ (8 * cfg.TF_CKSUM_TYPE.bytes))
    (hmis : CKSUM_FINALIZE cfg.TF_CKSUM_TYPE tf.cksum ≠ x) :
    TF_Accept cfg tf (bigEndian cfg.TF_CKSUM_BYTES x) =
      ({ tf with
          state := TFState.SOF
          rxi := cfg.TF_CKSUM_BYTES
          ref_cksum := x
          cksum := CKSUM_FINALIZE cfg.TF_CKSUM_TYPE tf.cksum
          parser_timeout_ticks := 0 }, []) := by
  have hcb : cfg.TF_CKSUM_BYTES = cfg.TF_CKSUM_TYPE.bytes := rfl
  rw [accept_HEAD_CKSUM cfg tf _ hpos hst hto (by simp [hrxi, bigEndian_length])
    (bigEndian_ne_nil _ _ (by rw [hcb]; exact cksum_bytes_pos _)), hcb,
    collect_checksum _ _ _ hx, if_pos hmis]

theorem accept_HEAD_CKSUM_zero (cfg : Config) (tf : TinyFrameStruct H) (x : Nat)
    (hpos : 0 < cfg.TF_PARSER_TIMEOUT_TICKS) (hst : tf.state = TFState.HEAD_CKSUM)
    (hto : tf.parser_timeout_ticks < cfg.TF_PARSER_TIMEOUT_TICKS) (hrxi : tf.rxi = 0)
    (hx : x < 2 ^ (8 * cfg.TF_CKSUM_TYPE.bytes))
    (hmatch : CKSUM_FINALIZE cfg.TF_CKSUM_TYPE tf.cksum = x) (hlen : tf.len = 0) :
    TF_Accept cfg tf (bigEndian cfg.TF_CKSUM_BYTES x) =
      ({ tf with
          state := TFState.SOF
          rxi := cfg.TF_CKSUM_BYTES
          ref_cksum := x
          cksum := CKSUM_FINALIZE cfg.TF_CKSUM_TYPE tf.cksum
          parser_timeout_ticks := 0 }, [Event.dispatch ⟨tf.id, tf.type, [], 0⟩]) := by
  have hcb : cfg.TF_CKSUM_BYTES = cfg.TF_CKSUM_TYPE.bytes := rfl
  rw [accept_HEAD_CKSUM cfg tf _ hpos hst hto (by simp [hrxi, bigEndian_length])
    (bigEndian_ne_nil _ _ (by rw [hcb]; exact cksum_bytes_pos _)), hcb,
    collect_checksum _ _ _ hx, if_neg (not_not.mpr hmatch), if_pos hlen]

theorem accept_HEAD_CKSUM_ok (cfg : Config) (tf : TinyFrameStruct H) (x : Nat)
    (hpos : 0 < cfg.TF_PARSER_TIMEOUT_TICKS) (hst : tf.state = TFState.HEAD_CKSUM)
    (hto : tf.parser_timeout_ticks < cfg.TF_PARSER_TIMEOUT_TICKS) (hrxi : tf.rxi = 0)
    (hx : x < 2 ^ (8 * cfg.TF_CKSUM_TYPE.bytes))
    (hmatch : CKSUM_FINALIZE cfg.TF_CKSUM_TYPE tf.cksum = x) (hlen : tf.len ≠ 0) :
    TF_Accept cfg tf (bigEndian cfg.TF_CKSUM_BYTES x) =
      ({ tf with
          state := TFState.DATA
          rxi := 0
          ref_cksum := x
          cksum := CKSUM_RESET cfg.TF_CKSUM_TYPE (CKSUM_FINALIZE cfg.TF_CKSUM_TYPE tf.cksum)
          discard_data := if tf.len ≥ cfg.TF_MAX_PAYLOAD then true else tf.discard_data
          parser_timeout_ticks := 0 }, []) := by
  have hcb : cfg.TF_CKSUM_BYTES = cfg.TF_CKSUM_TYPE.bytes := rfl
  rw [accept_HEAD_CKSUM cfg tf _ hpos hst hto (by simp [hrxi, bigEndian_length])
    (bigEndian_ne_nil _ _ (by rw [hcb]; exact cksum_bytes_pos _)), hcb,
    collect_checksum _ _ _ hx, if_neg (not_not.mpr hmatch), if_neg hlen]

theorem accept_DATA_CKSUM_ok (cfg : Config) (tf : TinyFrameStruct H) (x : Nat)
    (hpos : 0 < cfg.TF_PARSER_TIMEOUT_TICKS) (hst : tf.state = TFState.DATA_CKSUM)
    (hto : tf.parser_timeout_ticks < cfg.TF_PARSER_TIMEOUT_TICKS) (hrxi : tf.rxi = 0)
    (hx : x < 2 ^ (8 * cfg.TF_CKSUM_TYPE.bytes)) (hd : tf.discard_data = false)
    (hmatch : CKSUM_FINALIZE cfg.TF_CKSUM_TYPE tf.cksum = x) :
    TF_Accept cfg tf (bigEndian cfg.TF_CKSUM_BYTES x) =
      ({ tf with
          state := TFState.SOF
          rxi := cfg.TF_CKSUM_BYTES
          ref_cksum := x
          cksum := CKSUM_FINALIZE cfg.TF_CKSUM_TYPE tf.cksum
          parser_timeout_ticks := 0 },
        [Event.dispatch ⟨tf.id, tf.type, (List.range tf.len).map tf.data, tf.len⟩]) := by
  have hcb : cfg.TF_CKSUM_BYTES = cfg.TF_CKSUM_TYPE.bytes := rfl
  rw [accept_DATA_CKSUM cfg tf _ hpos hst hto (by simp [hrxi, bigEndian_length])
    (bigEndian_ne_nil _ _ (by rw [hcb]; exact cksum_bytes_pos _)), hcb,
    collect_checksum _ _ _ hx, if_pos ⟨hd, hmatch⟩]

theorem accept_DATA_CKSUM_bad (cfg : Config) (tf : TinyFrameStruct H) (x : Nat)
    (hpos : 0 < cfg.TF_PARSER_TIMEOUT_TICKS) (hst : tf.state = TFState.DATA_CKSUM)
    (hto : tf.parser_timeout_ticks < cfg.TF_PARSER_TIMEOUT_TICKS) (hrxi : tf.rxi = 0)
    (hx : x < 2 ^ (8 * cfg.TF_CKSUM_TYPE.bytes))
    (hmis : CKSUM_FINALIZE cfg.TF_CKSUM_TYPE tf.cksum ≠ x) :
    TF_Accept cfg tf (bigEndian cfg.TF_CKSUM_BYTES x) =
      ({ tf with
          state := TFState.SOF
          rxi := cfg.TF_CKSUM_BYTES
          ref_cksum := x
          cksum := CKSUM_FINALIZE cfg.TF_CKSUM_TYPE tf.cksum
          parser_timeout_ticks := 0 }, []) := by
  have hcb : cfg.TF_CKSUM_BYTES = cfg.TF_CKSUM_TYPE.bytes := rfl
  rw [accept_DATA_CKSUM cfg tf _ hpos hst hto (by simp [hrxi, bigEndian_length])
    (bigEndian_ne_nil _ _ (by rw [hcb]; exact cksum_bytes_pos _)), hcb,
    collect_checksum _ _ _ hx, if_neg (fun h => hmis h.2)]

/-! ### Parser: payload with its checksum, whole frames -/

/-- Payload bytes followed by a checksum field `x`, from the state `DATA` with
the discard flag clear: the frame is dispatched exactly when the checksum of
the payload bytes is `x`. -/
theorem accept_body (cfg : Config) (tf : TinyFrameStruct H) (payload : List Nat) (x : Nat)
    (hpos : 0 < cfg.TF_PARSER_TIMEOUT_TICKS) (ht : cfg.TF_CKSUM_TYPE ≠ CksumType.none)
    (hst : tf.state = TFState.DATA) (hd : tf.discard_data = false)
    (hto : tf.parser_timeout_ticks < cfg.TF_PARSER_TIMEOUT_TICKS) (hrxi : tf.rxi = 0)
    (hlen : tf.len = payload.length) (hne : payload ≠ [])
    (hx : x < 2 ^ (8 * cfg.TF_CKSUM_TYPE.bytes)) :
    (TF_Accept cfg tf (payload ++ bigEndian cfg.TF_CKSUM_BYTES x)).1.state = TFState.SOF ∧
      (TF_Accept cfg tf (payload ++ bigEndian cfg.TF_CKSUM_BYTES x)).2 =
        storeEvents 0 payload ++
          if CKSUM_FINALIZE cfg.TF_CKSUM_TYPE (payload.foldl (CKSUM_ADD cfg.TF_CKSUM_TYPE) tf.cksum)
              = x then
            [Event.dispatch ⟨tf.id, tf.type, payload, payload.length⟩]
          else [] := by
  rw [TF_Accept_append, accept_DATA cfg tf payload hpos hst hd hto (by omega) hne]
  simp only [ht, if_false, hrxi]
  by_cases hm : CKSUM_FINALIZE cfg.TF_CKSUM_TYPE
      (payload.foldl (CKSUM_ADD cfg.TF_CKSUM_TYPE) tf.cksum) = x
  · rw [accept_DATA_CKSUM_ok cfg _ x hpos rfl hpos rfl hx (by exact hd) (by exact hm)]
    simp [hm, hlen, bufferBytes_writeAt_zero]
  · rw [accept_DATA_CKSUM_bad cfg _ x hpos rfl hpos rfl hx (by exact hm)]
    simp [hm]

/-- A composed frame with a checksum and a non-empty payload shorter than
`TF_MAX_PAYLOAD`, fed to an idle parser: the final state and the events. -/
theorem accept_frame_cksum (cfg : Config) (hwf : cfg.WF) (tf : TinyFrameStruct H)
    (id type : Nat) (payload : List Nat) (hst : tf.state = TFState.SOF)
    (ht : cfg.TF_CKSUM_TYPE ≠ CksumType.none)
    (hid : id < 2 ^ (8 * cfg.TF_ID_BYTES)) (htype : type < 2 ^ (8 * cfg.TF_TYPE_BYTES))
    (hlen : payload.length < 2 ^ (8 * cfg.TF_LEN_BYTES))
    (hmax : payload.length < cfg.TF_MAX_PAYLOAD) (hne : payload ≠ []) :
    (TF_Accept cfg tf (wireFormat cfg id type payload)).1.state = TFState.SOF ∧
      (TF_Accept cfg tf (wireFormat cfg id type payload)).2 =
        storeEvents 0 payload ++ [Event.dispatch ⟨id, type, payload, payload.length⟩] := by
  have hpos := hwf.timeout_pos
  have hn0 : payload.length ≠ 0 := fun e => hne (List.length_eq_zero.mp e)
  have hnm : ¬ payload.length ≥ cfg.TF_MAX_PAYLOAD := by omega
  have hck1 : wireHeadCksum cfg id type payload.length =
      bigEndian cfg.TF_CKSUM_BYTES
        (checksumOf cfg.TF_CKSUM_TYPE (wireHead cfg id type payload.length)) := by
    simp [wireHeadCksum, ht]
  have hck2 : wireDataCksum cfg payload =
      bigEndian cfg.TF_CKSUM_BYTES (checksumOf cfg.TF_CKSUM_TYPE payload) := by
    simp [wireDataCksum, ht, hn0]
  have hr : ∀ x, CKSUM_RESET cfg.TF_CKSUM_TYPE x = CKSUM_RESET cfg.TF_CKSUM_TYPE 0 :=
    fun x => CKSUM_RESET_const _ ht x 0
  simp only [wireFormat, hck1, hck2, List.append_assoc]
  rw [TF_Accept_append, accept_wireHead cfg hwf tf id type _ hst]
  simp only [List.nil_append, Nat.mod_eq_of_lt hid, Nat.mod_eq_of_lt htype,
    Nat.mod_eq_of_lt hlen]
  rw [TF_Accept_append, accept_HEAD_CKSUM_ok cfg _
    (checksumOf cfg.TF_CKSUM_TYPE (wireHead cfg id type payload.length)) hpos
    (by simp [afterHeader, ht]) (by simpa [afterHeader] using hpos) rfl (checksumOf_lt _ ht _)
    (by simp [afterHeader, checksumOf, hr tf.cksum]) (by simpa [afterHeader] using hn0)]
  simp only [List.nil_append]
  have hb := accept_body cfg
    { afterHeader cfg tf id payload.length type
        ((wireHead cfg id type payload.length).foldl (CKSUM_ADD cfg.TF_CKSUM_TYPE)
          (CKSUM_RESET cfg.TF_CKSUM_TYPE tf.cksum)) with
      state := TFState.DATA
      rxi := 0
      ref_cksum := checksumOf cfg.TF_CKSUM_TYPE (wireHead cfg id type payload.length)
      cksum := CKSUM_RESET cfg.TF_CKSUM_TYPE (CKSUM_FINALIZE cfg.TF_CKSUM_TYPE
        ((wireHead cfg id type payload.length).foldl (CKSUM_ADD cfg.TF_CKSUM_TYPE)
          (CKSUM_RESET cfg.TF_CKSUM_TYPE tf.cksum)))
      discard_data := false
      parser_timeout_ticks := 0 }
    payload (checksumOf cfg.TF_CKSUM_TYPE payload) hpos ht rfl rfl hpos rfl rfl hne
    (checksumOf_lt _ ht _)
  simp only [afterHeader, hnm, if_false] at hb ⊢
  refine ⟨hb.1, ?_⟩
  rw [hb.2]
  simp [checksumOf, hr (CKSUM_FINALIZE _ _)]

/-- A composed frame with a checksum and an empty payload, fed to an idle
parser. -/
theorem accept_frame_zero (cfg : Config) (hwf : cfg.WF) (tf : TinyFrameStruct H)
    (id type : Nat) (hst : tf.state = TFState.SOF)
    (ht : cfg.TF_CKSUM_TYPE ≠ CksumType.none)
    (hid : id < 2 ^ (8 * cfg.TF_ID_BYTES)) (htype : type < 2 ^ (8 * cfg.TF_TYPE_BYTES)) :
    (TF_Accept cfg tf (wireFormat cfg id type [])).1.state = TFState.SOF ∧
      (TF_Accept cfg tf (wireFormat cfg id type [])).2 = [Event.dispatch ⟨id, type, [], 0⟩] := by
  have hpos := hwf.timeout_pos
  have hck1 : wireHeadCksum cfg id type 0 =
      bigEndian cfg.TF_CKSUM_BYTES (checksumOf cfg.TF_CKSUM_TYPE (wireHead cfg id type 0)) := by
    simp [wireHeadCksum, ht]
  have hr : ∀ x, CKSUM_RESET cfg.TF_CKSUM_TYPE x = CKSUM_RESET cfg.TF_CKSUM_TYPE 0 :=
    fun x => CKSUM_RESET_const _ ht x 0
  simp only [wireFormat, hck1, wireDataCksum, List.length_nil, or_true, if_true,
    List.append_nil]
  rw [TF_Accept_append, accept_wireHead cfg hwf tf id type _ hst]
  simp only [List.nil_append, Nat.mod_eq_of_lt hid, Nat.mod_eq_of_lt htype, Nat.zero_mod]
  rw [accept_HEAD_CKSUM_zero cfg _ (checksumOf cfg.TF_CKSUM_TYPE (wireHead cfg id type 0)) hpos
    (by simp [afterHeader, ht]) (by simpa [afterHeader] using hpos) rfl (checksumOf_lt _ ht _)
    (by simp [afterHeader, checksumOf, hr tf.cksum]) rfl]
  simp [afterHeader]

/-- A composed frame without checksums and with a non-empty payload, fed to an
idle parser. -/
theorem accept_frame_none (cfg : Config) (hwf : cfg.WF) (tf : TinyFrameStruct H)
    (id type : Nat) (payload : List Nat) (hst : tf.state = TFState.SOF)
    (ht : cfg.TF_CKSUM_TYPE = CksumType.none)
    (hid : id < 2 ^ (8 * cfg.TF_ID_BYTES)) (htype : type < 2 ^ (8 * cfg.TF_TYPE_BYTES))
    (hlen : payload.length < 2 ^ (8 * cfg.TF_LEN_BYTES)) (hne : payload ≠ []) :
    (TF_Accept cfg tf (wireFormat cfg id type payload)).1.state = TFState.SOF ∧
      (TF_Accept cfg tf (wireFormat cfg id type payload)).2 =
        storeEvents 0 payload ++ [Event.dispatch ⟨id, type, payload, payload.length⟩] := by
  have hpos := hwf.timeout_pos
  simp only [wireFormat, wireHeadCksum, wireDataCksum, ht, true_or, if_true, List.append_nil]
  rw [TF_Accept_append, accept_wireHead cfg hwf tf id type _ hst]
  simp only [List.nil_append, Nat.mod_eq_of_lt hid, Nat.mod_eq_of_lt htype,
    Nat.mod_eq_of_lt hlen]
  rw [accept_DATA cfg _ payload hpos (by simp [afterHeader, ht]) rfl
    (by simpa [afterHeader] using hpos) (by simp [afterHeader]) hne]
  simp [afterHeader, ht, bufferBytes_writeAt_zero]

/-- Bytes other than the start-of-frame byte leave an idle parser idle. -/
theorem accept_skip (cfg : Config) (tf : TinyFrameStruct H) (bs : List Nat)
    (hu : cfg.TF_USE_SOF_BYTE = true) (hst : tf.state = TFState.SOF)
    (hbs : ∀ b ∈ bs, b ≠ cfg.TF_SOF_BYTE) :
    (TF_Accept cfg tf bs).1.state = TFState.SOF ∧ (TF_Accept cfg tf bs).2 = [] := by
  induction bs generalizing tf with
  | nil => exact ⟨hst, rfl⟩
  | cons b bs ih =>
    have hb := hbs b (List.mem_cons_self _ _)
    simp only [TF_Accept, acceptChar_idle_sof cfg tf b hu hst, hb, if_false, List.nil_append]
    exact ih _ hst (fun x hx => hbs x (List.mem_cons_of_mem _ hx))

/-! ### Composed frames and single-bit corruption -/

theorem composed_eq (cfg : Config) (type : Nat) (data : List Nat) (id : Nat)
    (hsof : cfg.TF_SOF_BYTE < 256) (hlen : data.length ≤ cfg.TF_MAX_PAYLOAD) :
    composed cfg type data id = wireFormat cfg id type data := by
  unfold composed
  rw [TF_Compose_eq cfg _ _ type data id true hsof hlen]
  simp only [TF_Compose.genId, if_true, Int.toNat_ofNat]
  have h := bufferBytes_writeAt (fun _ => 0) 0 (wireFormat cfg id type data)
  simpa [bufferBytes] using h

theorem flipBit_append_left (xs ys : List Nat) (i k : Nat) (hi : i < xs.length) :
    flipBit (xs ++ ys) i k = flipBit xs i k ++ ys := by
  simp [flipBit, List.set_append, hi, List.getD_eq_getElem?_getD, List.getElem?_append_left hi]

theorem flipBit_append_right (xs ys : List Nat) (i k : Nat) (hi : xs.length ≤ i) :
    flipBit (xs ++ ys) i k = xs ++ flipBit ys (i - xs.length) k := by
  have h : ¬ i < xs.length := by omega
  simp [flipBit, List.set_append, h, List.getD_eq_getElem?_getD, List.getElem?_append_right hi]

theorem flipBit_split (xs : List Nat) (i k : Nat) (hi : i < xs.length) :
    ∃ pre a post, xs = pre ++ a :: post ∧ flipBit xs i k = pre ++ (a ^^^ 2 ^ k) :: post ∧
      pre.length = i := by
  refine ⟨xs.take i, xs[i], xs.drop (i + 1), ?_, ?_, ?_⟩
  · simp
  · simp [flipBit, List.set_eq_take_append_cons_drop, hi, List.getD_eq_getElem?_getD]
  · simp
    omega

theorem flipBit_length (xs : List Nat) (i k : Nat) : (flipBit xs i k).length = xs.length := by
  simp [flipBit]

theorem xor_two_pow_ne (a k : Nat) : a ^^^ 2 ^ k ≠ a := by
  intro h
  have h2 := congrArg (fun x => x.testBit k) h
  simp [Nat.testBit_two_pow_self] at h2

theorem xor_two_pow_lt (a k : Nat) (ha : a < 256) (hk : k < 8) : a ^^^ 2 ^ k < 256 := by
  have h1 : a < 2 ^ 8 := by simpa using ha
  have h2 : 2 ^ k < 2 ^ 8 := Nat.pow_lt_pow_right (by norm_num) hk
  simpa using Nat.xor_lt_two_pow h1 h2

theorem wireHead_length (cfg : Config) (id type n : Nat) :
    (wireHead cfg id type n).length =
      (sofPart cfg).length + cfg.TF_ID_BYTES + cfg.TF_LEN_BYTES + cfg.TF_TYPE_BYTES := by
  simp [wireHead_eq, bigEndian_length, Nat.add_assoc]

/-- A frame whose payload has one bit flipped is dropped: the parser is idle
again at the end of the frame and has dispatched nothing. -/
theorem corrupt_payload (cfg : Config) (hwf : cfg.WF) (tf : TinyFrameStruct H)
    (id type : Nat) (payload : List Nat) (j k : Nat) (hst : tf.state = TFState.SOF)
    (ht : cfg.TF_CKSUM_TYPE ≠ CksumType.none)
    (hlen : payload.length < 2 ^ (8 * cfg.TF_LEN_BYTES))
    (hmax : payload.length < cfg.TF_MAX_PAYLOAD)
    (hbytes : ∀ b ∈ payload, b < 256) (hj : j < payload.length) (hk : k < 8) :
    (TF_Accept cfg tf (wireHead cfg id type payload.length ++
        wireHeadCksum cfg id type payload.length ++ flipBit payload j k ++
        wireDataCksum cfg payload)).1.state = TFState.SOF ∧
      frames (TF_Accept cfg tf (wireHead cfg id type payload.length ++
        wireHeadCksum cfg id type payload.length ++ flipBit payload j k ++
        wireDataCksum cfg payload)).2 = [] := by
  have hpos := hwf.timeout_pos
  have hn0 : payload.length ≠ 0 := by omega
  have hnm : ¬ payload.length ≥ cfg.TF_MAX_PAYLOAD := by omega
  have hck1 : wireHeadCksum cfg id type payload.length =
      bigEndian cfg.TF_CKSUM_BYTES
        (checksumOf cfg.TF_CKSUM_TYPE (wireHead cfg id type payload.length)) := by
    simp [wireHeadCksum, ht]
  have hck2 : wireDataCksum cfg payload =
      bigEndian cfg.TF_CKSUM_BYTES (checksumOf cfg.TF_CKSUM_TYPE payload) := by
    simp [wireDataCksum, ht, hn0]
  have hr : ∀ x, CKSUM_RESET cfg.TF_CKSUM_TYPE x = CKSUM_RESET cfg.TF_CKSUM_TYPE 0 :=
    fun x => CKSUM_RESET_const _ ht x 0
  have hne : flipBit payload j k ≠ [] := by
    intro e
    have := flipBit_length payload j k
    rw [e] at this
    simp at this
    omega
  obtain ⟨pre, a, post, hsplit, hflip, _⟩ := flipBit_split payload j k hj
  have ha : a < 256 := hbytes a (by rw [hsplit]; simp)
  have hpost : ∀ p ∈ post, p < 256 := fun p hp => hbytes p (by rw [hsplit]; simp [hp])
  have hdet := checksum_detects cfg.TF_CKSUM_TYPE ht (CKSUM_RESET cfg.TF_CKSUM_TYPE 0)
    (CKSUM_RESET_lt _ ht 0) pre post (a ^^^ 2 ^ k) a (xor_two_pow_lt a k ha hk) ha
    (xor_two_pow_ne a k) hpost
  rw [← hflip, ← hsplit] at hdet
  simp only [hck1, hck2, List.append_assoc]
  rw [TF_Accept_append, accept_wireHead cfg hwf tf id type _ hst]
  simp only [List.nil_append, Nat.mod_eq_of_lt hlen]
  rw [TF_Accept_append, accept_HEAD_CKSUM_ok cfg _
    (checksumOf cfg.TF_CKSUM_TYPE (wireHead cfg id type payload.length)) hpos
    (by simp [afterHeader, ht]) (by simpa [afterHeader] using hpos) rfl (checksumOf_lt _ ht _)
    (by simp [afterHeader, checksumOf, hr tf.cksum]) (by simpa [afterHeader] using hn0)]
  simp only [List.nil_append]
  have hb := accept_body cfg
    { afterHeader cfg tf (id % 2 ^ (8 * cfg.TF_ID_BYTES)) payload.length
        (type % 2 ^ (8 * cfg.TF_TYPE_BYTES))
        ((wireHead cfg id type payload.length).foldl (CKSUM_ADD cfg.TF_CKSUM_TYPE)
          (CKSUM_RESET cfg.TF_CKSUM_TYPE tf.cksum)) with
      state := TFState.DATA
      rxi := 0
      ref_cksum := checksumOf cfg.TF_CKSUM_TYPE (wireHead cfg id type payload.length)
      cksum := CKSUM_RESET cfg.TF_CKSUM_TYPE (CKSUM_FINALIZE cfg.TF_CKSUM_TYPE
        ((wireHead cfg id type payload.length).foldl (CKSUM_ADD cfg.TF_CKSUM_TYPE)
          (CKSUM_RESET cfg.TF_CKSUM_TYPE tf.cksum)))
      discard_data := false
      parser_timeout_ticks := 0 }
    (flipBit payload j k) (checksumOf cfg.TF_CKSUM_TYPE payload) hpos ht rfl rfl hpos rfl
    (by simp [afterHeader, flipBit_length]) hne (checksumOf_lt _ ht _)
  simp only [afterHeader, hnm, if_false] at hb ⊢
  refine ⟨hb.1, ?_⟩
  rw [hb.2, hr (CKSUM_FINALIZE _ _)]
  simp only [checksumOf] at hdet ⊢
  simp [hdet, frames_append, frames_storeEvents, frames]

/-- Header bytes of the right total length, fed to an idle parser: the parser
is past the type field with the checksum of all header bytes accumulated. -/
theorem accept_header_any (cfg : Config) (hwf : cfg.WF) (tf : TinyFrameStruct H)
    (hdr : List Nat) (hst : tf.state = TFState.SOF)
    (hlen : hdr.length = cfg.TF_ID_BYTES + cfg.TF_LEN_BYTES + cfg.TF_TYPE_BYTES) :
    ∃ idv lenv typev, TF_Accept cfg tf (sofPart cfg ++ hdr) =
      (afterHeader cfg tf idv lenv typev
        (hdr.foldl (CKSUM_ADD cfg.TF_CKSUM_TYPE) (TF_ParsBeginFrame cfg tf).cksum), []) := by
  have h := accept_header_raw cfg hwf tf (hdr.take cfg.TF_ID_BYTES)
    ((hdr.drop cfg.TF_ID_BYTES).take cfg.TF_LEN_BYTES)
    ((hdr.drop cfg.TF_ID_BYTES).drop cfg.TF_LEN_BYTES) hst
    (by simp; omega) (by simp; omega) (by simp; omega)
  simp only [List.append_assoc, List.take_append_drop] at h
  exact ⟨_, _, _, h⟩

/-- A frame with one bit flipped in its ID, length or type field is dropped at
the header checksum; when no later byte of the frame is the start-of-frame
byte the parser is idle at the end of the frame and has dispatched nothing. -/
theorem corrupt_header (cfg : Config) (hwf : cfg.WF) (tf : TinyFrameStruct H)
    (id type n : Nat) (rest : List Nat) (j k : Nat) (hst : tf.state = TFState.SOF)
    (ht : cfg.TF_CKSUM_TYPE ≠ CksumType.none) (hu : cfg.TF_USE_SOF_BYTE = true)
    (hj : j < cfg.TF_ID_BYTES + cfg.TF_LEN_BYTES + cfg.TF_TYPE_BYTES) (hk : k < 8)
    (hrest : ∀ b ∈ rest, b ≠ cfg.TF_SOF_BYTE) :
    (TF_Accept cfg tf (sofPart cfg ++
        flipBit (bigEndian cfg.TF_ID_BYTES id ++ bigEndian cfg.TF_LEN_BYTES n ++
          bigEndian cfg.TF_TYPE_BYTES type) j k ++
        wireHeadCksum cfg id type n ++ rest)).1.state = TFState.SOF ∧
      frames (TF_Accept cfg tf (sofPart cfg ++
        flipBit (bigEndian cfg.TF_ID_BYTES id ++ bigEndian cfg.TF_LEN_BYTES n ++
          bigEndian cfg.TF_TYPE_BYTES type) j k ++
        wireHeadCksum cfg id type n ++ rest)).2 = [] := by
  have hpos := hwf.timeout_pos
  have hck1 : wireHeadCksum cfg id type n =
      bigEndian cfg.TF_CKSUM_BYTES (checksumOf cfg.TF_CKSUM_TYPE (wireHead cfg id type n)) := by
    simp [wireHeadCksum, ht]
  have hr : ∀ x, CKSUM_RESET cfg.TF_CKSUM_TYPE x = CKSUM_RESET cfg.TF_CKSUM_TYPE 0 :=
    fun x => CKSUM_RESET_const _ ht x 0
  have hhl : (bigEndian cfg.TF_ID_BYTES id ++ bigEndian cfg.TF_LEN_BYTES n ++
      bigEndian cfg.TF_TYPE_BYTES type).length =
      cfg.TF_ID_BYTES + cfg.TF_LEN_BYTES + cfg.TF_TYPE_BYTES := by
    simp [bigEndian_length, Nat.add_assoc]
  have hbytes : ∀ b ∈ bigEndian cfg.TF_ID_BYTES id ++ bigEndian cfg.TF_LEN_BYTES n ++
      bigEndian cfg.TF_TYPE_BYTES type, b < 256 := by
    intro b hb
    simp only [List.mem_append] at hb
    rcases hb with (hb | hb) | hb <;> exact bigEndian_lt _ _ b hb
  obtain ⟨pre, a, post, hsplit, hflip, _⟩ := flipBit_split _ j k (by rw [hhl]; exact hj)
  have ha : a < 256 := hbytes a (by rw [hsplit]; simp)
  have hpost : ∀ p ∈ post, p < 256 := fun p hp => hbytes p (by rw [hsplit]; simp [hp])
  have hdet := checksum_detects cfg.TF_CKSUM_TYPE ht
    (CKSUM_ADD cfg.TF_CKSUM_TYPE (CKSUM_RESET cfg.TF_CKSUM_TYPE 0) cfg.TF_SOF_BYTE)
    (CKSUM_ADD_lt _ ht _ _) pre post (a ^^^ 2 ^ k) a (xor_two_pow_lt a k ha hk) ha
    (xor_two_pow_ne a k) hpost
  rw [← hflip, ← hsplit] at hdet
  obtain ⟨idv, lenv, typev, hh⟩ := accept_header_any cfg hwf tf _ hst
    ((flipBit_length _ j k).trans hhl)
  simp only [hck1, List.append_assoc] at hh ⊢
  rw [← List.append_assoc, TF_Accept_append, hh]
  simp only [List.nil_append]
  rw [TF_Accept_append, accept_HEAD_CKSUM_bad cfg _
    (checksumOf cfg.TF_CKSUM_TYPE (wireHead cfg id type n)) hpos
    (by simp [afterHeader, ht]) (by simpa [afterHeader] using hpos) rfl (checksumOf_lt _ ht _)
    (by
      simp only [afterHeader, TF_ParsBeginFrame, hu, if_true, checksumOf, wireHead_eq, sofPart,
        List.append_assoc, List.singleton_append, List.foldl_cons, hr tf.cksum]
      simpa only [List.append_assoc] using hdet)]
  simp only [List.nil_append]
  refine ⟨(accept_skip cfg _ rest hu rfl hrest).1, ?_⟩
  rw [(accept_skip cfg _ rest hu rfl hrest).2]
  rfl

/-- A frame whose start-of-frame byte has one bit flipped is ignored when no
later byte of the frame is the start-of-frame byte. -/
theorem corrupt_sof (cfg : Config) (tf : TinyFrameStruct H) (rest : List Nat) (k : Nat)
    (hst : tf.state = TFState.SOF) (hu : cfg.TF_USE_SOF_BYTE = true)
    (hrest : ∀ b ∈ rest, b ≠ cfg.TF_SOF_BYTE) :
    (TF_Accept cfg tf ((cfg.TF_SOF_BYTE ^^^ 2 ^ k) :: rest)).1.state = TFState.SOF ∧
      frames (TF_Accept cfg tf ((cfg.TF_SOF_BYTE ^^^ 2 ^ k) :: rest)).2 = [] := by
  have h := accept_skip cfg tf ((cfg.TF_SOF_BYTE ^^^ 2 ^ k) :: rest) hu hst (by
    intro b hb
    rcases List.mem_cons.mp hb with e | hb
    · rw [e]
      exact xor_two_pow_ne _ _
    · exact hrest b hb)
  exact ⟨h.1, by rw [h.2]; rfl⟩

/-- Round trip from any idle parser state, with checksums: a composed frame
with a payload shorter than `TF_MAX_PAYLOAD` is dispatched exactly once, as
sent, and leaves the parser idle. -/
theorem roundtrip_cksum (cfg : Config) (hwf : cfg.WF) (tf : TinyFrameStruct H)
    (id type : Nat) (payload : List Nat) (hst : tf.state = TFState.SOF)
    (ht : cfg.TF_CKSUM_TYPE ≠ CksumType.none)
    (hid : id < 2 ^ (8 * cfg.TF_ID_BYTES)) (htype : type < 2 ^ (8 * cfg.TF_TYPE_BYTES))
    (hlen : payload.length < 2 ^ (8 * cfg.TF_LEN_BYTES))
    (hmax : payload.length < cfg.TF_MAX_PAYLOAD) :
    (TF_Accept cfg tf (wireFormat cfg id type payload)).1.state = TFState.SOF ∧
      frames (TF_Accept cfg tf (wireFormat cfg id type payload)).2 =
        [⟨id, type, payload, payload.length⟩] := by
  by_cases hne : payload = []
  · subst hne
    have h := accept_frame_zero cfg hwf tf id type hst ht hid htype
    exact ⟨h.1, by rw [h.2]; rfl⟩
  · have h := accept_frame_cksum cfg hwf tf id type payload hst ht hid htype hlen hmax hne
    exact ⟨h.1, by rw [h.2]; simp [frames_append, frames_storeEvents, frames]⟩

/-- C4, counterexample: XOR-8 with start-of-frame byte `0x01`.  Frame A (ID 7,
type `0x22`, payload `[1, 2, 3]`) with bit 0 of its ID byte flipped is dropped
at the header checksum, but its payload byte `0x01` is then taken for a
start of frame, and frame B (ID 8, type `0x33`, payload `[5]`), fed next, is
not dispatched. -/
theorem C4_resync_counterexample :
    composed (demoConfig CksumType.xor8) 0x22 [1, 2, 3] 7 =
        [1, 7, 0, 3, 34, 216, 1, 2, 3, 255] ∧
      flipBit (composed (demoConfig CksumType.xor8) 0x22 [1, 2, 3] 7) 1 0 =
        [1, 6, 0, 3, 34, 216, 1, 2, 3, 255] ∧
      frames (TF_Accept (demoConfig CksumType.xor8)
        (TF_Accept (demoConfig CksumType.xor8) (TF_Init 0 : TinyFrameStruct Unit)
          (flipBit (composed (demoConfig CksumType.xor8) 0x22 [1, 2, 3] 7) 1 0)).1
        (composed (demoConfig CksumType.xor8) 0x33 [5] 8)).2 = [] := by
  decide

/-- C4, amended: in a checksummed mode with a start-of-frame byte, let frame A
(payload bytes, length below `TF_MAX_PAYLOAD`) have one bit flipped at byte
index `i`, and let frame B (length below `TF_MAX_PAYLOAD`) follow.  If the
flip is in the payload, or in the ID, length or type field and no byte of A
after the header checksum equals the start-of-frame byte, or in the
start-of-frame byte and no later byte of A equals the start-of-frame byte,
then nothing is dispatched while the corrupted A is fed to the freshly
initialised parser, and B is dispatched exactly once, as sent. -/
theorem C4_corruption_resync (cfg : Config) (hwf : cfg.WF)
    (ht : cfg.TF_CKSUM_TYPE ≠ CksumType.none) (hu : cfg.TF_USE_SOF_BYTE = true)
    (peer idA typeA : Nat) (payA : List Nat) (idB typeB : Nat) (payB : List Nat) (i k : Nat)
    (hlenA : payA.length < 2 ^ (8 * cfg.TF_LEN_BYTES))
    (hmaxA : payA.length < cfg.TF_MAX_PAYLOAD) (hbytesA : ∀ b ∈ payA, b < 256)
    (hidB : idB < 2 ^ (8 * cfg.TF_ID_BYTES)) (htypeB : typeB < 2 ^ (8 * cfg.TF_TYPE_BYTES))
    (hlenB : payB.length < 2 ^ (8 * cfg.TF_LEN_BYTES))
    (hmaxB : payB.length < cfg.TF_MAX_PAYLOAD) (hk : k < 8)
    (hi : (i = 0 ∧ ∀ b ∈ (composed cfg typeA payA idA).drop 1, b ≠ cfg.TF_SOF_BYTE) ∨
      (1 ≤ i ∧ i < 1 + cfg.TF_ID_BYTES + cfg.TF_LEN_BYTES + cfg.TF_TYPE_BYTES ∧
        ∀ b ∈ (composed cfg typeA payA idA).drop
          (1 + cfg.TF_ID_BYTES + cfg.TF_LEN_BYTES + cfg.TF_TYPE_BYTES + cfg.TF_CKSUM_BYTES),
          b ≠ cfg.TF_SOF_BYTE) ∨
      (1 + cfg.TF_ID_BYTES + cfg.TF_LEN_BYTES + cfg.TF_TYPE_BYTES + cfg.TF_CKSUM_BYTES ≤ i ∧
        i < 1 + cfg.TF_ID_BYTES + cfg.TF_LEN_BYTES + cfg.TF_TYPE_BYTES + cfg.TF_CKSUM_BYTES +
          payA.length)) :
    let r1 := TF_Accept cfg (TF_Init peer : TinyFrameStruct H)
      (flipBit (composed cfg typeA payA idA) i k)
    let r2 := TF_Accept cfg r1.1 (composed cfg typeB payB idB)
    frames r1.2 = [] ∧ frames r2.2 = [⟨idB, typeB, payB, payB.length⟩] ∧
      r2.1.state = TFState.SOF := by
  intro r1 r2
  have hA := composed_eq cfg typeA payA idA hwf.sof_lt (by omega)
  have hB := composed_eq cfg typeB payB idB hwf.sof_lt (by omega)
  have hsl : (sofPart cfg).length = 1 := by simp [sofPart, hu]
  have hhl := wireHead_length cfg idA typeA payA.length
  have hcl : (wireHeadCksum cfg idA typeA payA.length).length = cfg.TF_CKSUM_BYTES := by
    simp [wireHeadCksum, ht, bigEndian_length]
  have key : r1.1.state = TFState.SOF ∧ frames r1.2 = [] := by
    simp only [r1]
    rw [hA] at hi ⊢
    rcases hi with ⟨h0, hrest⟩ | ⟨h1, h2, hrest⟩ | ⟨h1, h2⟩
    · subst h0
      have e : wireFormat cfg idA typeA payA =
          cfg.TF_SOF_BYTE :: (wireFormat cfg idA typeA payA).drop 1 := by
        simp [wireFormat, wireHead, hu]
      rw [e]
      rw [e] at hrest
      simp only [flipBit, List.set_cons_zero, List.getD_cons_zero]
      exact corrupt_sof cfg _ _ k rfl hu (by simpa using hrest)
    · have e : wireFormat cfg idA typeA payA = sofPart cfg ++
          ((bigEndian cfg.TF_ID_BYTES idA ++ bigEndian cfg.TF_LEN_BYTES payA.length ++
            bigEndian cfg.TF_TYPE_BYTES typeA) ++
          (wireHeadCksum cfg idA typeA payA.length ++ (payA ++ wireDataCksum cfg payA))) := by
        simp [wireFormat, wireHead_eq, List.append_assoc]
      have hd : (wireFormat cfg idA typeA payA).drop
          (1 + cfg.TF_ID_BYTES + cfg.TF_LEN_BYTES + cfg.TF_TYPE_BYTES + cfg.TF_CKSUM_BYTES) =
          payA ++ wireDataCksum cfg payA := by
        have e2 : wireFormat cfg idA typeA payA =
            (wireHead cfg idA typeA payA.length ++ wireHeadCksum cfg idA typeA payA.length) ++
              (payA ++ wireDataCksum cfg payA) := by
          simp [wireFormat, List.append_assoc]
        rw [e2]
        exact List.drop_left' (by simp [hhl, hcl, hsl])
      rw [hd] at hrest
      rw [e, flipBit_append_right _ _ _ _ (by omega), hsl,
        flipBit_append_left _ _ _ _ (by simp [bigEndian_length]; omega)]
      have hc := corrupt_header cfg hwf (TF_Init peer : TinyFrameStruct H) idA typeA payA.length
        (payA ++ wireDataCksum cfg payA) (i - 1) k rfl ht hu (by omega) hk hrest
      simpa only [List.append_assoc] using hc
    · have e2 : wireFormat cfg idA typeA payA =
          (wireHead cfg idA typeA payA.length ++ wireHeadCksum cfg idA typeA payA.length) ++
            (payA ++ wireDataCksum cfg payA) := by
        simp [wireFormat, List.append_assoc]
      have hl : (wireHead cfg idA typeA payA.length ++
          wireHeadCksum cfg idA typeA payA.length).length =
          1 + cfg.TF_ID_BYTES + cfg.TF_LEN_BYTES + cfg.TF_TYPE_BYTES + cfg.TF_CKSUM_BYTES := by
        simp [hhl, hcl, hsl]
      rw [e2, flipBit_append_right _ _ _ _ (by omega), hl,
        flipBit_append_left _ _ _ _ (by omega)]
      have hc := corrupt_payload cfg hwf (TF_Init peer : TinyFrameStruct H) idA typeA payA
        (i - (1 + cfg.TF_ID_BYTES + cfg.TF_LEN_BYTES + cfg.TF_TYPE_BYTES + cfg.TF_CKSUM_BYTES))
        k rfl ht hlenA hmaxA hbytesA (by omega) hk
      simpa only [List.append_assoc] using hc
  have hb := roundtrip_cksum cfg hwf r1.1 idB typeB payB key.1 ht hidB htypeB hlenB hmaxB
  simp only [r2, hB]
  exact ⟨key.2, hb.2, hb.1⟩

/-- C4 (amended) at XOR-8: frame A (ID 7, type `0x22`, payload `[2, 2, 3]`) with
bit 0 of its ID byte flipped, then frame B (ID 8, type `0x33`, payload `[5]`). -/
theorem C4_corruption_resync_witness :
    (1 ≤ 1 ∧ 1 < 1 + (demoConfig CksumType.xor8).TF_ID_BYTES +
        (demoConfig CksumType.xor8).TF_LEN_BYTES + (demoConfig CksumType.xor8).TF_TYPE_BYTES ∧
      ∀ b ∈ (composed (demoConfig CksumType.xor8) 0x22 [2, 2, 3] 7).drop
        (1 + (demoConfig CksumType.xor8).TF_ID_BYTES + (demoConfig CksumType.xor8).TF_LEN_BYTES +
          (demoConfig CksumType.xor8).TF_TYPE_BYTES + (demoConfig CksumType.xor8).TF_CKSUM_BYTES),
        b ≠ (demoConfig CksumType.xor8).TF_SOF_BYTE) ∧
    (frames (TF_Accept (demoConfig CksumType.xor8) (TF_Init 0 : TinyFrameStruct Unit)
        (flipBit (composed (demoConfig CksumType.xor8) 0x22 [2, 2, 3] 7) 1 0)).2 = [] ∧
      frames (TF_Accept (demoConfig CksumType.xor8)
        (TF_Accept (demoConfig CksumType.xor8) (TF_Init 0 : TinyFrameStruct Unit)
          (flipBit (composed (demoConfig CksumType.xor8) 0x22 [2, 2, 3] 7) 1 0)).1
        (composed (demoConfig CksumType.xor8) 0x33 [5] 8)).2 = [⟨8, 0x33, [5], 1⟩] ∧
      (TF_Accept (demoConfig CksumType.xor8)
        (TF_Accept (demoConfig CksumType.xor8) (TF_Init 0 : TinyFrameStruct Unit)
          (flipBit (composed (demoConfig CksumType.xor8) 0x22 [2, 2, 3] 7) 1 0)).1
        (composed (demoConfig CksumType.xor8) 0x33 [5] 8)).1.state = TFState.SOF) :=
  ⟨by decide,
    C4_corruption_resync (demoConfig CksumType.xor8)
      ⟨by decide, by decide, by decide, by decide, by decide⟩ (by decide) rfl
      0 7 0x22 [2, 2, 3] 8 0x33 [5] 1 0 (by decide) (by decide) (by decide) (by decide)
      (by decide) (by decide) (by decide) (by decide)
      (Or.inr (Or.inl (by decide)))⟩

/-! ### Inputs on which the parser loses or mishandles a frame -/

/-- C1, failing inputs.  With a checksum (XOR-8, CRC-16, CRC-32) a composed
frame whose payload has exactly `TF_MAX_PAYLOAD` bytes is consumed without a
dispatch; without a checksum a composed frame with an empty payload leaves
the parser in state `DATA` without a dispatch. -/
theorem C1_roundtrip_failures :
    [1, 2, 3, 4].length ≤ (demoConfig CksumType.xor8).TF_MAX_PAYLOAD ∧
    composed (demoConfig CksumType.xor8) 0x22 [1, 2, 3, 4] 7 =
      [1, 7, 0, 4, 34, 223, 1, 2, 3, 4, 251] ∧
    frames (TF_Accept (demoConfig CksumType.xor8) (TF_Init 0 : TinyFrameStruct Unit)
      (composed (demoConfig CksumType.xor8) 0x22 [1, 2, 3, 4] 7)).2 = [] ∧
    frames (TF_Accept (demoConfig CksumType.crc16) (TF_Init 0 : TinyFrameStruct Unit)
      (composed (demoConfig CksumType.crc16) 0x22 [1, 2, 3, 4] 7)).2 = [] ∧
    frames (TF_Accept (demoConfig CksumType.crc32) (TF_Init 0 : TinyFrameStruct Unit)
      (composed (demoConfig CksumType.crc32) 0x22 [1, 2, 3, 4] 7)).2 = [] ∧
    composed (demoConfig CksumType.none) 0x22 [] 7 = [1, 7, 0, 0, 34] ∧
    frames (TF_Accept (demoConfig CksumType.none) (TF_Init 0 : TinyFrameStruct Unit)
      (composed (demoConfig CksumType.none) 0x22 [] 7)).2 = [] ∧
    (TF_Accept (demoConfig CksumType.none) (TF_Init 0 : TinyFrameStruct Unit)
      (composed (demoConfig CksumType.none) 0x22 [] 7)).1.state = TFState.DATA := by
  decide

/-- C3, failing input.  Without a checksum, a header that declares 5 payload
bytes for a buffer of `TF_MAX_PAYLOAD = 4` is followed by stores at the
indices 0 to 4, the last one past the end of the buffer, and by a dispatch of
the 5 bytes. -/
theorem C3_oversized_no_checksum :
    (demoConfig CksumType.none).TF_MAX_PAYLOAD = 4 ∧
    stores (TF_Accept (demoConfig CksumType.none) (TF_Init 0 : TinyFrameStruct Unit)
      ([1, 7, 0, 5, 34] ++ [9, 9, 9, 9, 9])).2 = [0, 1, 2, 3, 4] ∧
    frames (TF_Accept (demoConfig CksumType.none) (TF_Init 0 : TinyFrameStruct Unit)
      ([1, 7, 0, 5, 34] ++ [9, 9, 9, 9, 9])).2 = [⟨7, 34, [9, 9, 9, 9, 9], 5⟩] := by
  decide

/-- C5, failing input.  Without a checksum: the first three bytes of frame A
(ID 7, type `0x22`, payload `[1, 2]`), ten ticks, then the whole frame B (ID 8,
type `0x33`, empty payload) cause no dispatch at all; the parser waits in
state `DATA`. -/
theorem C5_timeout_no_checksum :
    composed (demoConfig CksumType.none) 0x22 [1, 2] 7 = [1, 7, 0] ++ [2, 34, 1, 2] ∧
    composed (demoConfig CksumType.none) 0x33 [] 8 = [1, 8, 0, 0, 51] ∧
    (demoConfig CksumType.none).TF_PARSER_TIMEOUT_TICKS = 10 ∧
    frames (TF_Accept (demoConfig CksumType.none) (TF_Init 0 : TinyFrameStruct Unit)
      [1, 7, 0]).2 = [] ∧
    frames (TF_Accept (demoConfig CksumType.none)
      (tickN (demoConfig CksumType.none)
        (TF_Accept (demoConfig CksumType.none) (TF_Init 0 : TinyFrameStruct Unit) [1, 7, 0]).1
        10)
      (composed (demoConfig CksumType.none) 0x33 [] 8)).2 = [] ∧
    (TF_Accept (demoConfig CksumType.none)
      (tickN (demoConfig CksumType.none)
        (TF_Accept (demoConfig CksumType.none) (TF_Init 0 : TinyFrameStruct Unit) [1, 7, 0]).1
        10)
      (composed (demoConfig CksumType.none) 0x33 [] 8)).1.state = TFState.DATA := by
  decide

/-- The timeout scenario with XOR-8: the first three bytes of frame A, ten
ticks, then frame B (ID 8, type `0x33`, empty payload) cause exactly the
dispatch of B. -/
theorem timeout_demo_xor8 :
    frames (TF_Accept (demoConfig CksumType.xor8) (TF_Init 0 : TinyFrameStruct Unit)
      [1, 7, 0]).2 = [] ∧
    frames (TF_Accept (demoConfig CksumType.xor8)
      (tickN (demoConfig CksumType.xor8)
        (TF_Accept (demoConfig CksumType.xor8) (TF_Init 0 : TinyFrameStruct Unit) [1, 7, 0]).1
        10)
      (composed (demoConfig CksumType.xor8) 0x33 [] 8)).2 = [⟨8, 0x33, [], 0⟩] := by
  decide

/-- An oversized frame with XOR-8: the header `[1, 7, 0, 5, 34]` with its
checksum `222` declares 5 payload bytes for a buffer of 4; the five bytes and
the checksum byte are consumed without a store or a dispatch and the parser
is idle again. -/
theorem oversized_demo_xor8 :
    (TF_Accept (demoConfig CksumType.xor8) (TF_Init 0 : TinyFrameStruct Unit)
      ([1, 7, 0, 5, 34, 222] ++ [9, 9, 9, 9, 9] ++ [246])).2 = [] ∧
    (TF_Accept (demoConfig CksumType.xor8) (TF_Init 0 : TinyFrameStruct Unit)
      ([1, 7, 0, 5, 34, 222] ++ [9, 9, 9, 9, 9] ++ [246])).1.state = TFState.SOF ∧
    (TF_Accept (demoConfig CksumType.xor8) (TF_Init 0 : TinyFrameStruct Unit)
      ([1, 7, 0, 5, 34, 222] ++ [9, 9, 9, 9, 9])).1.state = TFState.DATA_CKSUM ∧
    (TF_Accept (demoConfig CksumType.xor8) (TF_Init 0 : TinyFrameStruct Unit)
      ([1, 7, 0, 5, 34, 222] ++ [9, 9, 9, 9, 9])).1.discard_data = true := by
  decide

/-! ### Parser: frames that declare too many bytes -/

theorem accept_DATA_discard (cfg : Config) (tf : TinyFrameStruct H) (bs : List Nat)
    (hpos : 0 < cfg.TF_PARSER_TIMEOUT_TICKS) (ht : cfg.TF_CKSUM_TYPE ≠ CksumType.none)
    (hst : tf.state = TFState.DATA) (hd : tf.discard_data = true)
    (hto : tf.parser_timeout_ticks < cfg.TF_PARSER_TIMEOUT_TICKS)
    (hlen : tf.rxi + bs.length = tf.len) (hne : bs ≠ []) :
    TF_Accept cfg tf bs =
      ({ tf with
          state := TFState.DATA_CKSUM
          rxi := 0
          ref_cksum := 0
          parser_timeout_ticks := 0 }, []) := by
  induction bs generalizing tf with
  | nil => exact absurd rfl hne
  | cons c cs ih =>
    have hst' : tf.state ≠ TFState.SOF := by rw [hst]; decide
    simp only [TF_Accept]
    rw [acceptChar_active cfg tf c hto hst']
    simp only [TF_AcceptChar.switch, hst, hd, if_true]
    by_cases hfin : tf.rxi + 1 = tf.len
    · have hcs : cs = [] := by
        apply List.eq_nil_of_length_eq_zero
        simp only [List.length_cons] at hlen
        omega
      subst hcs
      simp [hfin, ht, TF_Accept]
    · have hcs : cs ≠ [] := by
        intro e
        subst e
        simp only [List.length_cons, List.length_nil] at hlen
        omega
      simp only [hfin, if_false]
      rw [ih _ rfl rfl hpos (by simp only [List.length_cons] at hlen; simp only; omega)
        hcs]
      simp

/-- With a checksum, a frame whose header declares `TF_MAX_PAYLOAD` bytes or
more is consumed to its end, whatever the payload and checksum bytes are,
without a store and without a dispatch, and the parser is idle again. -/
theorem oversized_contained (cfg : Config) (hwf : cfg.WF) (tf : TinyFrameStruct H)
    (id type n : Nat) (bs cs : List Nat) (hst : tf.state = TFState.SOF)
    (ht : cfg.TF_CKSUM_TYPE ≠ CksumType.none)
    (hlen : n < 2 ^ (8 * cfg.TF_LEN_BYTES)) (hmax : cfg.TF_MAX_PAYLOAD ≤ n) (hn0 : n ≠ 0)
    (hbs : bs.length = n) (hcs : cs.length = cfg.TF_CKSUM_BYTES) :
    (TF_Accept cfg tf (wireHead cfg id type n ++ wireHeadCksum cfg id type n ++ bs ++ cs)).1.state
        = TFState.SOF ∧
      (TF_Accept cfg tf (wireHead cfg id type n ++ wireHeadCksum cfg id type n ++ bs ++ cs)).2
        = [] := by
  have hpos := hwf.timeout_pos
  have hck1 : wireHeadCksum cfg id type n =
      bigEndian cfg.TF_CKSUM_BYTES (checksumOf cfg.TF_CKSUM_TYPE (wireHead cfg id type n)) := by
    simp [wireHeadCksum, ht]
  have hr : ∀ x, CKSUM_RESET cfg.TF_CKSUM_TYPE x = CKSUM_RESET cfg.TF_CKSUM_TYPE 0 :=
    fun x => CKSUM_RESET_const _ ht x 0
  have hbne : bs ≠ [] := by
    intro e
    rw [e] at hbs
    exact hn0 hbs.symm
  have hcne : cs ≠ [] := by
    intro e
    rw [e] at hcs
    have := cksum_bytes_pos cfg.TF_CKSUM_TYPE
    simp [Config.TF_CKSUM_BYTES] at hcs
    omega
  simp only [hck1, List.append_assoc]
  rw [TF_Accept_append, accept_wireHead cfg hwf tf id type _ hst]
  simp only [List.nil_append, Nat.mod_eq_of_lt hlen]
  rw [TF_Accept_append, accept_HEAD_CKSUM_ok cfg _
    (checksumOf cfg.TF_CKSUM_TYPE (wireHead cfg id type n)) hpos
    (by simp [afterHeader, ht]) (by simpa [afterHeader] using hpos) rfl (checksumOf_lt _ ht _)
    (by simp [afterHeader, checksumOf, hr tf.cksum]) (by simpa [afterHeader] using hn0)]
  simp only [List.nil_append]
  rw [TF_Accept_append, accept_DATA_discard cfg _ bs hpos ht rfl
    (by simp [afterHeader, hmax]) hpos (by simp [afterHeader, hbs]) hbne]
  simp only [List.nil_append]
  rw [accept_DATA_CKSUM cfg _ cs hpos rfl hpos (by simp [hcs]) hcne]
  simp [afterHeader, hmax]

/-! ### Parser: truncated frames and the timeout -/

theorem frames_eq_nil_of_append (xs ys : List Event) (h : frames (xs ++ ys) = []) :
    frames xs = [] := by
  rw [frames_append] at h
  exact (List.append_eq_nil.mp h).1

theorem accept_HEAD_CKSUM_short (cfg : Config) (tf : TinyFrameStruct H) (bs : List Nat)
    (hpos : 0 < cfg.TF_PARSER_TIMEOUT_TICKS) (hst : tf.state = TFState.HEAD_CKSUM)
    (hto : tf.parser_timeout_ticks < cfg.TF_PARSER_TIMEOUT_TICKS)
    (hlen : tf.rxi + bs.length < cfg.TF_CKSUM_BYTES) :
    (TF_Accept cfg tf bs).2 = [] := by
  induction bs generalizing tf with
  | nil => rfl
  | cons c cs ih =>
    have hst' : tf.state ≠ TFState.SOF := by rw [hst]; decide
    simp only [List.length_cons] at hlen
    have hfin : ¬ tf.rxi + 1 = cfg.TF_CKSUM_BYTES := by omega
    simp only [TF_Accept]
    rw [acceptChar_active cfg tf c hto hst']
    simp only [TF_AcceptChar.switch, hst, hfin, if_false, List.nil_append]
    exact ih _ rfl hpos (by simp only; omega)

theorem accept_DATA_CKSUM_short (cfg : Config) (tf : TinyFrameStruct H) (bs : List Nat)
    (hpos : 0 < cfg.TF_PARSER_TIMEOUT_TICKS) (hst : tf.state = TFState.DATA_CKSUM)
    (hto : tf.parser_timeout_ticks < cfg.TF_PARSER_TIMEOUT_TICKS)
    (hlen : tf.rxi + bs.length < cfg.TF_CKSUM_BYTES) :
    (TF_Accept cfg tf bs).2 = [] := by
  induction bs generalizing tf with
  | nil => rfl
  | cons c cs ih =>
    have hst' : tf.state ≠ TFState.SOF := by rw [hst]; decide
    simp only [List.length_cons] at hlen
    have hfin : ¬ tf.rxi + 1 = cfg.TF_CKSUM_BYTES := by omega
    simp only [TF_Accept]
    rw [acceptChar_active cfg tf c hto hst']
    simp only [TF_AcceptChar.switch, hst, hfin, if_false, List.nil_append]
    exact ih _ rfl hpos (by simp only; omega)

theorem dropLast_length_lt (bs : List Nat) (hne : bs ≠ []) : bs.dropLast.length < bs.length := by
  rw [List.length_dropLast]
  have := List.length_pos.mpr hne
  omega

/-- A composed frame with a checksum, short of its last byte, causes no
dispatch. -/
theorem accept_frame_dropLast (cfg : Config) (hwf : cfg.WF) (tf : TinyFrameStruct H)
    (id type : Nat) (payload : List Nat) (hst : tf.state = TFState.SOF)
    (ht : cfg.TF_CKSUM_TYPE ≠ CksumType.none)
    (hlen : payload.length < 2 ^ (8 * cfg.TF_LEN_BYTES))
    (hmax : payload.length < cfg.TF_MAX_PAYLOAD) :
    frames (TF_Accept cfg tf (wireFormat cfg id type payload).dropLast).2 = [] := by
  have hpos := hwf.timeout_pos
  have hcb : cfg.TF_CKSUM_BYTES = cfg.TF_CKSUM_TYPE.bytes := rfl
  have hck1 : ∀ n, wireHeadCksum cfg id type n =
      bigEndian cfg.TF_CKSUM_BYTES (checksumOf cfg.TF_CKSUM_TYPE (wireHead cfg id type n)) := by
    intro n
    simp [wireHeadCksum, ht]
  have hr : ∀ x, CKSUM_RESET cfg.TF_CKSUM_TYPE x = CKSUM_RESET cfg.TF_CKSUM_TYPE 0 :=
    fun x => CKSUM_RESET_const _ ht x 0
  have hbne : ∀ x, bigEndian cfg.TF_CKSUM_BYTES x ≠ [] :=
    fun x => bigEndian_ne_nil _ x (cksum_bytes_pos _)
  by_cases hne : payload = []
  · subst hne
    simp only [wireFormat, hck1, wireDataCksum, List.length_nil, or_true, if_true,
      List.append_nil]
    rw [List.dropLast_append_of_ne_nil _ (hbne _), TF_Accept_append,
      accept_wireHead cfg hwf tf id type _ hst]
    simp only [List.nil_append]
    rw [accept_HEAD_CKSUM_short cfg _ _ hpos (by simp [afterHeader, ht])
      (by simpa [afterHeader] using hpos)
      (by
        have := dropLast_length_lt _ (hbne
          (checksumOf cfg.TF_CKSUM_TYPE (wireHead cfg id type 0)))
        simp only [bigEndian_length] at this
        simpa [afterHeader] using this)]
    rfl
  · have hn0 : payload.length ≠ 0 := fun e => hne (List.length_eq_zero.mp e)
    have hnm : ¬ payload.length ≥ cfg.TF_MAX_PAYLOAD := by omega
    have hck2 : wireDataCksum cfg payload =
        bigEndian cfg.TF_CKSUM_BYTES (checksumOf cfg.TF_CKSUM_TYPE payload) := by
      simp [wireDataCksum, ht, hn0]
    simp only [wireFormat, hck1, hck2, List.append_assoc]
    rw [← List.append_assoc, ← List.append_assoc,
      List.dropLast_append_of_ne_nil _ (hbne _), List.append_assoc, List.append_assoc,
      TF_Accept_append, accept_wireHead cfg hwf tf id type _ hst]
    simp only [List.nil_append, Nat.mod_eq_of_lt hlen]
    rw [TF_Accept_append, accept_HEAD_CKSUM_ok cfg _
      (checksumOf cfg.TF_CKSUM_TYPE (wireHead cfg id type payload.length)) hpos
      (by simp [afterHeader, ht]) (by simpa [afterHeader] using hpos) rfl
      (checksumOf_lt _ ht _) (by simp [afterHeader, checksumOf, hr tf.cksum])
      (by simpa [afterHeader] using hn0)]
    simp only [List.nil_append]
    rw [TF_Accept_append, accept_DATA cfg _ payload hpos rfl (by simp [afterHeader, hnm]) hpos
      (by simp [afterHeader]) hne]
    simp only [ht, if_false]
    rw [accept_DATA_CKSUM_short cfg _ _ hpos rfl hpos
      (by
        have := dropLast_length_lt _ (hbne (checksumOf cfg.TF_CKSUM_TYPE payload))
        simp only [bigEndian_length] at this
        simpa using this)]
    simp [afterHeader, frames_storeEvents]

/-- A proper initial part of a composed frame with a checksum causes no
dispatch. -/
theorem accept_frame_truncated (cfg : Config) (hwf : cfg.WF) (tf : TinyFrameStruct H)
    (id type : Nat) (payload p q : List Nat) (hst : tf.state = TFState.SOF)
    (ht : cfg.TF_CKSUM_TYPE ≠ CksumType.none)
    (hlen : payload.length < 2 ^ (8 * cfg.TF_LEN_BYTES))
    (hmax : payload.length < cfg.TF_MAX_PAYLOAD)
    (hpq : p ++ q = wireFormat cfg id type payload) (hq : q ≠ []) :
    frames (TF_Accept cfg tf p).2 = [] := by
  have h := accept_frame_dropLast cfg hwf tf id type payload hst ht hlen hmax
  rw [← hpq, List.dropLast_append_of_ne_nil _ hq, TF_Accept_append] at h
  exact frames_eq_nil_of_append _ _ h

theorem TF_Tick_eq (cfg : Config) (tf : TinyFrameStruct H) :
    TF_Tick cfg tf = { tf with parser_timeout_ticks := (TF_Tick cfg tf).parser_timeout_ticks } := by
  unfold TF_Tick
  split <;> rfl

theorem tickN_state (cfg : Config) (tf : TinyFrameStruct H) (n : Nat) :
    (tickN cfg tf n).state = tf.state := by
  induction n generalizing tf with
  | zero => rfl
  | succ n ih =>
    rw [tickN, ih]
    unfold TF_Tick
    split <;> rfl

theorem tickN_ticks (cfg : Config) (tf : TinyFrameStruct H) (n : Nat)
    (hn : cfg.TF_PARSER_TIMEOUT_TICKS ≤ tf.parser_timeout_ticks + n) :
    cfg.TF_PARSER_TIMEOUT_TICKS ≤ (tickN cfg tf n).parser_timeout_ticks := by
  induction n generalizing tf with
  | zero => simpa [tickN] using hn
  | succ n ih =>
    rw [tickN]
    apply ih
    by_cases hlt : tf.parser_timeout_ticks < cfg.TF_PARSER_TIMEOUT_TICKS
    · simp only [TF_Tick, hlt, if_true]
      push_cast at hn
      omega
    · simp only [TF_Tick, hlt, if_false]
      omega

theorem accept_ticks_nonneg (cfg : Config) (tf : TinyFrameStruct H) (bs : List Nat)
    (h0 : 0 ≤ tf.parser_timeout_ticks) : 0 ≤ (TF_Accept cfg tf bs).1.parser_timeout_ticks := by
  induction bs generalizing tf with
  | nil => exact h0
  | cons c cs ih =>
    simp only [TF_Accept]
    apply ih
    have hz : ∀ s : TinyFrameStruct H, s.parser_timeout_ticks = 0 →
        (TF_AcceptChar.switch cfg s c).1.parser_timeout_ticks = 0 := by
      intro s hs
      unfold TF_AcceptChar.switch
      cases s.state <;> simp only <;> (repeat' split) <;>
        simp [TF_ParsBeginFrame, TF_ResetParser, hs]
    have : (TF_AcceptChar cfg tf c).1.parser_timeout_ticks = 0 := by
      unfold TF_AcceptChar
      apply hz
      simp only
      (repeat' split) <;> simp [TF_ParsBeginFrame, TF_ResetParser]
    omega

theorem accept_after_timeout (cfg : Config) (tf : TinyFrameStruct H) (c : Nat) (cs : List Nat)
    (h : cfg.TF_PARSER_TIMEOUT_TICKS ≤ tf.parser_timeout_ticks) :
    TF_Accept cfg tf (c :: cs) = TF_Accept cfg (TF_ResetParser tf) (c :: cs) := by
  have h1 : tf.parser_timeout_ticks ≥ cfg.TF_PARSER_TIMEOUT_TICKS := h
  have e : TF_AcceptChar cfg tf c = TF_AcceptChar cfg (TF_ResetParser tf) c := by
    simp [TF_AcceptChar, TF_ResetParser, h1]
  simp only [TF_Accept, e]

/-- Truncation and timeout, with a checksum: a proper initial part `p` of frame
A, then at least `TF_PARSER_TIMEOUT_TICKS` ticks, then the whole frame B, from
the freshly initialised parser: nothing is dispatched for `p`, and B is
dispatched exactly once, as sent. -/
theorem truncation_timeout_cksum (cfg : Config) (hwf : cfg.WF)
    (ht : cfg.TF_CKSUM_TYPE ≠ CksumType.none)
    (peer idA typeA : Nat) (payA : List Nat) (idB typeB : Nat) (payB p q : List Nat) (n : Nat)
    (hlenA : payA.length < 2 ^ (8 * cfg.TF_LEN_BYTES))
    (hmaxA : payA.length < cfg.TF_MAX_PAYLOAD)
    (hidB : idB < 2 ^ (8 * cfg.TF_ID_BYTES)) (htypeB : typeB < 2 ^ (8 * cfg.TF_TYPE_BYTES))
    (hlenB : payB.length < 2 ^ (8 * cfg.TF_LEN_BYTES))
    (hmaxB : payB.length < cfg.TF_MAX_PAYLOAD)
    (hpq : p ++ q = composed cfg typeA payA idA) (hq : q ≠ [])
    (hn : cfg.TF_PARSER_TIMEOUT_TICKS ≤ n) :
    frames (TF_Accept cfg (TF_Init peer : TinyFrameStruct H) p).2 = [] ∧
      frames (TF_Accept cfg
        (tickN cfg (TF_Accept cfg (TF_Init peer : TinyFrameStruct H) p).1 n)
        (composed cfg typeB payB idB)).2 = [⟨idB, typeB, payB, payB.length⟩] ∧
      (TF_Accept cfg
        (tickN cfg (TF_Accept cfg (TF_Init peer : TinyFrameStruct H) p).1 n)
        (composed cfg typeB payB idB)).1.state = TFState.SOF := by
  have hA := composed_eq cfg typeA payA idA hwf.sof_lt (by omega)
  have hB := composed_eq cfg typeB payB idB hwf.sof_lt (by omega)
  rw [hA] at hpq
  refine ⟨accept_frame_truncated cfg hwf _ idA typeA payA p q rfl ht hlenA hmaxA hpq hq, ?_⟩
  have h0 := accept_ticks_nonneg cfg (TF_Init peer : TinyFrameStruct H) p (le_refl _)
  have hT := tickN_ticks cfg (TF_Accept cfg (TF_Init peer : TinyFrameStruct H) p).1 n (by omega)
  have hne : wireFormat cfg idB typeB payB ≠ [] := by
    intro e
    have := congrArg List.length e
    simp [wireFormat, wireHead, bigEndian_length] at this
    have := hwf.id_pos
    omega
  obtain ⟨c, cs, hc⟩ := List.exists_cons_of_ne_nil hne
  rw [hB, hc, accept_after_timeout cfg _ c cs hT, ← hc]
  have hb := roundtrip_cksum cfg hwf
    (TF_ResetParser (tickN cfg (TF_Accept cfg (TF_Init peer : TinyFrameStruct H) p).1 n))
    idB typeB payB rfl ht hidB htypeB hlenB hmaxB
  exact ⟨hb.2, hb.1⟩

/-- The truncation theorem at XOR-8: the first three bytes of a frame, ten
ticks, then a second frame. -/
theorem truncation_timeout_cksum_witness :
    frames (TF_Accept (demoConfig CksumType.xor8) (TF_Init 0 : TinyFrameStruct Unit)
      [1, 7, 0]).2 = [] ∧
      frames (TF_Accept (demoConfig CksumType.xor8)
        (tickN (demoConfig CksumType.xor8)
          (TF_Accept (demoConfig CksumType.xor8) (TF_Init 0 : TinyFrameStruct Unit)
            [1, 7, 0]).1 10)
        (composed (demoConfig CksumType.xor8) 0x33 [5] 8)).2 = [⟨8, 0x33, [5], 1⟩] ∧
      (TF_Accept (demoConfig CksumType.xor8)
        (tickN (demoConfig CksumType.xor8)
          (TF_Accept (demoConfig CksumType.xor8) (TF_Init 0 : TinyFrameStruct Unit)
            [1, 7, 0]).1 10)
        (composed (demoConfig CksumType.xor8) 0x33 [5] 8)).1.state = TFState.SOF :=
  truncation_timeout_cksum (demoConfig CksumType.xor8)
    ⟨by decide, by decide, by decide, by decide, by decide⟩ (by decide)
    0 7 0x22 [1, 2] 8 0x33 [5] [1, 7, 0] [2, 34, 217, 1, 2, 252] 10
    (by decide) (by decide) (by decide) (by decide) (by decide) (by decide) (by decide)
    (by decide) (by decide)

/-! ### Single parser steps and the byte feed -/

/-- C11: when the parser is in state `HEAD_CKSUM` (no timeout pending), the byte
`c` completes the header checksum field, the finalized computed checksum
equals the collected one and the declared length is 0, this `TF_AcceptChar`
call does exactly one thing besides updating `tf`: it dispatches the frame
with the collected ID and type, an empty payload and length 0; it stores
nothing, leaves the payload buffer as it was and leaves the parser in state
`SOF`. -/
theorem C11_zero_length_frame (cfg : Config) (tf : TinyFrameStruct H) (c : Nat)
    (hst : tf.state = TFState.HEAD_CKSUM)
    (hto : tf.parser_timeout_ticks < cfg.TF_PARSER_TIMEOUT_TICKS)
    (hlast : tf.rxi + 1 = cfg.TF_CKSUM_BYTES)
    (hmatch : CKSUM_FINALIZE cfg.TF_CKSUM_TYPE tf.cksum =
      COLLECT_NUMBER cfg.TF_CKSUM_BYTES tf.ref_cksum c)
    (hlen : tf.len = 0) :
    (TF_AcceptChar cfg tf c).2 = [Event.dispatch ⟨tf.id, tf.type, [], 0⟩] ∧
      frames (TF_AcceptChar cfg tf c).2 = [⟨tf.id, tf.type, [], 0⟩] ∧
      stores (TF_AcceptChar cfg tf c).2 = [] ∧
      (TF_AcceptChar cfg tf c).1.state = TFState.SOF ∧
      (TF_AcceptChar cfg tf c).1.data = tf.data := by
  have hst2 : tf.state ≠ TFState.SOF := by rw [hst]; decide
  rw [acceptChar_active cfg tf c hto hst2]
  simp [TF_AcceptChar.switch, hst, hlast, hmatch, hlen, TF_ResetParser, frames, stores]

/-- C11 at XOR-8: after the header bytes `[1, 7, 0, 0, 34]` the checksum byte
`219` completes a frame of length 0. -/
theorem C11_zero_length_frame_witness :
    (TF_AcceptChar (demoConfig CksumType.xor8)
      (TF_Accept (demoConfig CksumType.xor8) (TF_Init 0 : TinyFrameStruct Unit)
        [1, 7, 0, 0, 34]).1 219).2 = [Event.dispatch ⟨7, 34, [], 0⟩] ∧
    (TF_AcceptChar (demoConfig CksumType.xor8)
      (TF_Accept (demoConfig CksumType.xor8) (TF_Init 0 : TinyFrameStruct Unit)
        [1, 7, 0, 0, 34]).1 219).1.state = TFState.SOF :=
  have h := C11_zero_length_frame (demoConfig CksumType.xor8)
    (TF_Accept (demoConfig CksumType.xor8) (TF_Init 0 : TinyFrameStruct Unit)
      [1, 7, 0, 0, 34]).1 219 (by decide) (by decide) (by decide) (by decide) (by decide)
  ⟨h.1, h.2.2.2.1⟩

/-- C12: feeding `xs ++ ys` with `TF_Accept` gives the same final state, the
same events and the same dispatched frames as feeding `xs` and then `ys`, from
any state; and `TF_Accept` on a one-byte buffer is one `TF_AcceptChar` call. -/
theorem C12_chunk_independence (cfg : Config) (s : TinyFrameStruct H) (xs ys : List Nat)
    (c : Nat) :
    (TF_Accept cfg s (xs ++ ys)).1 = (TF_Accept cfg (TF_Accept cfg s xs).1 ys).1 ∧
      (TF_Accept cfg s (xs ++ ys)).2 =
        (TF_Accept cfg s xs).2 ++ (TF_Accept cfg (TF_Accept cfg s xs).1 ys).2 ∧
      frames (TF_Accept cfg s (xs ++ ys)).2 =
        frames (TF_Accept cfg s xs).2 ++ frames (TF_Accept cfg (TF_Accept cfg s xs).1 ys).2 ∧
      TF_Accept cfg s [c] = TF_AcceptChar cfg s c := by
  refine ⟨?_, ?_, ?_, ?_⟩
  · rw [TF_Accept_append]
  · rw [TF_Accept_append]
  · rw [TF_Accept_append, frames_append]
  · simp [TF_Accept]

/-- C16, failing input.  XOR-8 with `TF_MAX_PAYLOAD = 4`: after the header
`[1, 7, 0, 4, 34]` and its matching checksum `223` the declared length is 4, not
greater than `TF_MAX_PAYLOAD`, and yet the discard flag is set; the four payload
bytes and the correct payload checksum `251` are then consumed without a store
and without a dispatch. -/
theorem C16_discard_at_max :
    (demoConfig CksumType.xor8).TF_MAX_PAYLOAD = 4 ∧
    (TF_Accept (demoConfig CksumType.xor8) (TF_Init 0 : TinyFrameStruct Unit)
      [1, 7, 0, 4, 34, 223]).1.state = TFState.DATA ∧
    (TF_Accept (demoConfig CksumType.xor8) (TF_Init 0 : TinyFrameStruct Unit)
      [1, 7, 0, 4, 34, 223]).1.len = 4 ∧
    (TF_Accept (demoConfig CksumType.xor8) (TF_Init 0 : TinyFrameStruct Unit)
      [1, 7, 0, 4, 34, 223]).1.discard_data = true ∧
    checksumOf CksumType.xor8 [1, 2, 3, 4] = 251 ∧
    (TF_Accept (demoConfig CksumType.xor8) (TF_Init 0 : TinyFrameStruct Unit)
      ([1, 7, 0, 4, 34, 223] ++ [1, 2, 3, 4] ++ [251])).2 = [] ∧
    (TF_Accept (demoConfig CksumType.xor8) (TF_Init 0 : TinyFrameStruct Unit)
      ([1, 7, 0, 4, 34, 223] ++ [1, 2, 3, 4] ++ [251])).1.state = TFState.SOF := by
  decide

theorem genId_lt (cfg : Config) (tf : TinyFrameStruct H) (e : Nat) :
    (TF_Compose.genId cfg tf e false).1 < 2 ^ (8 * cfg.TF_ID_BYTES) := by
  unfold TF_Compose.genId
  simp only [Bool.false_eq_true, if_false]
  split <;> exact Nat.mod_lt _ (by positivity)

/-- C18: with a checksum, let the parser be in any state whose state field is
`SOF` (all other fields arbitrary), and let `TF_Compose` write a frame with a
payload shorter than `TF_MAX_PAYLOAD`, with a generated ID or an explicit ID
that fits the ID field.  Feeding the written bytes dispatches exactly one
frame, with that ID, type and payload, and leaves the parser in state `SOF`. -/
theorem C18_roundtrip_from_idle (cfg : Config) (hwf : cfg.WF)
    (ht : cfg.TF_CKSUM_TYPE ≠ CksumType.none) (s tfc : TinyFrameStruct H)
    (outbuff : Nat → Nat) (type : Nat) (data : List Nat) (explicit_id : Nat)
    (use_expl_id : Bool) (hst : s.state = TFState.SOF)
    (hid : use_expl_id = true → explicit_id < 2 ^ (8 * cfg.TF_ID_BYTES))
    (htype : type < 2 ^ (8 * cfg.TF_TYPE_BYTES))
    (hlen : data.length < 2 ^ (8 * cfg.TF_LEN_BYTES))
    (hmax : data.length < cfg.TF_MAX_PAYLOAD) :
    let r := TF_Compose cfg tfc outbuff type data explicit_id use_expl_id
    let id := (TF_Compose.genId cfg tfc explicit_id use_expl_id).1
    frames (TF_Accept cfg s (bufferBytes r.outbuff r.ret.toNat)).2 =
        [⟨id, type, data, data.length⟩] ∧
      (TF_Accept cfg s (bufferBytes r.outbuff r.ret.toNat)).1.state = TFState.SOF ∧
      r.id_out = some id := by
  intro r id
  have hr := TF_Compose_eq cfg tfc outbuff type data explicit_id use_expl_id hwf.sof_lt
    (by omega)
  have hidlt : id < 2 ^ (8 * cfg.TF_ID_BYTES) := by
    cases hu : use_expl_id with
    | true =>
      have := hid hu
      simpa [id, TF_Compose.genId, hu] using this
    | false =>
      simp only [id, hu]
      exact genId_lt cfg tfc explicit_id
  have hb : bufferBytes r.outbuff r.ret.toNat = wireFormat cfg id type data := by
    simp only [r, hr, Int.toNat_ofNat]
    have h := bufferBytes_writeAt outbuff 0 (wireFormat cfg id type data)
    simpa [bufferBytes, id] using h
  rw [hb]
  have h := roundtrip_cksum cfg hwf s id type data hst ht hidlt htype hlen hmax
  exact ⟨h.2, h.1, by simp only [r, hr, id]⟩

/-- C18 at CRC-16: a parser left idle with stale fields by a dropped frame, then
a composed frame with a generated ID. -/
theorem C18_roundtrip_from_idle_witness :
    (TF_Accept (demoConfig CksumType.crc16) (TF_Init 0 : TinyFrameStruct Unit)
      [1, 9, 0, 2, 3, 0, 0]).1.state = TFState.SOF ∧
    (let r := TF_Compose (demoConfig CksumType.crc16) (TF_Init 1 : TinyFrameStruct Unit)
        (fun _ => 0) 0x22 [1, 2, 3] 0 false
     let id := (TF_Compose.genId (demoConfig CksumType.crc16)
        (TF_Init 1 : TinyFrameStruct Unit) 0 false).1
     frames (TF_Accept (demoConfig CksumType.crc16)
        (TF_Accept (demoConfig CksumType.crc16) (TF_Init 0 : TinyFrameStruct Unit)
          [1, 9, 0, 2, 3, 0, 0]).1 (bufferBytes r.outbuff r.ret.toNat)).2 =
        [⟨id, 0x22, [1, 2, 3], [1, 2, 3].length⟩] ∧
      (TF_Accept (demoConfig CksumType.crc16)
        (TF_Accept (demoConfig CksumType.crc16) (TF_Init 0 : TinyFrameStruct Unit)
          [1, 9, 0, 2, 3, 0, 0]).1 (bufferBytes r.outbuff r.ret.toNat)).1.state =
        TFState.SOF ∧
      r.id_out = some id) :=
  ⟨by decide,
    C18_roundtrip_from_idle (demoConfig CksumType.crc16)
      ⟨by decide, by decide, by decide, by decide, by decide⟩ (by decide)
      (TF_Accept (demoConfig CksumType.crc16) (TF_Init 0 : TinyFrameStruct Unit)
        [1, 9, 0, 2, 3, 0, 0]).1 (TF_Init 1) (fun _ => 0) 0x22 [1, 2, 3] 0 false
      (by decide) (by decide) (by decide) (by decide) (by decide)⟩

/-! ### ID generator: the sequence -/

theorem genId_next_id (cfg : Config) (tf : TinyFrameStruct H) (e : Nat) :
    (TF_Compose.genId cfg tf e false).2.next_id =
      (tf.next_id + 1) % 2 ^ (8 * cfg.TF_ID_BYTES) := by
  unfold TF_Compose.genId
  simp only [Bool.false_eq_true, if_false]
  split <;> rfl

theorem afterGenerated_next_id (cfg : Config) (peer n : Nat) :
    (afterGenerated cfg peer n).next_id = n % 2 ^ (8 * cfg.TF_ID_BYTES) := by
  induction n with
  | zero => simp [afterGenerated, TF_Init]
  | succ n ih => rw [afterGenerated, genId_next_id, ih, Nat.mod_add_mod]

theorem genId_value (cfg : Config) (tf : TinyFrameStruct H) (e : Nat)
    (hw : 0 < cfg.TF_ID_BYTES) :
    (TF_Compose.genId cfg tf e false).1 =
      tf.next_id % 2 ^ (8 * cfg.TF_ID_BYTES - 1) +
        (if tf.peer_bit ≠ 0 then 2 ^ (8 * cfg.TF_ID_BYTES - 1) else 0) := by
  have hlt : tf.next_id % 2 ^ (8 * cfg.TF_ID_BYTES - 1) < 2 ^ (8 * cfg.TF_ID_BYTES - 1) :=
    Nat.mod_lt _ (by positivity)
  have hpow : (2 : Nat) ^ (8 * cfg.TF_ID_BYTES) = 2 * 2 ^ (8 * cfg.TF_ID_BYTES - 1) := by
    rw [← pow_succ']
    congr 1
    omega
  have h1 : tf.next_id % 2 ^ (8 * cfg.TF_ID_BYTES - 1) % 2 ^ (8 * cfg.TF_ID_BYTES) =
      tf.next_id % 2 ^ (8 * cfg.TF_ID_BYTES - 1) := Nat.mod_eq_of_lt (by omega)
  unfold TF_Compose.genId
  simp only [Bool.false_eq_true, if_false, TF_ID_MASK, TF_ID_PEERBIT,
    Nat.and_pow_two_sub_one_eq_mod, h1]
  by_cases hp : tf.peer_bit = 0
  · simp [hp]
  · simp only [ne_eq, hp, not_false_eq_true, if_true]
    have h2 := Nat.mul_add_lt_is_or hlt 1
    rw [Nat.mul_one] at h2
    rw [Nat.or_comm, ← h2, Nat.mod_eq_of_lt (by omega), Nat.add_comm]

theorem mod_ne_of_lt_add (K n m : Nat) (h1 : n < m) (h2 : m < n + K) : n % K ≠ m % K := by
  intro e
  have h3 : (m - n) % K = 0 := Nat.sub_mod_eq_zero_of_mod_eq e.symm
  have h4 := Nat.eq_zero_of_dvd_of_lt (Nat.dvd_of_mod_eq_zero h3) (by omega)
  omega

/-- C13: with an ID field of `w = 8 * TF_ID_BYTES` bits, `w > 0`: the counter
after `n` generations is `n mod 2^w` and each generation advances it by one
modulo `2^w`; ID number `n` after `TF_Init peer` is `n mod 2^(w-1)`, plus the
top bit `2^(w-1)` exactly when `peer` is nonzero; hence two IDs generated
fewer than `2^(w-1)` generations apart differ. -/
theorem C13_id_sequence (cfg : Config) (hw : 0 < cfg.TF_ID_BYTES) (peer n : Nat) :
    (afterGenerated cfg peer n).next_id = n % 2 ^ (8 * cfg.TF_ID_BYTES) ∧
      (afterGenerated cfg peer (n + 1)).next_id =
        ((afterGenerated cfg peer n).next_id + 1) % 2 ^ (8 * cfg.TF_ID_BYTES) ∧
      nthGeneratedId cfg peer n =
        n % 2 ^ (8 * cfg.TF_ID_BYTES - 1) +
          (if peer ≠ 0 then 2 ^ (8 * cfg.TF_ID_BYTES - 1) else 0) ∧
      ((nthGeneratedId cfg peer n).testBit (8 * cfg.TF_ID_BYTES - 1) = true ↔ peer ≠ 0) ∧
      ∀ m, n < m → m < n + 2 ^ (8 * cfg.TF_ID_BYTES - 1) →
        nthGeneratedId cfg peer n ≠ nthGeneratedId cfg peer m := by
  have hdvd : 2 ^ (8 * cfg.TF_ID_BYTES - 1) ∣ 2 ^ (8 * cfg.TF_ID_BYTES) :=
    Nat.pow_dvd_pow 2 (by omega)
  have hval : ∀ k, nthGeneratedId cfg peer k =
      k % 2 ^ (8 * cfg.TF_ID_BYTES - 1) +
        (if peer ≠ 0 then 2 ^ (8 * cfg.TF_ID_BYTES - 1) else 0) := by
    intro k
    rw [nthGeneratedId, genId_value cfg _ 0 hw, afterGenerated_next_id,
      afterGenerated_peer_bit, Nat.mod_mod_of_dvd _ hdvd]
  refine ⟨afterGenerated_next_id cfg peer n, ?_, hval n, ?_, ?_⟩
  · rw [afterGenerated, genId_next_id]
  · by_cases hp : peer = 0
    · have h := genId_testBit_clear cfg (afterGenerated cfg peer n) 0
        (by rw [afterGenerated_peer_bit]; exact hp)
      rw [nthGeneratedId, h]
      simp [hp]
    · have h := genId_testBit_set cfg (afterGenerated cfg peer n) 0 hw
        (by rw [afterGenerated_peer_bit]; exact hp)
      rw [nthGeneratedId, h]
      simp [hp]
  · intro m h1 h2 e
    rw [hval n, hval m] at e
    exact mod_ne_of_lt_add _ n m h1 h2 (by omega)

/-- C13 at a one-byte ID field: ID number 300 of peer 1 is
`300 mod 128 + 128 = 172`, and it differs from ID number 427. -/
theorem C13_id_sequence_witness :
    0 < (demoConfig CksumType.xor8).TF_ID_BYTES ∧
    nthGeneratedId (demoConfig CksumType.xor8) 1 300 = 172 ∧
    nthGeneratedId (demoConfig CksumType.xor8) 1 300 ≠
      nthGeneratedId (demoConfig CksumType.xor8) 1 427 :=
  ⟨by decide,
    ((C13_id_sequence (demoConfig CksumType.xor8) (by decide) 1 300).2.2.1).trans (by decide),
    (C13_id_sequence (demoConfig CksumType.xor8) (by decide) 1 300).2.2.2.2 427 (by decide)
      (by decide)⟩

/-! ### What a remove call changes -/

theorem removeId_effect (tf : TinyFrameStruct H) (key : Nat) :
    ((TF_RemoveIdListener tf key).1 = false ∧ (TF_RemoveIdListener tf key).2 = tf) ∨
      ∃ k, k < tf.count_id_lst ∧ (TF_RemoveIdListener tf key).1 = true ∧
        (TF_RemoveIdListener tf key).2 = { tf with
          id_listeners := Function.update tf.id_listeners k ⟨(tf.id_listeners k).id, Option.none⟩
          count_id_lst := if k = tf.count_id_lst - 1 then tf.count_id_lst - 1 else tf.count_id_lst } := by
  unfold TF_RemoveIdListener
  rw [removeId_loop_eq]
  cases hfi : firstIndex (fun j => decide ((tf.id_listeners j).fn.isSome = true ∧ (tf.id_listeners j).id = key)) tf.count_id_lst 0 with
  | none => exact Or.inl ⟨rfl, rfl⟩
  | some k =>
    obtain ⟨_, h2, _, _⟩ := firstIndex_eq_some _ _ _ _ hfi
    exact Or.inr ⟨k, by omega, rfl, rfl⟩

theorem removeType_effect (tf : TinyFrameStruct H) (key : Nat) :
    ((TF_RemoveTypeListener tf key).1 = false ∧ (TF_RemoveTypeListener tf key).2 = tf) ∨
      ∃ k, k < tf.count_type_lst ∧ (TF_RemoveTypeListener tf key).1 = true ∧
        (TF_RemoveTypeListener tf key).2 = { tf with
          type_listeners := Function.update tf.type_listeners k ⟨(tf.type_listeners k).type, Option.none⟩
          count_type_lst := if k = tf.count_type_lst - 1 then tf.count_type_lst - 1 else tf.count_type_lst } := by
  unfold TF_RemoveTypeListener
  rw [removeType_loop_eq]
  cases hfi : firstIndex (fun j => decide ((tf.type_listeners j).fn.isSome = true ∧ (tf.type_listeners j).type = key)) tf.count_type_lst 0 with
  | none => exact Or.inl ⟨rfl, rfl⟩
  | some k =>
    obtain ⟨_, h2, _, _⟩ := firstIndex_eq_some _ _ _ _ hfi
    exact Or.inr ⟨k, by omega, rfl, rfl⟩

theorem removeGeneric_effect [DecidableEq H] (tf : TinyFrameStruct H) (key : Option H) :
    ((TF_RemoveGenericListener tf key).1 = false ∧ (TF_RemoveGenericListener tf key).2 = tf) ∨
      ∃ k, k < tf.count_generic_lst ∧ (TF_RemoveGenericListener tf key).1 = true ∧
        (TF_RemoveGenericListener tf key).2 = { tf with
          generic_listeners := Function.update tf.generic_listeners k ⟨Option.none⟩
          count_generic_lst := if k = tf.count_generic_lst - 1 then tf.count_generic_lst - 1 else tf.count_generic_lst } := by
  unfold TF_RemoveGenericListener
  rw [removeGeneric_loop_eq]
  cases hfi : firstIndex (fun j => decide ((tf.generic_listeners j).fn = key)) tf.count_generic_lst 0 with
  | none => exact Or.inl ⟨rfl, rfl⟩
  | some k =>
    obtain ⟨_, h2, _, _⟩ := firstIndex_eq_some _ _ _ _ hfi
    exact Or.inr ⟨k, by omega, rfl, rfl⟩

/-- C17: in a registry state reachable from `TF_Init` by add and remove calls,
each used count is at most the capacity of its table and every live slot lies
below the used count; and a remove call either returns false and changes
nothing, or returns true, sets the handler of one slot `k` below the used
count to null (key and all other slots, tables and fields unchanged) and
lowers the used count by one exactly when `k` was the used count minus one. -/
theorem C17_table_invariant [DecidableEq H] (cfg : Config) (tf : TinyFrameStruct H)
    (h : RegistryReachable cfg tf) (key : Nat) (cb : Option H) :
    (tf.count_id_lst ≤ cfg.TF_MAX_ID_LST ∧
      (∀ j, (tf.id_listeners j).fn.isSome = true → j < tf.count_id_lst) ∧
      tf.count_type_lst ≤ cfg.TF_MAX_TYPE_LST ∧
      (∀ j, (tf.type_listeners j).fn.isSome = true → j < tf.count_type_lst) ∧
      tf.count_generic_lst ≤ cfg.TF_MAX_GEN_LST ∧
      (∀ j, (tf.generic_listeners j).fn.isSome = true → j < tf.count_generic_lst)) ∧
    (((TF_RemoveIdListener tf key).1 = false ∧ (TF_RemoveIdListener tf key).2 = tf) ∨
      ∃ k, k < tf.count_id_lst ∧ (TF_RemoveIdListener tf key).1 = true ∧
        (TF_RemoveIdListener tf key).2 = { tf with
          id_listeners :=
            Function.update tf.id_listeners k ⟨(tf.id_listeners k).id, Option.none⟩
          count_id_lst :=
            if k = tf.count_id_lst - 1 then tf.count_id_lst - 1 else tf.count_id_lst }) ∧
    (((TF_RemoveTypeListener tf key).1 = false ∧ (TF_RemoveTypeListener tf key).2 = tf) ∨
      ∃ k, k < tf.count_type_lst ∧ (TF_RemoveTypeListener tf key).1 = true ∧
        (TF_RemoveTypeListener tf key).2 = { tf with
          type_listeners :=
            Function.update tf.type_listeners k ⟨(tf.type_listeners k).type, Option.none⟩
          count_type_lst :=
            if k = tf.count_type_lst - 1 then tf.count_type_lst - 1
            else tf.count_type_lst }) ∧
    (((TF_RemoveGenericListener tf cb).1 = false ∧ (TF_RemoveGenericListener tf cb).2 = tf) ∨
      ∃ k, k < tf.count_generic_lst ∧ (TF_RemoveGenericListener tf cb).1 = true ∧
        (TF_RemoveGenericListener tf cb).2 = { tf with
          generic_listeners := Function.update tf.generic_listeners k ⟨Option.none⟩
          count_generic_lst :=
            if k = tf.count_generic_lst - 1 then tf.count_generic_lst - 1
            else tf.count_generic_lst }) := by
  have hi := reachable_inv cfg tf h
  exact ⟨⟨hi.id_le, hi.id_live, hi.type_le, hi.type_live, hi.generic_le, hi.generic_live⟩,
    removeId_effect tf key, removeType_effect tf key, removeGeneric_effect tf cb⟩

/-- C17 on the registry with one listener of each kind: the used counts are
within the capacities, and removing the ID listener for ID 7 frees slot 0 and
lowers the used count from 1 to 0. -/
theorem C17_table_invariant_witness :
    RegistryReachable (demoConfig CksumType.xor8) demoRegistry ∧
    demoRegistry.count_id_lst ≤ (demoConfig CksumType.xor8).TF_MAX_ID_LST ∧
    (TF_RemoveIdListener demoRegistry 7).1 = true ∧
    (TF_RemoveIdListener demoRegistry 7).2.count_id_lst = 0 :=
  ⟨RegistryReachable.addGeneric (some 30)
      (RegistryReachable.addType 0x22 (some 20)
        (RegistryReachable.addId 7 (some 10) (RegistryReachable.init 0))),
    (C17_table_invariant (demoConfig CksumType.xor8) demoRegistry
      (RegistryReachable.addGeneric (some 30)
        (RegistryReachable.addType 0x22 (some 20)
          (RegistryReachable.addId 7 (some 10) (RegistryReachable.init 0)))) 7
      Option.none).1.1,
    by decide, by decide⟩

/-! ### CRC tables against the bit-at-a-time CRC -/

theorem crcShiftStep_xor (poly x y : Nat) :
    crcShiftStep poly (x ^^^ y) = crcShiftStep poly x ^^^ crcShiftStep poly y := by
  have hx : (x ^^^ y) % 2 = (x % 2 + y % 2) % 2 := by
    have h := Nat.testBit_xor x y 0
    simp only [Nat.testBit_zero] at h
    rcases Nat.mod_two_eq_zero_or_one x with a | a <;>
      rcases Nat.mod_two_eq_zero_or_one y with b | b <;>
      rcases Nat.mod_two_eq_zero_or_one (x ^^^ y) with c | c <;>
      simp [a, b, c] at h ⊢
  unfold crcShiftStep
  rw [hx, shiftRight_xor]
  rcases Nat.mod_two_eq_zero_or_one x with a | a <;>
    rcases Nat.mod_two_eq_zero_or_one y with b | b <;>
    simp only [a, b] <;> norm_num
  all_goals
    apply Nat.eq_of_testBit_eq
    intro i
    simp only [Nat.testBit_xor, Nat.testBit_shiftRight]
    cases x.testBit (1 + i) <;> cases y.testBit (1 + i) <;> cases poly.testBit i <;> rfl

theorem crcShiftStep_iterate_xor (poly k x y : Nat) :
    (crcShiftStep poly)^[k] (x ^^^ y) =
      (crcShiftStep poly)^[k] x ^^^ (crcShiftStep poly)^[k] y := by
  induction k generalizing x y with
  | zero => rfl
  | succ k ih => rw [Function.iterate_succ_apply, Function.iterate_succ_apply,
      Function.iterate_succ_apply, crcShiftStep_xor, ih]

theorem crcShiftStep_iterate_shift (poly k h : Nat) :
    (crcShiftStep poly)^[k] (h <<< k) = h := by
  induction k with
  | zero => rfl
  | succ k ih =>
    rw [Function.iterate_succ_apply]
    have h1 : (h <<< (k + 1)) % 2 = 0 := by
      rw [Nat.shiftLeft_eq, pow_succ, ← Nat.mul_assoc]
      exact Nat.mul_mod_left _ _
    have h2 : (h <<< (k + 1)) >>> 1 = h <<< k := by
      rw [Nat.shiftLeft_eq, Nat.shiftLeft_eq, Nat.shiftRight_eq_div_pow, pow_succ,
        ← Nat.mul_assoc]
      simp
    rw [crcShiftStep, h1, if_neg (by decide), h2, ih]

theorem split_low_byte (x : Nat) : x = ((x >>> 8) <<< 8) ^^^ (x &&& 0xff) := by
  apply Nat.eq_of_testBit_eq
  intro i
  have hff : (0xff : Nat) = 2 ^ 8 - 1 := by norm_num
  rw [Nat.testBit_xor, Nat.testBit_and, hff, Nat.testBit_two_pow_sub_one,
    Nat.testBit_shiftLeft, Nat.testBit_shiftRight]
  by_cases hi : i < 8
  · have : ¬ i ≥ 8 := by omega
    simp [hi, this]
  · have : i ≥ 8 := by omega
    have e : 8 + (i - 8) = i := by omega
    simp [hi, this, e]

/-- A table that lists the eight-step results of the bytes turns the table
lookup step into the bit-at-a-time CRC. -/
theorem crc_table_step (poly : Nat) (T : List Nat)
    (hT : ∀ i, i < 256 → T.getD i 0 = (crcShiftStep poly)^[8] i) (c b : Nat) (hb : b < 256) :
    (c >>> 8) ^^^ T.getD ((c ^^^ b) &&& 0xff) 0 = crcBitwise poly c b := by
  have hb8 : b >>> 8 = 0 := by
    rw [Nat.shiftRight_eq_div_pow]
    exact Nat.div_eq_of_lt (by simpa using hb)
  unfold crcBitwise
  conv_rhs => rw [split_low_byte (c ^^^ b)]
  rw [crcShiftStep_iterate_xor, crcShiftStep_iterate_shift, ← hT _ (and_ff_lt _),
    shiftRight_xor, hb8, Nat.xor_zero]

set_option maxRecDepth 100000 in
theorem crc16_table_spec :
    ∀ i, i < 256 → crc16_table.getD i 0 = (crcShiftStep 0xA001)^[8] i := by
  decide

set_option maxRecDepth 100000 in
theorem crc32_table_spec :
    ∀ i, i < 256 → crc32_table.getD i 0 = (crcShiftStep 0xEDB88320)^[8] i := by
  decide

/-- C14: for every 16-bit accumulator `c` and byte `b`, `crc16_byte c b` is the
bit-at-a-time reflected CRC step (XOR `b` into the low byte of `c`, then eight
times: shift right by one and XOR with `0xA001` if the bit shifted out was 1);
`0xA001` is `0x8005` with its 16 bits reversed; the reset value is 0, finalize
changes nothing, and the checksum of the ASCII bytes of `123456789` is
`0xBB3D`. -/
theorem C14_crc16_reflected (c b : Nat) (hc : c < 2 ^ 16) (hb : b < 256) :
    crc16_byte c b = crcBitwise 0xA001 c b ∧
      CKSUM_ADD CksumType.crc16 c b = crcBitwise 0xA001 c b ∧
      reverseBits 16 0x8005 = 0xA001 ∧
      CKSUM_RESET CksumType.crc16 c = 0 ∧
      CKSUM_FINALIZE CksumType.crc16 c = c ∧
      checksumOf CksumType.crc16 checkBytes = 0xBB3D := by
  have h : crc16_byte c b = crcBitwise 0xA001 c b := by
    rw [crc16_byte_eq c b hc]
    exact crc_table_step 0xA001 crc16_table crc16_table_spec c b hb
  exact ⟨h, h, by decide, rfl, rfl, by decide⟩

/-- C14 at accumulator `0xBEEF` and byte `0x31`. -/
theorem C14_crc16_reflected_witness :
    0xBEEF < 2 ^ 16 ∧ 0x31 < 256 ∧ crc16_byte 0xBEEF 0x31 = crcBitwise 0xA001 0xBEEF 0x31 :=
  ⟨by decide, by decide, (C14_crc16_reflected 0xBEEF 0x31 (by decide) (by decide)).1⟩

/-- C15: for every 32-bit accumulator `c` and byte `b`, `crc32_byte c b` is the
bit-at-a-time reflected CRC step (XOR `b` into the low byte of `c`, then eight
times: shift right by one and XOR with `0xEDB88320` if the bit shifted out was
1); the reset value is `0xFFFFFFFF`, finalize is the bitwise complement, and the
checksum of the ASCII bytes of `123456789` is `0xCBF43926`. -/
theorem C15_crc32_reflected (c b : Nat) (hc : c < 2 ^ 32) (hb : b < 256) :
    crc32_byte c b = crcBitwise 0xEDB88320 c b ∧
      CKSUM_ADD CksumType.crc32 c b = crcBitwise 0xEDB88320 c b ∧
      CKSUM_RESET CksumType.crc32 c = 0xFFFFFFFF ∧
      CKSUM_FINALIZE CksumType.crc32 c = c ^^^ 0xFFFFFFFF ∧
      CKSUM_FINALIZE CksumType.crc32 c = 0xFFFFFFFF - c ∧
      checksumOf CksumType.crc32 checkBytes = 0xCBF43926 := by
  have h : crc32_byte c b = crcBitwise 0xEDB88320 c b := by
    rw [crc32_byte_eq c b hc hb]
    exact crc_table_step 0xEDB88320 crc32_table crc32_table_spec c b hb
  have hf : CKSUM_FINALIZE CksumType.crc32 c = c ^^^ 0xFFFFFFFF := by
    simp only [CKSUM_FINALIZE]
    exact Nat.mod_eq_of_lt (Nat.xor_lt_two_pow hc (by norm_num))
  have hcomp : c ^^^ 0xFFFFFFFF = 0xFFFFFFFF - c := by
    apply Nat.eq_of_testBit_eq
    intro i
    have hff : (0xFFFFFFFF : Nat) = 2 ^ 32 - 1 := by norm_num
    have hsub : 0xFFFFFFFF - c = 2 ^ 32 - (c + 1) := by omega
    rw [Nat.testBit_xor, hsub, Nat.testBit_two_pow_sub_succ hc, hff,
      Nat.testBit_two_pow_sub_one]
    by_cases hi : i < 32
    · simp [hi]
    · have hlt : c < 2 ^ i := lt_of_lt_of_le hc (Nat.pow_le_pow_right (by norm_num) (by omega))
      simp [hi, Nat.testBit_lt_two_pow hlt]
  exact ⟨h, h, rfl, hf, hf.trans hcomp, by decide⟩

/-- C15 at accumulator `0xDEADBEEF` and byte `0x31`. -/
theorem C15_crc32_reflected_witness :
    0xDEADBEEF < 2 ^ 32 ∧ 0x31 < 256 ∧
      crc32_byte 0xDEADBEEF 0x31 = crcBitwise 0xEDB88320 0xDEADBEEF 0x31 :=
  ⟨by decide, by decide, (C15_crc32_reflected 0xDEADBEEF 0x31 (by decide) (by decide)).1⟩

/-! ### Reachable parser states -/

theorem reach_accept {H : Type} (cfg : Config) (bs : List Nat) :
    ∀ (tf : TinyFrameStruct H) (fed : List Nat), ParserReach cfg tf fed →
      ParserReach cfg (TF_Accept cfg tf bs).1 (fed ++ bs) := by
  induction bs with
  | nil => intro tf fed h; simpa [TF_Accept] using h
  | cons c cs ih =>
    intro tf fed h
    have h2 := ih _ _ (ParserReach.accept c h)
    simpa [TF_Accept] using h2

theorem switch_bufinv {H : Type} (cfg : Config) (tf : TinyFrameStruct H) (c : Nat)
    (ht : cfg.TF_CKSUM_TYPE ≠ CksumType.none)
    (h : tf.state = TFState.DATA → tf.discard_data = false →
      tf.rxi < tf.len ∧ tf.len < cfg.TF_MAX_PAYLOAD) :
    ((TF_AcceptChar.switch cfg tf c).1.state = TFState.DATA →
        (TF_AcceptChar.switch cfg tf c).1.discard_data = false →
        (TF_AcceptChar.switch cfg tf c).1.rxi < (TF_AcceptChar.switch cfg tf c).1.len ∧
          (TF_AcceptChar.switch cfg tf c).1.len < cfg.TF_MAX_PAYLOAD) ∧
      ∀ i ∈ stores (TF_AcceptChar.switch cfg tf c).2, i < cfg.TF_MAX_PAYLOAD := by
  cases hs : tf.state <;> simp only [TF_AcceptChar.switch, hs]
  case SOF => split_ifs <;> simp [TF_ParsBeginFrame, stores, hs]
  case ID => split_ifs <;> simp [stores, hs]
  case LEN => split_ifs <;> simp [stores, hs]
  case TYPE => split_ifs <;> simp [stores, hs]
  case HEAD_CKSUM =>
    split_ifs
    all_goals simp only [TF_ResetParser, stores]
    all_goals simp
    all_goals omega
  case DATA =>
    have h2 := h hs
    cases hd : tf.discard_data
    · have h3 := h2 hd
      simp only [hd, Bool.false_eq_true, if_false, if_neg ht]
      split_ifs with h4 <;> simp [stores, hs, hd] <;> omega
    · simp only [if_true, if_neg ht]
      split_ifs with h4 <;> simp [stores, hs, hd]
  case DATA_CKSUM => split_ifs <;> simp [stores, hs, TF_ResetParser]

theorem acceptChar_bufinv {H : Type} (cfg : Config) (tf : TinyFrameStruct H) (c : Nat)
    (ht : cfg.TF_CKSUM_TYPE ≠ CksumType.none)
    (h : tf.state = TFState.DATA → tf.discard_data = false →
      tf.rxi < tf.len ∧ tf.len < cfg.TF_MAX_PAYLOAD) :
    ((TF_AcceptChar cfg tf c).1.state = TFState.DATA →
        (TF_AcceptChar cfg tf c).1.discard_data = false →
        (TF_AcceptChar cfg tf c).1.rxi < (TF_AcceptChar cfg tf c).1.len ∧
          (TF_AcceptChar cfg tf c).1.len < cfg.TF_MAX_PAYLOAD) ∧
      ∀ i ∈ stores (TF_AcceptChar cfg tf c).2, i < cfg.TF_MAX_PAYLOAD := by
  unfold TF_AcceptChar
  apply switch_bufinv cfg _ c ht
  dsimp only
  split_ifs <;> simp_all [TF_ParsBeginFrame, TF_ResetParser]

theorem reach_bufinv {H : Type} (cfg : Config) (tf : TinyFrameStruct H) (fed : List Nat)
    (ht : cfg.TF_CKSUM_TYPE ≠ CksumType.none) (hr : ParserReach cfg tf fed) :
    tf.state = TFState.DATA → tf.discard_data = false →
      tf.rxi < tf.len ∧ tf.len < cfg.TF_MAX_PAYLOAD := by
  induction hr with
  | init peer => intro h; simp [TF_Init] at h
  | accept c _ ih => exact (acceptChar_bufinv cfg _ c ht ih).1
  | tick _ ih =>
    unfold TF_Tick
    split_ifs
    · exact ih
    · exact ih
  | reset _ ih => intro h; simp [TF_ResetParser] at h

/-- C19: in a checksummed mode, every parser state reachable from `TF_Init` by
`TF_AcceptChar` (any byte), `TF_Tick` and `TF_ResetParser` calls that is in
state `DATA` with the discard flag clear has `rxi < len < TF_MAX_PAYLOAD`, and
every store `tf.data[rxi] = c` of the next `TF_AcceptChar` call has an index
below `TF_MAX_PAYLOAD`. -/
theorem C19_payload_buffer_bound {H : Type} (cfg : Config) (tf : TinyFrameStruct H)
    (fed : List Nat) (c : Nat)
    (ht : cfg.TF_CKSUM_TYPE ≠ CksumType.none) (hr : ParserReach cfg tf fed) :
    (tf.state = TFState.DATA → tf.discard_data = false →
        tf.rxi < tf.len ∧ tf.len < cfg.TF_MAX_PAYLOAD) ∧
      ∀ i ∈ stores (TF_AcceptChar cfg tf c).2, i < cfg.TF_MAX_PAYLOAD :=
  ⟨reach_bufinv cfg tf fed ht hr,
    (acceptChar_bufinv cfg tf c ht (reach_bufinv cfg tf fed ht hr)).2⟩

/-- C19 after the header of a two-byte frame in XOR mode: the parser is in
state `DATA` with `rxi = 0 < len = 2 < 4`, and the next byte is stored at
index 0. -/
theorem C19_payload_buffer_bound_witness :
    (demoConfig CksumType.xor8).TF_CKSUM_TYPE ≠ CksumType.none ∧
    ParserReach (demoConfig CksumType.xor8)
      (TF_Accept (demoConfig CksumType.xor8) (TF_Init 0 : TinyFrameStruct Unit)
        [1, 7, 0, 2, 34, 217]).1 ([] ++ [1, 7, 0, 2, 34, 217]) ∧
    (TF_Accept (demoConfig CksumType.xor8) (TF_Init 0 : TinyFrameStruct Unit)
        [1, 7, 0, 2, 34, 217]).1.state = TFState.DATA ∧
    (TF_Accept (demoConfig CksumType.xor8) (TF_Init 0 : TinyFrameStruct Unit)
        [1, 7, 0, 2, 34, 217]).1.rxi = 0 ∧
    (TF_Accept (demoConfig CksumType.xor8) (TF_Init 0 : TinyFrameStruct Unit)
        [1, 7, 0, 2, 34, 217]).1.len = 2 ∧
    stores (TF_AcceptChar (demoConfig CksumType.xor8)
      (TF_Accept (demoConfig CksumType.xor8) (TF_Init 0 : TinyFrameStruct Unit)
        [1, 7, 0, 2, 34, 217]).1 0x55).2 = [0] ∧
    ∀ i ∈ stores (TF_AcceptChar (demoConfig CksumType.xor8)
      (TF_Accept (demoConfig CksumType.xor8) (TF_Init 0 : TinyFrameStruct Unit)
        [1, 7, 0, 2, 34, 217]).1 0x55).2, i < (demoConfig CksumType.xor8).TF_MAX_PAYLOAD :=
  ⟨by decide, reach_accept _ _ _ _ (ParserReach.init 0), by decide, by decide, by decide,
    by decide,
    (C19_payload_buffer_bound (demoConfig CksumType.xor8)
      (TF_Accept (demoConfig CksumType.xor8) (TF_Init 0 : TinyFrameStruct Unit)
        [1, 7, 0, 2, 34, 217]).1 ([] ++ [1, 7, 0, 2, 34, 217]) 0x55 (by decide)
      (reach_accept _ _ _ _ (ParserReach.init 0))).2⟩

/-! ### Parser soundness -/

theorem bigEndian_snoc (k x : Nat) :
    bigEndian (k + 1) x = bigEndian k (x / 256) ++ [x % 256] := by
  induction k with
  | zero => simp [bigEndian, List.range_succ]
  | succ k ih =>
    rw [bigEndian_succ, ih, bigEndian_succ]
    simp [Nat.div_div_eq_div_mul, pow_succ, Nat.mul_comm]

theorem bigEndian_mod (k w x : Nat) (h : k ≤ w) :
    bigEndian k (x % 2 ^ (8 * w)) = bigEndian k x := by
  unfold bigEndian
  apply List.map_congr_left
  intro i hi
  simp only [List.mem_reverse, List.mem_range] at hi
  have e : 2 ^ (8 * w) = 256 ^ i * (256 ^ (w - i - 1) * 256) := by
    rw [← pow_succ, ← pow_add, pow_mul]
    norm_num
    omega
  rw [e, Nat.mod_mul_right_div_self, Nat.mod_mul_left_mod]

theorem bigEndian_collect (w k d c : Nat) (hk : k + 1 ≤ w) (hc : c < 256) :
    bigEndian (k + 1) (COLLECT_NUMBER w d c) = bigEndian k d ++ [c] := by
  rw [COLLECT_NUMBER_eq w d c hc, bigEndian_mod _ _ _ hk, bigEndian_snoc]
  congr 2
  · omega
  · omega

theorem tracks_ID {H : Type} (cfg : Config) (tf : TinyFrameStruct H) (c : Nat)
    (cur : List Nat) (hwf : cfg.WF) (hc : c < 256) (hs : tf.state = TFState.ID)
    (h : Tracks cfg tf cur) :
    Tracks cfg (TF_AcceptChar.switch cfg tf c).1 (cur ++ [c]) ∧
      frames (TF_AcceptChar.switch cfg tf c).2 = [] := by
  simp only [Tracks, hs] at h
  obtain ⟨h1, h2, h3, h4⟩ := h
  have hb := bigEndian_collect cfg.TF_ID_BYTES tf.rxi tf.id c (by omega) hc
  simp only [TF_AcceptChar.switch, hs]
  split_ifs with he
  · simp only [Tracks, frames]
    refine ⟨⟨?_, hwf.len_pos, ?_, h4⟩, trivial⟩
    · rw [he] at hb
      rw [hb, h1]
      simp [bigEndian]
    · rw [List.foldl_append, ← h3]
      rfl
  · simp only [Tracks, frames, hs]
    refine ⟨⟨?_, by omega, ?_, h4⟩, trivial⟩
    · rw [hb, h1]
      simp
    · rw [List.foldl_append, ← h3]
      rfl

theorem tracks_LEN {H : Type} (cfg : Config) (tf : TinyFrameStruct H) (c : Nat)
    (cur : List Nat) (hwf : cfg.WF) (hc : c < 256) (hs : tf.state = TFState.LEN)
    (h : Tracks cfg tf cur) :
    Tracks cfg (TF_AcceptChar.switch cfg tf c).1 (cur ++ [c]) ∧
      frames (TF_AcceptChar.switch cfg tf c).2 = [] := by
  simp only [Tracks, hs] at h
  obtain ⟨h1, h2, h3, h4⟩ := h
  have hb := bigEndian_collect cfg.TF_LEN_BYTES tf.rxi tf.len c (by omega) hc
  simp only [TF_AcceptChar.switch, hs]
  split_ifs with he
  · simp only [Tracks, frames]
    refine ⟨⟨?_, hwf.type_pos, ?_, h4⟩, trivial⟩
    · rw [he] at hb
      rw [hb, h1]
      simp [bigEndian]
    · rw [List.foldl_append, ← h3]
      rfl
  · simp only [Tracks, frames, hs]
    refine ⟨⟨?_, by omega, ?_, h4⟩, trivial⟩
    · rw [hb, h1]
      simp
    · rw [List.foldl_append, ← h3]
      rfl

theorem tracks_TYPE {H : Type} (cfg : Config) (tf : TinyFrameStruct H) (c : Nat)
    (cur : List Nat) (ht : cfg.TF_CKSUM_TYPE ≠ CksumType.none)
    (hc : c < 256) (hs : tf.state = TFState.TYPE) (h : Tracks cfg tf cur) :
    Tracks cfg (TF_AcceptChar.switch cfg tf c).1 (cur ++ [c]) ∧
      frames (TF_AcceptChar.switch cfg tf c).2 = [] := by
  simp only [Tracks, hs] at h
  obtain ⟨h1, h2, h3, h4⟩ := h
  have hb := bigEndian_collect cfg.TF_TYPE_BYTES tf.rxi tf.type c (by omega) hc
  simp only [TF_AcceptChar.switch, hs, if_neg ht]
  split_ifs with he
  · simp only [Tracks, frames]
    rw [he] at hb
    have hcur : cur ++ [c] = wireHead cfg tf.id
        (COLLECT_NUMBER cfg.TF_TYPE_BYTES tf.type c) tf.len := by
      rw [wireHead, hb, h1]
      simp [sofPart]
    refine ⟨⟨?_, cksum_bytes_pos _, ?_, h4⟩, trivial⟩
    · rw [← hcur]
      simp [bigEndian]
    · rw [← hcur, List.foldl_append, ← h3]
      rfl
  · simp only [Tracks, frames, hs]
    refine ⟨⟨?_, by omega, ?_, h4⟩, trivial⟩
    · rw [hb, h1]
      simp
    · rw [List.foldl_append, ← h3]
      rfl

theorem tracks_HEAD_CKSUM {H : Type} (cfg : Config) (tf : TinyFrameStruct H) (c : Nat)
    (cur : List Nat) (ht : cfg.TF_CKSUM_TYPE ≠ CksumType.none)
    (hc : c < 256) (hs : tf.state = TFState.HEAD_CKSUM) (h : Tracks cfg tf cur) :
    Tracks cfg (TF_AcceptChar.switch cfg tf c).1 (cur ++ [c]) ∧
      ∀ f ∈ frames (TF_AcceptChar.switch cfg tf c).2,
        cur ++ [c] = wireFormat cfg f.frame_id f.type f.data ∧
          f.data_len = f.data.length ∧ f.data.length ≤ cfg.TF_MAX_PAYLOAD := by
  simp only [Tracks, hs] at h
  obtain ⟨h1, h2, h3, h4⟩ := h
  have hb := bigEndian_collect cfg.TF_CKSUM_BYTES tf.rxi tf.ref_cksum c (by omega) hc
  simp only [TF_AcceptChar.switch, hs]
  split_ifs with he hne hz hmax
  · simp [Tracks, frames, TF_ResetParser]
  · rw [he] at hb
    simp only [ne_eq, not_not] at hne
    have hcur : cur ++ [c] = wireHead cfg tf.id tf.type tf.len ++
        wireHeadCksum cfg tf.id tf.type tf.len := by
      rw [wireHeadCksum, if_neg ht, checksumOf, ← h3, hne, hb, h1]
      simp
    simp only [Tracks, frames, TF_ResetParser, List.mem_singleton, forall_eq, true_and]
    rw [hcur, wireFormat, wireDataCksum]
    simp [hz]
  · rw [he] at hb
    simp only [ne_eq, not_not] at hne
    simp [Tracks, frames]
  · rw [he] at hb
    simp only [ne_eq, not_not] at hne
    have hcur : cur ++ [c] = wireHead cfg tf.id tf.type tf.len ++
        wireHeadCksum cfg tf.id tf.type tf.len := by
      rw [wireHeadCksum, if_neg ht, checksumOf, ← h3, hne, hb, h1]
      simp
    simp only [Tracks, frames, List.not_mem_nil, false_implies, implies_true, and_true]
    intro _
    refine ⟨?_, by omega, by omega, ?_⟩
    · rw [hcur]
      simp [bufferBytes]
    · simp only [bufferBytes, List.range_zero, List.map_nil, List.foldl_nil]
      exact CKSUM_RESET_const _ ht _ _
  · simp only [Tracks, frames, hs, List.not_mem_nil, false_implies, implies_true, and_true]
    refine ⟨?_, by omega, h3, h4⟩
    rw [hb, h1]
    simp

theorem bufferBytes_update (buf : Nat → Nat) (n c : Nat) :
    bufferBytes (Function.update buf n c) (n + 1) = bufferBytes buf n ++ [c] := by
  rw [bufferBytes_succ, Function.update_same]
  congr 1
  apply bufferBytes_congr
  intro j hj
  exact Function.update_noteq (by omega) _ _

theorem tracks_DATA {H : Type} (cfg : Config) (tf : TinyFrameStruct H) (c : Nat)
    (cur : List Nat) (ht : cfg.TF_CKSUM_TYPE ≠ CksumType.none)
    (hs : tf.state = TFState.DATA) (h : Tracks cfg tf cur) :
    Tracks cfg (TF_AcceptChar.switch cfg tf c).1 (cur ++ [c]) ∧
      frames (TF_AcceptChar.switch cfg tf c).2 = [] := by
  simp only [Tracks, hs] at h
  simp only [TF_AcceptChar.switch, hs, if_neg ht]
  cases hd : tf.discard_data
  · obtain ⟨h1, h2, h3, h4⟩ := h hd
    have hb := bufferBytes_update tf.data tf.rxi c
    simp only [Bool.false_eq_true, if_false]
    split_ifs with he
    · simp only [Tracks, frames, and_true]
      intro _
      rw [he] at hb
      refine ⟨?_, cksum_bytes_pos _, by omega, h3, ?_⟩
      · rw [hb, h1]
        simp [bigEndian]
      · rw [hb, List.foldl_append, ← h4]
        rfl
    · simp only [Tracks, frames, hs, and_true]
      intro _
      refine ⟨?_, by omega, h3, ?_⟩
      · rw [hb, h1]
        simp
      · rw [hb, List.foldl_append, ← h4]
        rfl
  · simp only [if_true]
    split_ifs with he
    · simp [Tracks, frames, hd]
    · simp [Tracks, frames, hs, hd]

theorem tracks_DATA_CKSUM {H : Type} (cfg : Config) (tf : TinyFrameStruct H) (c : Nat)
    (cur : List Nat) (ht : cfg.TF_CKSUM_TYPE ≠ CksumType.none)
    (hc : c < 256) (hs : tf.state = TFState.DATA_CKSUM) (h : Tracks cfg tf cur) :
    Tracks cfg (TF_AcceptChar.switch cfg tf c).1 (cur ++ [c]) ∧
      ∀ f ∈ frames (TF_AcceptChar.switch cfg tf c).2,
        cur ++ [c] = wireFormat cfg f.frame_id f.type f.data ∧
          f.data_len = f.data.length ∧ f.data.length ≤ cfg.TF_MAX_PAYLOAD := by
  simp only [Tracks, hs] at h
  simp only [TF_AcceptChar.switch, hs]
  cases hd : tf.discard_data
  · obtain ⟨h1, h2, h3, h4, h5⟩ := h hd
    have hb := bigEndian_collect cfg.TF_CKSUM_BYTES tf.rxi tf.ref_cksum c (by omega) hc
    split_ifs with he hok
    · rw [he] at hb
      have hck := hok.2
      simp only at hck
      have hlen : (List.map tf.data (List.range tf.len)).length = tf.len := by simp
      simp only [Tracks, frames, TF_ResetParser, List.mem_singleton, forall_eq, true_and]
      refine ⟨?_, hlen.symm, by omega⟩
      rw [wireFormat, wireDataCksum, hlen, if_neg (by simp [ht, h3]), checksumOf]
      rw [bufferBytes] at h5
      rw [← h5, hck, hb, h1]
      simp [bufferBytes]
    · simp [Tracks, frames, TF_ResetParser]
    · simp only [Tracks, frames, hs, List.not_mem_nil, false_implies, implies_true, and_true]
      intro _
      refine ⟨?_, by omega, h3, h4, h5⟩
      rw [hb, h1]
      simp
  · split_ifs with he hok
    · simp [hd] at hok
    · simp [Tracks, frames, TF_ResetParser]
    · simp [Tracks, frames, hs, hd]

theorem tracks_switch {H : Type} (cfg : Config) (tf : TinyFrameStruct H) (c : Nat)
    (cur : List Nat) (hwf : cfg.WF) (ht : cfg.TF_CKSUM_TYPE ≠ CksumType.none)
    (hc : c < 256) (hs : tf.state ≠ TFState.SOF) (h : Tracks cfg tf cur) :
    Tracks cfg (TF_AcceptChar.switch cfg tf c).1 (cur ++ [c]) ∧
      ∀ f ∈ frames (TF_AcceptChar.switch cfg tf c).2,
        cur ++ [c] = wireFormat cfg f.frame_id f.type f.data ∧
          f.data_len = f.data.length ∧ f.data.length ≤ cfg.TF_MAX_PAYLOAD := by
  cases hst : tf.state
  case SOF => exact absurd hst hs
  case ID =>
    obtain ⟨a, b⟩ := tracks_ID cfg tf c cur hwf hc hst h
    exact ⟨a, by simp [b]⟩
  case LEN =>
    obtain ⟨a, b⟩ := tracks_LEN cfg tf c cur hwf hc hst h
    exact ⟨a, by simp [b]⟩
  case TYPE =>
    obtain ⟨a, b⟩ := tracks_TYPE cfg tf c cur ht hc hst h
    exact ⟨a, by simp [b]⟩
  case HEAD_CKSUM => exact tracks_HEAD_CKSUM cfg tf c cur ht hc hst h
  case DATA =>
    obtain ⟨a, b⟩ := tracks_DATA cfg tf c cur ht hst h
    exact ⟨a, by simp [b]⟩
  case DATA_CKSUM => exact tracks_DATA_CKSUM cfg tf c cur ht hc hst h

theorem tracks_idle {H : Type} (cfg : Config) (tf : TinyFrameStruct H) (c : Nat)
    (hwf : cfg.WF) (ht : cfg.TF_CKSUM_TYPE ≠ CksumType.none) (hc : c < 256)
    (hs : tf.state = TFState.SOF) :
    Tracks cfg (TF_AcceptChar.switch cfg
        (if !cfg.TF_USE_SOF_BYTE ∧ tf.state = TFState.SOF then TF_ParsBeginFrame cfg tf
          else tf) c).1 [c] ∧
      frames (TF_AcceptChar.switch cfg
        (if !cfg.TF_USE_SOF_BYTE ∧ tf.state = TFState.SOF then TF_ParsBeginFrame cfg tf
          else tf) c).2 = [] := by
  cases hu : cfg.TF_USE_SOF_BYTE
  · simp only [Bool.not_false, hs, and_self, if_true]
    have h0 : Tracks cfg (TF_ParsBeginFrame cfg tf) [] := by
      simp only [Tracks, TF_ParsBeginFrame, hu, sofPart, bigEndian]
      refine ⟨by simp, hwf.id_pos, ?_, trivial⟩
      simp only [Bool.false_eq_true, if_false, List.foldl_nil]
      exact CKSUM_RESET_const _ ht _ _
    exact tracks_ID cfg _ c [] hwf hc rfl h0
  · simp only [Bool.not_true, Bool.false_eq_true, false_and, if_false]
    simp only [TF_AcceptChar.switch, hs]
    split_ifs with he
    · simp only [Tracks, frames, TF_ParsBeginFrame, sofPart, hu, bigEndian, he, and_true]
      refine ⟨by simp, hwf.id_pos, ?_⟩
      simp only [if_true, List.foldl_cons, List.foldl_nil]
      rw [CKSUM_RESET_const _ ht tf.cksum 0]
    · simp [Tracks, frames, hs]

theorem tracks_acceptChar {H : Type} (cfg : Config) (tf : TinyFrameStruct H) (c : Nat)
    (cur : List Nat) (hwf : cfg.WF) (ht : cfg.TF_CKSUM_TYPE ≠ CksumType.none)
    (hc : c < 256) (h : Tracks cfg tf cur) :
    ∃ p cur2, cur ++ [c] = p ++ cur2 ∧ Tracks cfg (TF_AcceptChar cfg tf c).1 cur2 ∧
      ∀ f ∈ frames (TF_AcceptChar cfg tf c).2,
        cur2 = wireFormat cfg f.frame_id f.type f.data ∧
          f.data_len = f.data.length ∧ f.data.length ≤ cfg.TF_MAX_PAYLOAD := by
  unfold TF_AcceptChar
  dsimp only
  by_cases hto : tf.parser_timeout_ticks ≥ cfg.TF_PARSER_TIMEOUT_TICKS
  · rw [if_pos hto]
    obtain ⟨a, b⟩ := tracks_idle cfg
      { TF_ResetParser tf with parser_timeout_ticks := 0 } c hwf ht hc rfl
    exact ⟨cur, [c], rfl, a, by rw [b]; simp⟩
  · rw [if_neg hto]
    by_cases hs : tf.state = TFState.SOF
    · obtain ⟨a, b⟩ := tracks_idle cfg { tf with parser_timeout_ticks := 0 } c hwf ht hc hs
      exact ⟨cur, [c], rfl, a, by rw [b]; simp⟩
    · have hs2 : ({ tf with parser_timeout_ticks := 0 } : TinyFrameStruct H).state ≠
          TFState.SOF := hs
      rw [if_neg (by simp [hs])]
      obtain ⟨a, b⟩ := tracks_switch cfg { tf with parser_timeout_ticks := 0 } c cur hwf ht hc
        hs2 h
      exact ⟨[], cur ++ [c], rfl, a, b⟩

theorem reach_tracks {H : Type} (cfg : Config) (tf : TinyFrameStruct H) (fed : List Nat)
    (hwf : cfg.WF) (ht : cfg.TF_CKSUM_TYPE ≠ CksumType.none)
    (hr : ParserReach cfg tf fed) (hb : ∀ b ∈ fed, b < 256) :
    ∃ p cur, fed = p ++ cur ∧ Tracks cfg tf cur := by
  induction hr with
  | init peer => exact ⟨[], [], rfl, by simp [Tracks, TF_Init]⟩
  | accept c hr ih =>
    obtain ⟨p, cur, e, h⟩ := ih (fun b hb2 => hb b (List.mem_append_left _ hb2))
    obtain ⟨p2, cur2, e2, h2, _⟩ := tracks_acceptChar cfg _ c cur hwf ht
      (hb c (by simp)) h
    exact ⟨p ++ p2, cur2, by rw [e, List.append_assoc, e2, List.append_assoc], h2⟩
  | tick hr ih =>
    obtain ⟨p, cur, e, h⟩ := ih hb
    refine ⟨p, cur, e, ?_⟩
    unfold TF_Tick
    split_ifs
    · exact h
    · exact h
  | reset hr ih =>
    obtain ⟨p, cur, e, h⟩ := ih hb
    exact ⟨p, cur, e, by simp [Tracks, TF_ResetParser]⟩

/-- C20: in a checksummed mode, feed any bytes to a freshly initialised parser,
with `TF_Tick` (and `TF_ResetParser`) calls anywhere in between.  Whenever a
`TF_AcceptChar` call dispatches a frame, the bytes fed so far, the current one
included, end with exactly the bytes `TF_Compose` writes for the dispatched
type and payload with the dispatched ID given as explicit ID; these bytes are
the wire format, whose header and payload checksum fields are the checksums of
the header and of the payload.  The dispatched length is the length of the
dispatched payload and is at most `TF_MAX_PAYLOAD`. -/
theorem C20_parser_soundness {H : Type} (cfg : Config) (tf : TinyFrameStruct H)
    (fed : List Nat) (c : Nat) (f : Frame)
    (hwf : cfg.WF) (ht : cfg.TF_CKSUM_TYPE ≠ CksumType.none)
    (hr : ParserReach cfg tf fed) (hb : ∀ b ∈ fed ++ [c], b < 256)
    (hf : f ∈ frames (TF_AcceptChar cfg tf c).2) :
    (∃ p, fed ++ [c] = p ++ composed cfg f.type f.data f.frame_id) ∧
      composed cfg f.type f.data f.frame_id = wireFormat cfg f.frame_id f.type f.data ∧
      f.data_len = f.data.length ∧ f.data.length ≤ cfg.TF_MAX_PAYLOAD := by
  obtain ⟨p, cur, e, h⟩ := reach_tracks cfg tf fed hwf ht hr
    (fun b hb2 => hb b (List.mem_append_left _ hb2))
  obtain ⟨p2, cur2, e2, _, h3⟩ := tracks_acceptChar cfg tf c cur hwf ht (hb c (by simp)) h
  obtain ⟨h4, h5, h6⟩ := h3 f hf
  have hcomp := composed_eq cfg f.type f.data f.frame_id hwf.sof_lt h6
  refine ⟨⟨p ++ p2, ?_⟩, hcomp, h5, h6⟩
  rw [hcomp, ← h4, e, List.append_assoc, e2, List.append_assoc]

/-- C20 on a run in XOR mode: after a stray byte and the first nine bytes of
the frame with ID 7, type `0x22` and payload `[0xAA, 0xBB]`, the checksum byte
238 dispatches that frame, and the ten bytes after the stray one are the
bytes `TF_Compose` writes for it. -/
theorem C20_parser_soundness_witness :
    (demoConfig CksumType.xor8).WF ∧
    (demoConfig CksumType.xor8).TF_CKSUM_TYPE ≠ CksumType.none ∧
    ParserReach (demoConfig CksumType.xor8)
      (TF_Accept (demoConfig CksumType.xor8) (TF_Init 0 : TinyFrameStruct Unit)
        [9, 1, 7, 0, 2, 34, 217, 0xAA, 0xBB]).1 ([] ++ [9, 1, 7, 0, 2, 34, 217, 0xAA, 0xBB]) ∧
    (∀ b ∈ ([] ++ [9, 1, 7, 0, 2, 34, 217, 0xAA, 0xBB]) ++ [238], b < 256) ∧
    (⟨7, 0x22, [0xAA, 0xBB], 2⟩ : Frame) ∈ frames (TF_AcceptChar (demoConfig CksumType.xor8)
      (TF_Accept (demoConfig CksumType.xor8) (TF_Init 0 : TinyFrameStruct Unit)
        [9, 1, 7, 0, 2, 34, 217, 0xAA, 0xBB]).1 238).2 ∧
    composed (demoConfig CksumType.xor8) 0x22 [0xAA, 0xBB] 7 =
      [1, 7, 0, 2, 34, 217, 0xAA, 0xBB, 238] ∧
    ∃ p, ([] ++ [9, 1, 7, 0, 2, 34, 217, 0xAA, 0xBB]) ++ [238] =
      p ++ composed (demoConfig CksumType.xor8) 0x22 [0xAA, 0xBB] 7 :=
  ⟨⟨by decide, by decide, by decide, by decide, by decide⟩, by decide,
    reach_accept _ _ _ _ (ParserReach.init 0), by decide, by decide, by decide,
    (C20_parser_soundness (demoConfig CksumType.xor8)
      (TF_Accept (demoConfig CksumType.xor8) (TF_Init 0 : TinyFrameStruct Unit)
        [9, 1, 7, 0, 2, 34, 217, 0xAA, 0xBB]).1 ([] ++ [9, 1, 7, 0, 2, 34, 217, 0xAA, 0xBB])
      238 ⟨7, 0x22, [0xAA, 0xBB], 2⟩
      ⟨by decide, by decide, by decide, by decide, by decide⟩ (by decide)
      (reach_accept _ _ _ _ (ParserReach.init 0)) (by decide) (by decide)).1⟩

/-! ### Sending -/

theorem addId_sendbuf {H : Type} (cfg : Config) (tf : TinyFrameStruct H) (key : Nat)
    (cb : Option H) : (TF_AddIdListener cfg tf key cb).2.sendbuf = tf.sendbuf := by
  unfold TF_AddIdListener
  rw [addId_loop_eq]
  cases firstIndex (fun j => (tf.id_listeners j).fn.isNone) cfg.TF_MAX_ID_LST 0 <;> rfl

theorem genId_id_table {H : Type} (cfg : Config) (tf : TinyFrameStruct H) (e : Nat) (u : Bool) :
    (TF_Compose.genId cfg tf e u).2.id_listeners = tf.id_listeners ∧
      (TF_Compose.genId cfg tf e u).2.count_id_lst = tf.count_id_lst := by
  unfold TF_Compose.genId
  split
  · exact ⟨rfl, rfl⟩
  · split <;> exact ⟨rfl, rfl⟩

theorem bufferBytes_writeAt_take (buf : Nat → Nat) (bs : List Nat) (n : Nat)
    (h : n ≤ bs.length) : bufferBytes (writeAt buf 0 bs) n = bs.take n := by
  have h1 := bufferBytes_writeAt_zero buf bs
  have h2 : bufferBytes (writeAt buf 0 bs) n =
      ((List.range bs.length).map (writeAt buf 0 bs)).take n := by
    rw [← List.map_take, List.take_range, Nat.min_eq_left h, bufferBytes]
  rw [h2, h1]

/-- A `TF_Send` call with a payload longer than `TF_MAX_PAYLOAD` returns false
and does nothing else. -/
theorem TF_Send_fail {H : Type} (cfg : Config) (tf : TinyFrameStruct H) (type : Nat)
    (payload : List Nat) (listener : Option H) (p : Bool)
    (h : cfg.TF_MAX_PAYLOAD < payload.length) :
    TF_Send cfg tf type payload listener p =
      { ret := false, tf := tf, id_out := Option.none, written := Option.none } := by
  have hr : TF_Compose cfg tf tf.sendbuf type payload 0 false =
      { ret := TF_ERROR, outbuff := tf.sendbuf, id_out := Option.none, tf := tf } := by
    simp only [TF_Compose, gt_iff_lt, h, if_true]
  simp only [TF_Send, hr, if_true]

/-- Closed form of a `TF_Send` call with a payload of at most `TF_MAX_PAYLOAD`
bytes. -/
theorem TF_Send_eq {H : Type} (cfg : Config) (tf : TinyFrameStruct H) (type : Nat)
    (payload : List Nat) (listener : Option H) (p : Bool)
    (hsof : cfg.TF_SOF_BYTE < 256) (h : payload.length ≤ cfg.TF_MAX_PAYLOAD) :
    TF_Send cfg tf type payload listener p =
      { ret := true
        tf :=
          if listener.isSome then
            (TF_AddIdListener cfg
              { (TF_Compose.genId cfg tf 0 false).2 with
                sendbuf := writeAt tf.sendbuf 0
                  (wireFormat cfg (TF_Compose.genId cfg tf 0 false).1 type payload) }
              (TF_Compose.genId cfg tf 0 false).1 listener).2
          else
            { (TF_Compose.genId cfg tf 0 false).2 with
              sendbuf := writeAt tf.sendbuf 0
                (wireFormat cfg (TF_Compose.genId cfg tf 0 false).1 type payload) }
        id_out := if p then some (TF_Compose.genId cfg tf 0 false).1 else Option.none
        written := some ((wireFormat cfg (TF_Compose.genId cfg tf 0 false).1 type payload).take
          ((wireFormat cfg (TF_Compose.genId cfg tf 0 false).1 type payload).length %
            2 ^ (8 * cfg.TF_LEN_BYTES))) } := by
  have hne : ((wireFormat cfg (TF_Compose.genId cfg tf 0 false).1 type payload).length : Int) ≠
      TF_ERROR := by
    simp only [TF_ERROR]
    omega
  have hcast : (((wireFormat cfg (TF_Compose.genId cfg tf 0 false).1 type payload).length : Int) %
      2 ^ (8 * cfg.TF_LEN_BYTES)).toNat =
        (wireFormat cfg (TF_Compose.genId cfg tf 0 false).1 type payload).length %
          2 ^ (8 * cfg.TF_LEN_BYTES) := by
    norm_cast
  have hle : (wireFormat cfg (TF_Compose.genId cfg tf 0 false).1 type payload).length %
      2 ^ (8 * cfg.TF_LEN_BYTES) ≤
        (wireFormat cfg (TF_Compose.genId cfg tf 0 false).1 type payload).length :=
    Nat.mod_le _ _
  simp only [TF_Send, TF_Compose_eq cfg tf tf.sendbuf type payload 0 false hsof h, if_neg hne,
    Option.getD_some, hcast]
  congr 1
  cases listener with
  | none => simp only [Option.isSome_none, Bool.false_eq_true, if_false]
            rw [bufferBytes_writeAt_take _ _ _ hle]
  | some l => simp only [Option.isSome_some, if_true]
              rw [addId_sendbuf, bufferBytes_writeAt_take _ _ _ hle]

theorem compose_ret_ne_error {H : Type} (cfg : Config) (tf : TinyFrameStruct H)
    (outbuff : Nat → Nat) (type : Nat) (data : List Nat) (e : Nat) (u : Bool)
    (h : data.length ≤ cfg.TF_MAX_PAYLOAD) :
    (TF_Compose cfg tf outbuff type data e u).ret ≠ TF_ERROR := by
  have hn : ¬ data.length > cfg.TF_MAX_PAYLOAD := by omega
  have hr : 0 ≤ (TF_Compose cfg tf outbuff type data e u).ret := by
    simp only [TF_Compose, hn, if_false]
    exact Int.natCast_nonneg _
  simp only [TF_ERROR]
  omega

theorem compose_tf {H : Type} (cfg : Config) (tf : TinyFrameStruct H)
    (outbuff : Nat → Nat) (type : Nat) (data : List Nat) (e : Nat) (u : Bool)
    (h : data.length ≤ cfg.TF_MAX_PAYLOAD) :
    (TF_Compose cfg tf outbuff type data e u).tf = (TF_Compose.genId cfg tf e u).2 := by
  have hn : ¬ data.length > cfg.TF_MAX_PAYLOAD := by omega
  simp only [TF_Compose, hn, if_false]

/-- `TF_Send` returns true exactly when the payload has at most
`TF_MAX_PAYLOAD` bytes, whatever the listener and the state of the ID listener
table; `TF_WriteImpl` is called exactly then. -/
theorem TF_Send_ret {H : Type} (cfg : Config) (tf : TinyFrameStruct H) (type : Nat)
    (payload : List Nat) (listener : Option H) (p : Bool) :
    ((TF_Send cfg tf type payload listener p).ret = true ↔
        payload.length ≤ cfg.TF_MAX_PAYLOAD) ∧
      ((TF_Send cfg tf type payload listener p).written.isSome = true ↔
        payload.length ≤ cfg.TF_MAX_PAYLOAD) := by
  by_cases h : payload.length ≤ cfg.TF_MAX_PAYLOAD
  · have hne := compose_ret_ne_error cfg tf tf.sendbuf type payload 0 false h
    simp only [TF_Send, if_neg hne, h, Option.isSome_some]
    exact ⟨trivial, trivial⟩
  · rw [TF_Send_fail cfg tf type payload listener p (by omega)]
    simp [h]

/-- A successful `TF_Send` call made while every slot of the ID listener table
is occupied leaves the table and its used count as they were, also when a
listener is passed. -/
theorem TF_Send_full {H : Type} (cfg : Config) (tf : TinyFrameStruct H) (type : Nat)
    (payload : List Nat) (listener : Option H) (p : Bool)
    (hfull : ∀ j, j < cfg.TF_MAX_ID_LST → (tf.id_listeners j).fn.isSome = true)
    (h : payload.length ≤ cfg.TF_MAX_PAYLOAD) :
    (TF_Send cfg tf type payload listener p).ret = true ∧
      (TF_Send cfg tf type payload listener p).tf.id_listeners = tf.id_listeners ∧
      (TF_Send cfg tf type payload listener p).tf.count_id_lst = tf.count_id_lst := by
  have hne := compose_ret_ne_error cfg tf tf.sendbuf type payload 0 false h
  have htf := compose_tf cfg tf tf.sendbuf type payload 0 false h
  obtain ⟨g1, g2⟩ := genId_id_table cfg tf 0 false
  simp only [TF_Send, if_neg hne, htf, true_and]
  cases listener with
  | none => exact ⟨g1, g2⟩
  | some l =>
    simp only [Option.isSome_some, if_true]
    have hf := (addId_false_iff cfg
      { (TF_Compose.genId cfg tf 0 false).2 with
        sendbuf := (TF_Compose cfg tf tf.sendbuf type payload 0 false).outbuff }
      ((TF_Compose cfg tf tf.sendbuf type payload 0 false).id_out.getD 0) (some l)).mpr
        (by
          intro j hj
          show (((TF_Compose.genId cfg tf 0 false).2).id_listeners j).fn.isSome = true
          rw [g1]
          exact hfull j hj)
    rw [addId_false_same _ _ _ _ hf]
    exact ⟨g1, g2⟩

/-- C21, failing input.  Build with one-byte ID, length and type, XOR checksum
and `TF_MAX_PAYLOAD = 255`, the one slot of the ID listener table occupied.
`TF_Send` with a payload of 250 bytes and a non-null listener returns true and
leaves the ID listener table unchanged, and `tf.sendbuf` holds the frame of
256 bytes; but the length passed to `TF_WriteImpl` is `(TF_LEN)256 = 0`, so no
byte of the frame is handed to the transport. -/
theorem C21_send_truncates_length :
    (∀ j, j < byteLenConfig.TF_MAX_ID_LST → (fullIdTable.id_listeners j).fn.isSome = true) ∧
    (List.replicate 250 0).length ≤ byteLenConfig.TF_MAX_PAYLOAD ∧
    (TF_Send byteLenConfig fullIdTable 0x22 (List.replicate 250 0) (some 20) true).ret = true ∧
    (TF_Send byteLenConfig fullIdTable 0x22 (List.replicate 250 0) (some 20) true).id_out = some 0 ∧
    (TF_Send byteLenConfig fullIdTable 0x22 (List.replicate 250 0) (some 20) true).tf.id_listeners = fullIdTable.id_listeners ∧
    (TF_Send byteLenConfig fullIdTable 0x22 (List.replicate 250 0) (some 20) true).tf.count_id_lst = fullIdTable.count_id_lst ∧
    bufferBytes (TF_Send byteLenConfig fullIdTable 0x22 (List.replicate 250 0) (some 20) true).tf.sendbuf 256 =
      wireFormat byteLenConfig 0 0x22 (List.replicate 250 0) ∧
    (wireFormat byteLenConfig 0 0x22 (List.replicate 250 0)).length = 256 ∧
    (TF_Send byteLenConfig fullIdTable 0x22 (List.replicate 250 0) (some 20) true).written = some [] := by
  have hfull : ∀ j, j < byteLenConfig.TF_MAX_ID_LST →
      (fullIdTable.id_listeners j).fn.isSome = true := by decide
  have hmax : (List.replicate 250 0).length ≤ byteLenConfig.TF_MAX_PAYLOAD := by
    rw [List.length_replicate]
    decide
  have hid : (TF_Compose.genId byteLenConfig fullIdTable 0 false).1 = 0 := by decide
  have hany : ∀ pl : List Nat, pl.length = 250 →
      (wireFormat byteLenConfig 0 0x22 pl).length = 256 := by
    intro pl h
    simp [wireFormat_length, wireHead, wireHeadCksum, wireDataCksum, bigEndian_length,
      byteLenConfig, Config.TF_CKSUM_BYTES, CksumType.bytes, h]
  have hlen : (wireFormat byteLenConfig 0 0x22 (List.replicate 250 0)).length = 256 :=
    hany _ (List.length_replicate _ _)
  obtain ⟨f1, f2, f3⟩ := TF_Send_full byteLenConfig fullIdTable 0x22 (List.replicate 250 0)
    (some 20) true hfull hmax
  have he := TF_Send_eq byteLenConfig fullIdTable 0x22 (List.replicate 250 0) (some 20) true
    (by decide) hmax
  rw [hid] at he
  refine ⟨hfull, hmax, f1, ?_, f2, f3, ?_, hlen, ?_⟩
  · rw [he]
    rfl
  · rw [he]
    simp only [Option.isSome_some, if_true, addId_sendbuf]
    rw [bufferBytes_writeAt_take _ _ 256 (by rw [hlen]), List.take_of_length_le (by rw [hlen])]
  · rw [he, hlen]
    rfl

end TinyFrame
